import Mathlib

/-! Jit64 load/store translation (Source/Core/Core/PowerPC/Jit64/Jit_LoadStore.cpp)
and the raw memory card (Source/Core/Core/HW/GCMemcardRaw.cpp).

A shallow embedding of the load/store translators of the x86-64 recompiler.
Each translator is a function on the translator state `Jit`; every call it
makes on the code emitter or on the register cache is appended, in program
order, to the `code` field, and the register cache is threaded through.
`MemoryCard::Read` and `MemoryCard::Write` are functions on the card state;
a pointer is modelled by the bytes found from it on.
-/

namespace Dolphin

/-! ## Machine integers -/

/-- Conversion of an integer to `u32` (wraps modulo 2^32). -/
def u32 (x : Int) : Nat := (x % 4294967296).toNat

/-- The C++ cast `(s32)(s16)x` of a 16-bit field: sign extension. -/
def s16 (x : Nat) : Int :=
  if x % 65536 < 32768 then ((x % 65536 : Nat) : Int) else ((x % 65536 : Nat) : Int) - 65536

/-! ## Instruction word -/

/-- Modelled from the spec: the bitfield union `UGeckoInstruction` (declared in
Gekko.h, which is missing). The layout is the PowerPC one the source relies on:
`0x800D0000` is `lwz r0, imm(r13)` and `0x7c00022c` is `dcbt`. -/
structure UGeckoInstruction where
  hex : Nat
deriving DecidableEq, Repr

namespace UGeckoInstruction

/-- Primary opcode, bits 26..31 of the word. -/
def OPCD (inst : UGeckoInstruction) : Nat := inst.hex / 67108864 % 64
/-- Destination register field, bits 21..25. -/
def RD (inst : UGeckoInstruction) : Nat := inst.hex / 2097152 % 32
/-- Source register field (same bits as RD). -/
def RS (inst : UGeckoInstruction) : Nat := inst.hex / 2097152 % 32
/-- Base register field, bits 16..20. -/
def RA (inst : UGeckoInstruction) : Nat := inst.hex / 65536 % 32
/-- Index register field, bits 11..15. -/
def RB (inst : UGeckoInstruction) : Nat := inst.hex / 2048 % 32
/-- Extended opcode, bits 1..10. -/
def SUBOP10 (inst : UGeckoInstruction) : Nat := inst.hex / 2 % 1024
/-- Signed 16-bit immediate, bits 0..15. -/
def SIMM_16 (inst : UGeckoInstruction) : Int := s16 inst.hex

end UGeckoInstruction

/-! ## Host operands -/

/-- Host general purpose registers (x64Emitter.h); `EAX`, `ECX`, `EDX` are the
32-bit names of `RAX`, `RCX`, `RDX`. -/
inductive X64Reg where
  | RAX | RCX | RDX | RBX | RSP | RBP | RSI | RDI
  | R8 | R9 | R10 | R11 | R12 | R13 | R14 | R15
  | INVALID_REG
deriving DecidableEq, Repr

abbrev EAX : X64Reg := X64Reg.RAX
abbrev ECX : X64Reg := X64Reg.RCX
abbrev EDX : X64Reg := X64Reg.RDX

/-- Emitter operands that the load/store translators build. -/
inductive OpArg where
  /-- A default-constructed `OpArg()`: never assigned. -/
  | dummy
  /-- An immediate, `Imm32(v)`. -/
  | Imm32 (v : Nat)
  /-- A plain host register, `R(r)`. -/
  | R (r : X64Reg)
  /-- The home slot of guest register `i`, `M(&PowerPC::ppcState.gpr[i])`. -/
  | Mgpr (i : Nat)
  /-- The guest program counter slot, `M(&PC)`. -/
  | MPC
  /-- The operand `MDisp(r, off)`. -/
  | MDisp (r : X64Reg) (off : Int)
  /-- The operand `MComplex(base, index, scale, off)`. -/
  | MComplex (base index : X64Reg) (scale : Nat) (off : Int)
deriving DecidableEq, Repr

namespace OpArg

def IsImm : OpArg → Bool
  | Imm32 _ => true
  | _ => false

def IsSimpleReg : OpArg → Bool
  | R _ => true
  | _ => false

/-- The `offset` member; the translators read it only from immediates. -/
def offset : OpArg → Nat
  | Imm32 v => v
  | _ => 0

end OpArg

/-! ## Register cache -/

/-- Where the current value of a guest register lives. -/
inductive Loc where
  /-- In its home slot in `ppcState`. -/
  | home
  /-- A translation-time constant. -/
  | imm (v : Nat)
  /-- In a host register. -/
  | reg (x : X64Reg)
deriving DecidableEq, Repr

/-- Modelled from the spec: the guest register cache `gpr` (JitRegCache.cpp is
missing). It tracks the virtual-register-to-host-register bindings, the locked
guest registers and the reserved host registers (spec 4.1). -/
structure RegCache where
  regs : Nat → Loc
  locked : List Nat
  xlocked : List X64Reg
  /-- Host registers the allocator may hand out, in preference order. -/
  order : List X64Reg

namespace RegCache

/-- The operand currently holding guest register `i`: `gpr.R(i)`. -/
def R (rc : RegCache) (i : Nat) : OpArg :=
  match rc.regs i with
  | Loc.home => OpArg.Mgpr i
  | Loc.imm v => OpArg.Imm32 v
  | Loc.reg x => OpArg.R x

/-- The host register of guest register `i`: `gpr.RX(i)`. -/
def RX (rc : RegCache) (i : Nat) : X64Reg :=
  match rc.regs i with
  | Loc.reg x => x
  | _ => X64Reg.INVALID_REG

/-- Guest registers currently living in host register `x`. -/
def occupants (rc : RegCache) (x : X64Reg) : List Nat :=
  (List.range 32).filter (fun j => rc.regs j = Loc.reg x)

/-- Send every guest register living in `x` back to its home slot. -/
def spillX (rc : RegCache) (x : X64Reg) : RegCache :=
  { rc with regs := fun j => if rc.regs j = Loc.reg x then Loc.home else rc.regs j }

def Lock (rc : RegCache) (rs : List Nat) : RegCache :=
  { rc with locked := rs ++ rc.locked }

def UnlockAll (rc : RegCache) : RegCache := { rc with locked := [] }

def UnlockAllX (rc : RegCache) : RegCache := { rc with xlocked := [] }

/-- Reserve the host registers `xs`, spilling whatever occupies them. -/
def FlushLockX (rc : RegCache) (xs : List X64Reg) : RegCache :=
  let rc1 := xs.foldl spillX rc
  { rc1 with xlocked := xs ++ rc1.xlocked }

/-- A host register to bind next: the first unreserved register of the
allocation order that is empty, else the first unreserved one none of whose
occupants is locked (it will be spilled), else none. -/
def GetFreeXReg (rc : RegCache) : X64Reg :=
  match rc.order.find? (fun x => decide (x ∉ rc.xlocked) && (rc.occupants x).isEmpty) with
  | some x => x
  | none =>
    match rc.order.find?
        (fun x => decide (x ∉ rc.xlocked) && (rc.occupants x).all (fun j => decide (j ∉ rc.locked))) with
    | some x => x
    | none => X64Reg.INVALID_REG

/-- Bind guest register `i` to a host register (a no-op on the binding when it
already has one). -/
def BindToRegister (rc : RegCache) (i : Nat) ( _doLoad _makeDirty : Bool) : RegCache :=
  match rc.regs i with
  | Loc.reg _ => rc
  | _ =>
    let xr := rc.GetFreeXReg
    let rc1 := rc.spillX xr
    { rc1 with regs := fun j => if j = i then Loc.reg xr else rc1.regs j }

/-- Materialise guest register `i` when it is a constant. -/
def KillImmediate (rc : RegCache) (i : Nat) (doLoad makeDirty : Bool) : RegCache :=
  match rc.regs i with
  | Loc.imm _ => rc.BindToRegister i doLoad makeDirty
  | _ => rc

/-- Rebind guest register `i` to the constant `v`. -/
def SetImmediate32 (rc : RegCache) (i : Nat) (v : Nat) : RegCache :=
  { rc with regs := fun j => if j = i then Loc.imm v else rc.regs j }

end RegCache

/-! ## Emitted code -/

/-- Routines that emitted calls can target. -/
inductive Fn where
  | fifoDirectWrite8 | fifoDirectWrite16 | fifoDirectWrite32
  | OnIdle
  | Write_U8 | Write_U16 | Write_U32
deriving DecidableEq, Repr

/-- Condition codes used by the translators. -/
inductive CCFlags where
  | CC_NZ
deriving DecidableEq, Repr

/-- One call made by a translator, on the code emitter or on the register
cache, with its arguments. A branch and its target are paired by the name of
the `FixupBranch` variable. -/
inductive Op where
  | PanicAlert (msg : String)
  | assert_msg (msg : String)
  | FallBackToInterpreter (hex : Nat)
  | Lock (rs : List Nat)
  | FlushLockX (xs : List X64Reg)
  | BindToRegister (i : Nat) (doLoad makeDirty : Bool)
  | KillImmediate (i : Nat) (doLoad makeDirty : Bool)
  | SetImmediate32 (i : Nat) (v : Nat)
  | UnlockAll
  | UnlockAllX
  | MOV (bits : Nat) (dst src : OpArg)
  | ADD (bits : Nat) (dst src : OpArg)
  | XOR (bits : Nat) (dst src : OpArg)
  | LEA (bits : Nat) (dst : X64Reg) (src : OpArg)
  | TEST (bits : Nat) (a1 a2 : OpArg)
  | J_CC (cc : CCFlags) (branch : String)
  | SetJumpTarget (branch : String)
  | SafeLoadToReg (dst : X64Reg) (opAddress : OpArg) (accessSize : Nat) (offset : Int)
      (registersInUse : Nat) (signExtend : Bool)
  | SafeWriteRegToReg (value addr : X64Reg) (accessSize : Nat) (offset : Int)
      (registersInUse : Nat)
  | WriteToConstRamAddress (accessSize : Nat) (src : X64Reg) (address : Nat) (swap : Bool)
  | CALL (fn : Fn)
  | ABI_PushRegistersAndAdjustStack (mask : Nat) (noProlog : Bool)
  | ABI_PopRegistersAndAdjustStack (mask : Nat) (noProlog : Bool)
  | ABI_CallFunctionC (fn : Fn) (param1 : Nat)
  | ABI_CallFunctionAC (fn : Fn) (arg1 : OpArg) (param2 : Nat)
  | WriteExceptionExit
  | MEMCHECK_START
  | MEMCHECK_END
deriving DecidableEq, Repr

/-! ## Translator state -/

/-- Everything the translators read but do not own: the configuration
switches, the ABI constant `ABI_PARAM1`, guest memory as seen by
`Memory::ReadUnchecked_U32`, the classification `Memory::IsRAMAddress`, the
guest register file `PowerPC::ppcState.gpr` at translation time, and
`CallerSavedRegistersInUse` as a function of the register cache. -/
structure Config where
  bJITLoadStoreOff : Bool
  bJITLoadStorelbzxOff : Bool
  bJITLoadStorelXzOff : Bool
  bJITLoadStorelwzOff : Bool
  bSkipIdle : Bool
  bWii : Bool
  optimizeGatherPipe : Bool
  ABI_PARAM1 : X64Reg
  ReadUnchecked_U32 : Nat → Nat
  IsRAMAddress : Nat → Bool
  ppcStateGpr : Nat → Nat
  CallerSavedRegistersInUse : RegCache → Nat

/-- The per-block translation context `js`. -/
structure JitState where
  compilerPC : Nat
  memcheck : Bool
  fifoBytesThisBlock : Nat
deriving DecidableEq, Repr

/-- The translator: register cache, block context and the calls made so far. -/
structure Jit where
  gpr : RegCache
  js : JitState
  code : List Op

namespace Jit

/-- Append one emitter call. -/
def emit (jit : Jit) (op : Op) : Jit := { jit with code := jit.code ++ [op] }

def Lock (jit : Jit) (rs : List Nat) : Jit :=
  { jit with gpr := jit.gpr.Lock rs, code := jit.code ++ [Op.Lock rs] }

def FlushLockX (jit : Jit) (xs : List X64Reg) : Jit :=
  { jit with gpr := jit.gpr.FlushLockX xs, code := jit.code ++ [Op.FlushLockX xs] }

def BindToRegister (jit : Jit) (i : Nat) (doLoad makeDirty : Bool) : Jit :=
  { jit with gpr := jit.gpr.BindToRegister i doLoad makeDirty,
             code := jit.code ++ [Op.BindToRegister i doLoad makeDirty] }

def KillImmediate (jit : Jit) (i : Nat) (doLoad makeDirty : Bool) : Jit :=
  { jit with gpr := jit.gpr.KillImmediate i doLoad makeDirty,
             code := jit.code ++ [Op.KillImmediate i doLoad makeDirty] }

def SetImmediate32 (jit : Jit) (i : Nat) (v : Nat) : Jit :=
  { jit with gpr := jit.gpr.SetImmediate32 i v, code := jit.code ++ [Op.SetImmediate32 i v] }

def UnlockAll (jit : Jit) : Jit :=
  { jit with gpr := jit.gpr.UnlockAll, code := jit.code ++ [Op.UnlockAll] }

def UnlockAllX (jit : Jit) : Jit :=
  { jit with gpr := jit.gpr.UnlockAllX, code := jit.code ++ [Op.UnlockAllX] }

/-- Modelled from the spec: the macro `MEMCHECK_START` (its definition is
missing): in exception-precise mode it opens the guard that skips the enclosed
code when the access has faulted; otherwise it emits nothing. -/
def MEMCHECK_START (jit : Jit) : Jit :=
  if jit.js.memcheck then jit.emit Op.MEMCHECK_START else jit

/-- Modelled from the spec: the macro `MEMCHECK_END`, closing that guard. -/
def MEMCHECK_END (jit : Jit) : Jit :=
  if jit.js.memcheck then jit.emit Op.MEMCHECK_END else jit

end Jit

/-- The C++ cast `(s32)x` of a 32-bit value. -/
def s32 (x : Nat) : Int :=
  if x % 4294967296 < 2147483648 then ((x % 4294967296 : Nat) : Int)
  else ((x % 4294967296 : Nat) : Int) - 4294967296

/-! ## Jit64::lXXx -/

/-- The three `FALLBACK_IF` switches and `JITDISABLE` at the head of `lXXx`
(lines 19-26): the instruction is handed to the interpreter. -/
def lXXx_fallback (cfg : Config) (inst : UGeckoInstruction) : Bool :=
  cfg.bJITLoadStoreOff
  || (cfg.bJITLoadStorelbzxOff && inst.OPCD == 31 && inst.SUBOP10 == 87)
  || (cfg.bJITLoadStorelXzOff && (inst.OPCD == 34 || inst.OPCD == 40 || inst.OPCD == 32))
  || (cfg.bJITLoadStorelwzOff && inst.OPCD == 32)

/-- The access size and sign-extension switch (lines 28-90); `none` is the
`default:` arm, where both keep their initial values after the alert. -/
def lXXx_decode (inst : UGeckoInstruction) : Option (Nat × Bool) :=
  match inst.OPCD with
  | 32 | 33 => some (32, false)
  | 34 | 35 => some (8, false)
  | 40 | 41 => some (16, false)
  | 42 | 43 => some (16, true)
  | 31 =>
    match inst.SUBOP10 with
    | 23 | 55 => some (32, false)
    | 87 | 119 => some (8, false)
    | 279 | 311 => some (16, false)
    | 343 | 375 => some (16, true)
    | _ => none
  | _ => none

/-- The idle-loop test (lines 98-103). -/
def lXXx_idle (cfg : Config) (inst : UGeckoInstruction) (js : JitState) : Bool :=
  cfg.bSkipIdle
  && inst.OPCD == 32
  && (inst.hex &&& 0xFFFF0000) == 0x800D0000
  && (cfg.ReadUnchecked_U32 ((js.compilerPC + 4) % 4294967296) == 0x28000000
      || (cfg.bWii && cfg.ReadUnchecked_U32 ((js.compilerPC + 4) % 4294967296) == 0x2C000000))
  && cfg.ReadUnchecked_U32 ((js.compilerPC + 8) % 4294967296) == 0x4182fff8

/-- The body of the idle-loop branch (lines 110-133). -/
def lXXx_idleBody (cfg : Config) (inst : UGeckoInstruction) (accessSize : Nat)
    (signExtend : Bool) (jit : Jit) : Jit :=
  let a := inst.RA
  let d := inst.RD
  let offset : Int := inst.SIMM_16
  let jit := jit.BindToRegister d false true
  let jit := jit.emit (Op.SafeLoadToReg (jit.gpr.RX d) (jit.gpr.R a) accessSize offset
    (cfg.CallerSavedRegistersInUse jit.gpr) signExtend)
  let jit := jit.emit (Op.TEST 32 (jit.gpr.R d) (jit.gpr.R d))
  let jit := jit.emit (Op.J_CC CCFlags.CC_NZ "noIdle")
  let registersInUse := cfg.CallerSavedRegistersInUse jit.gpr
  let jit := jit.emit (Op.ABI_PushRegistersAndAdjustStack registersInUse false)
  let jit := jit.emit (Op.ABI_CallFunctionC Fn.OnIdle (u32 ((cfg.ppcStateGpr a : Int) + inst.SIMM_16)))
  let jit := jit.emit (Op.ABI_PopRegistersAndAdjustStack registersInUse false)
  let jit := jit.emit Op.WriteExceptionExit
  jit.emit (Op.SetJumpTarget "noIdle")

/-- Whether the instruction updates `inst.RA` (lines 136-141). -/
def lXXx_update (inst : UGeckoInstruction) (gpr : RegCache) : Bool :=
  if inst.OPCD = 31 then
    (inst.SUBOP10 &&& 0x20 != 0) && (!(gpr.R inst.RB).IsImm || (gpr.R inst.RB).offset != 0)
  else
    (inst.OPCD &&& 1 != 0) && inst.SIMM_16 != 0

/-- What "Prepare address operand" leaves behind: the translator and the
locals `opAddress`, `loadOffset`, `storeAddress`. -/
structure AddrPrep where
  jit : Jit
  opAddress : OpArg
  loadOffset : Int
  storeAddress : Bool

/-- The innermost `else` of the address preparation (lines 181-226). -/
def lXXx_addrDynamic (cfg : Config) (inst : UGeckoInstruction) (update : Bool) (jit : Jit) :
    AddrPrep :=
  let a := inst.RA
  let b := inst.RB
  let use_constant_offset : Bool := inst.OPCD != 31 || (jit.gpr.R b).IsImm
  let offset : Int := if inst.OPCD = 31 then s32 (jit.gpr.R b).offset else inst.SIMM_16
  if (update || use_constant_offset) && !jit.js.memcheck then
    let jit := jit.BindToRegister a true update
    let opAddress := jit.gpr.R a
    if !use_constant_offset then
      ⟨jit.emit (Op.ADD 32 opAddress (jit.gpr.R b)), opAddress, 0, false⟩
    else if update then
      ⟨jit.emit (Op.ADD 32 opAddress (OpArg.Imm32 (u32 offset))), opAddress, 0, false⟩
    else
      ⟨jit, opAddress, offset, false⟩
  else
    let jit := jit.FlushLockX [cfg.ABI_PARAM1]
    let opAddress := OpArg.R cfg.ABI_PARAM1
    if use_constant_offset then
      if (jit.gpr.R a).IsSimpleReg && offset != 0 then
        ⟨jit.emit (Op.LEA 32 cfg.ABI_PARAM1 (OpArg.MDisp (jit.gpr.RX a) offset)),
          opAddress, 0, true⟩
      else
        let jit := jit.emit (Op.MOV 32 opAddress (jit.gpr.R a))
        if offset != 0 then
          ⟨jit.emit (Op.ADD 32 opAddress (OpArg.Imm32 (u32 offset))), opAddress, 0, true⟩
        else
          ⟨jit, opAddress, 0, true⟩
    else if (jit.gpr.R a).IsSimpleReg && (jit.gpr.R b).IsSimpleReg then
      ⟨jit.emit (Op.LEA 32 cfg.ABI_PARAM1 (OpArg.MComplex (jit.gpr.RX a) (jit.gpr.RX b) 1 0)),
        opAddress, 0, true⟩
    else
      let jit := jit.emit (Op.MOV 32 opAddress (jit.gpr.R a))
      ⟨jit.emit (Op.ADD 32 opAddress (jit.gpr.R b)), opAddress, 0, true⟩

/-- "Prepare address operand" (lines 143-228). -/
def lXXx_prepareAddress (cfg : Config) (inst : UGeckoInstruction) (update : Bool) (jit : Jit) :
    AddrPrep :=
  let a := inst.RA
  let b := inst.RB
  let d := inst.RD
  if !update && a == 0 then
    if inst.OPCD = 31 then
      let jit := jit.Lock [b]
      ⟨jit, jit.gpr.R b, 0, false⟩
    else
      ⟨jit, OpArg.Imm32 (u32 inst.SIMM_16), 0, false⟩
  else if update && (a == 0 || d == a) then
    ⟨jit.emit (Op.PanicAlert "Invalid instruction"), OpArg.dummy, 0, false⟩
  else
    if inst.OPCD != 31 && (jit.gpr.R a).IsImm && !jit.js.memcheck then
      let val := u32 (((jit.gpr.R a).offset : Int) + inst.SIMM_16)
      ⟨if update then jit.SetImmediate32 a val else jit, OpArg.Imm32 val, 0, false⟩
    else if inst.OPCD == 31 && (jit.gpr.R a).IsImm && (jit.gpr.R b).IsImm && !jit.js.memcheck then
      let val := ((jit.gpr.R a).offset + (jit.gpr.R b).offset) % 4294967296
      ⟨if update then jit.SetImmediate32 a val else jit, OpArg.Imm32 val, 0, false⟩
    else
      lXXx_addrDynamic cfg inst update jit

/-- The load itself and the deferred write-back (lines 230-243). -/
def lXXx_finish (cfg : Config) (inst : UGeckoInstruction) (accessSize : Nat)
    (signExtend update : Bool) (p : AddrPrep) : Jit :=
  let a := inst.RA
  let b := inst.RB
  let d := inst.RD
  let jit := p.jit.Lock [a, b, d]
  let jit := jit.BindToRegister d jit.js.memcheck true
  let jit := jit.emit (Op.SafeLoadToReg (jit.gpr.RX d) p.opAddress accessSize p.loadOffset
    (cfg.CallerSavedRegistersInUse jit.gpr) signExtend)
  let jit :=
    if update && p.storeAddress then
      let jit := jit.BindToRegister a true true
      let jit := jit.MEMCHECK_START
      let jit := jit.emit (Op.MOV 32 (jit.gpr.R a) p.opAddress)
      jit.MEMCHECK_END
    else jit
  let jit := jit.UnlockAll
  jit.UnlockAllX

/-- The translator `Jit64::lXXx` (lines 16-244). -/
def lXXx (cfg : Config) (inst : UGeckoInstruction) (jit : Jit) : Jit :=
  if lXXx_fallback cfg inst then jit.emit (Op.FallBackToInterpreter inst.hex) else
  let accessSize := ((lXXx_decode inst).getD (0, false)).1
  let signExtend := ((lXXx_decode inst).getD (0, false)).2
  let jit := if (lXXx_decode inst).isNone then jit.emit (Op.PanicAlert "Invalid instruction") else jit
  if lXXx_idle cfg inst jit.js then lXXx_idleBody cfg inst accessSize signExtend jit else
  let update := lXXx_update inst jit.gpr
  lXXx_finish cfg inst accessSize signExtend update (lXXx_prepareAddress cfg inst update jit)

/-! ## Jit64::stX -/

/-- The access size switch of `stX` on `inst.OPCD & ~1` (lines 289-304). -/
def stX_accessSize (inst : UGeckoInstruction) : Option Nat :=
  match inst.OPCD &&& 0xFFFFFFFE with
  | 36 => some 32
  | 44 => some 16
  | 38 => some 8
  | _ => none

/-- The streaming-append routine for an access size (lines 324-335); the
switch has no default arm. -/
def fifoDirectWrite (accessSize : Nat) : Option Fn :=
  match accessSize with
  | 8 => some Fn.fifoDirectWrite8
  | 16 => some Fn.fifoDirectWrite16
  | 32 => some Fn.fifoDirectWrite32
  | _ => none

/-- The generic write handler for an access size (lines 355-366). -/
def memoryWrite (accessSize : Nat) : Option Fn :=
  match accessSize with
  | 32 => some Fn.Write_U32
  | 16 => some Fn.Write_U16
  | 8 => some Fn.Write_U8
  | _ => none

/-- The constant store address of `stX` (lines 310-311). -/
def stX_addr (inst : UGeckoInstruction) (gpr : RegCache) : Nat :=
  u32 (((if inst.RA = 0 then 0 else (gpr.R inst.RA).offset : Nat) : Int) + inst.SIMM_16)

/-- The constant-address part of `stX` (lines 306-372). -/
def stX_const (cfg : Config) (inst : UGeckoInstruction) (update : Bool) (accessSize : Nat)
    (jit : Jit) : Jit :=
  let s := inst.RS
  let a := inst.RA
  let addr := stX_addr inst jit.gpr
  if (addr &&& 0xFFFFF000) == 0xCC008000 && cfg.optimizeGatherPipe then
    let jit := jit.emit (Op.MOV 32 OpArg.MPC (OpArg.Imm32 jit.js.compilerPC))
    let jit := jit.FlushLockX [cfg.ABI_PARAM1]
    let jit := jit.emit (Op.MOV 32 (OpArg.R cfg.ABI_PARAM1) (jit.gpr.R s))
    let jit := if update then jit.SetImmediate32 a addr else jit
    let jit :=
      match fifoDirectWrite accessSize with
      | some fn => jit.emit (Op.CALL fn)
      | none => jit
    let jit := { jit with js := { jit.js with
      fifoBytesThisBlock := jit.js.fifoBytesThisBlock + accessSize / 8 } }
    jit.UnlockAllX
  else if cfg.IsRAMAddress addr then
    let jit := jit.emit (Op.MOV 32 (OpArg.R EAX) (jit.gpr.R s))
    let jit := jit.emit (Op.WriteToConstRamAddress accessSize EAX addr true)
    if update then jit.SetImmediate32 a addr else jit
  else
    let jit := jit.emit (Op.MOV 32 OpArg.MPC (OpArg.Imm32 jit.js.compilerPC))
    let registersInUse := cfg.CallerSavedRegistersInUse jit.gpr
    let jit := jit.emit (Op.ABI_PushRegistersAndAdjustStack registersInUse false)
    let jit :=
      match memoryWrite accessSize with
      | some fn => jit.emit (Op.ABI_CallFunctionAC fn (jit.gpr.R s) addr)
      | none => jit
    let jit := jit.emit (Op.ABI_PopRegistersAndAdjustStack registersInUse false)
    if update then jit.SetImmediate32 a addr else jit

/-- The run-time-address part of `stX` (lines 374-391). -/
def stX_dynamic (cfg : Config) (inst : UGeckoInstruction) (update : Bool) (accessSize : Nat)
    (jit : Jit) : Jit :=
  let s := inst.RS
  let a := inst.RA
  let offset : Int := inst.SIMM_16
  let jit := jit.FlushLockX [ECX, EDX]
  let jit := jit.Lock [s, a]
  let jit := jit.emit (Op.MOV 32 (OpArg.R EDX) (jit.gpr.R a))
  let jit := jit.emit (Op.MOV 32 (OpArg.R ECX) (jit.gpr.R s))
  let jit := jit.emit (Op.SafeWriteRegToReg ECX EDX accessSize offset
    (cfg.CallerSavedRegistersInUse jit.gpr))
  let jit :=
    if update && offset != 0 then
      let jit := jit.KillImmediate a true true
      let jit := jit.MEMCHECK_START
      let jit := jit.emit (Op.ADD 32 (jit.gpr.R a) (OpArg.Imm32 (u32 offset)))
      jit.MEMCHECK_END
    else jit
  let jit := jit.UnlockAll
  jit.UnlockAllX

/-- The flag `update` of `stX` (line 284): the low bit of the opcode. -/
def stX_update (inst : UGeckoInstruction) : Bool := inst.OPCD &&& 1 != 0

/-- The translator `Jit64::stX` (lines 276-397). -/
def stX (cfg : Config) (inst : UGeckoInstruction) (jit : Jit) : Jit :=
  if cfg.bJITLoadStoreOff then jit.emit (Op.FallBackToInterpreter inst.hex) else
  let a := inst.RA
  let update : Bool := stX_update inst
  if a != 0 || !update then
    match stX_accessSize inst with
    | none => jit.emit (Op.assert_msg "stX: Invalid access size.")
    | some accessSize =>
      if a == 0 || (jit.gpr.R a).IsImm then stX_const cfg inst update accessSize jit
      else stX_dynamic cfg inst update accessSize jit
  else
    jit.emit (Op.PanicAlert "Invalid stX")

/-! ## Jit64::stXx -/

/-- The access size switch of `stXx` on `inst.SUBOP10 & ~32` (lines 428-444). -/
def stXx_accessSize (inst : UGeckoInstruction) : Option Nat :=
  match inst.SUBOP10 &&& 0xFFFFFFDF with
  | 151 => some 32
  | 407 => some 16
  | 215 => some 8
  | _ => none

/-- The update test of `stXx` (line 410): bit 5 of the extended opcode. -/
def stXx_update (inst : UGeckoInstruction) : Bool := inst.SUBOP10 &&& 32 != 0

/-- The translator `Jit64::stXx` (lines 399-451). -/
def stXx (cfg : Config) (inst : UGeckoInstruction) (jit : Jit) : Jit :=
  if cfg.bJITLoadStoreOff then jit.emit (Op.FallBackToInterpreter inst.hex) else
  let a := inst.RA
  let b := inst.RB
  let s := inst.RS
  if a == 0 || a == s || a == b then jit.emit (Op.FallBackToInterpreter inst.hex) else
  let jit := jit.Lock [a, b, s]
  let jit := jit.FlushLockX [ECX, EDX]
  let jit :=
    if stXx_update inst then
      let jit := jit.MEMCHECK_START
      let jit := jit.BindToRegister a true true
      let jit := jit.emit (Op.ADD 32 (jit.gpr.R a) (jit.gpr.R b))
      let jit := jit.emit (Op.MOV 32 (OpArg.R EDX) (jit.gpr.R a))
      jit.MEMCHECK_END
    else if (jit.gpr.R a).IsSimpleReg && (jit.gpr.R b).IsSimpleReg then
      jit.emit (Op.LEA 32 EDX (OpArg.MComplex (jit.gpr.RX a) (jit.gpr.RX b) 1 0))
    else
      let jit := jit.emit (Op.MOV 32 (OpArg.R EDX) (jit.gpr.R a))
      jit.emit (Op.ADD 32 (OpArg.R EDX) (jit.gpr.R b))
  let accessSize := (stXx_accessSize inst).getD 0
  let jit :=
    if (stXx_accessSize inst).isNone then jit.emit (Op.PanicAlert "stXx: invalid access size")
    else jit
  let jit := jit.emit (Op.MOV 32 (OpArg.R ECX) (jit.gpr.R s))
  let jit := jit.emit (Op.SafeWriteRegToReg ECX EDX accessSize 0
    (cfg.CallerSavedRegistersInUse jit.gpr))
  let jit := jit.UnlockAll
  jit.UnlockAllX

/-! ## Vocabulary of the properties -/

/-- The calls `new` has made beyond those already made in `old`. -/
def Jit.emittedSince (new old : Jit) : List Op := new.code.drop old.code.length

/-- The update-form loads that `lXXx` handles: lwzu, lbzu, lhzu, lhau and
lwzux, lbzux, lhzux, lhaux. -/
def lXXx_isUpdateForm (inst : UGeckoInstruction) : Bool :=
  inst.OPCD == 33 || inst.OPCD == 35 || inst.OPCD == 41 || inst.OPCD == 43
  || (inst.OPCD == 31 && (inst.SUBOP10 == 55 || inst.SUBOP10 == 119
      || inst.SUBOP10 == 311 || inst.SUBOP10 == 375))

namespace Op

/-- Calls that compute an address or change what the base register is:
arithmetic and moves, the reservation of a scratch register, a constant
rebinding. -/
def isAddressComputation : Op → Bool
  | ADD _ _ _ => true
  | LEA _ _ _ => true
  | MOV _ _ _ => true
  | FlushLockX _ => true
  | SetImmediate32 _ _ => true
  | _ => false

/-- The emitted load. -/
def isLoad : Op → Bool
  | SafeLoadToReg _ _ _ _ _ _ => true
  | _ => false

/-- Calls that bind a guest register to a host register. -/
def isBind : Op → Bool
  | BindToRegister _ _ _ => true
  | KillImmediate _ _ _ => true
  | _ => false

end Op

/-! ## Sample inputs -/

/-- A configuration with every switch off except the gather-pipe optimisation,
`ABI_PARAM1 = RDI`, RAM at `0x8xxxxxxx`. -/
def sampleConfig : Config :=
  { bJITLoadStoreOff := false, bJITLoadStorelbzxOff := false, bJITLoadStorelXzOff := false,
    bJITLoadStorelwzOff := false, bSkipIdle := false, bWii := false,
    optimizeGatherPipe := true, ABI_PARAM1 := X64Reg.RDI,
    ReadUnchecked_U32 := fun _ => 0,
    IsRAMAddress := fun addr => addr / 0x10000000 == 8,
    ppcStateGpr := fun _ => 0,
    CallerSavedRegistersInUse := fun _ => 0 }

/-- A register cache with every guest register in its home slot. -/
def sampleCache : RegCache :=
  { regs := fun _ => Loc.home, locked := [], xlocked := [],
    order := [X64Reg.RBP, X64Reg.R13, X64Reg.R14] }

/-- A translator at guest address `0x80003100` with nothing emitted yet. -/
def sampleJit : Jit :=
  { gpr := sampleCache, js := { compilerPC := 0x80003100, memcheck := false, fifoBytesThisBlock := 0 },
    code := [] }

/-- Encoding of a D-form instruction `op rD, imm(rA)`. -/
def encodeD (op d a imm : Nat) : UGeckoInstruction :=
  ⟨op * 67108864 + d * 2097152 + a * 65536 + imm⟩

/-- Encoding of an X-form instruction with extended opcode `sub`. -/
def encodeX (d a b sub : Nat) : UGeckoInstruction :=
  ⟨31 * 67108864 + d * 2097152 + a * 65536 + b * 2048 + sub * 2⟩

namespace RegCache

/-- The effect on the register cache of one recorded call; emitter calls leave
it alone. Replaying the recorded calls reproduces the cache each call saw. -/
def step (gpr : RegCache) : Op → RegCache
  | Op.Lock rs => gpr.Lock rs
  | Op.FlushLockX xs => gpr.FlushLockX xs
  | Op.BindToRegister i doLoad makeDirty => gpr.BindToRegister i doLoad makeDirty
  | Op.KillImmediate i doLoad makeDirty => gpr.KillImmediate i doLoad makeDirty
  | Op.SetImmediate32 i v => gpr.SetImmediate32 i v
  | Op.UnlockAll => gpr.UnlockAll
  | Op.UnlockAllX => gpr.UnlockAllX
  | _ => gpr

end RegCache

namespace Op

/-- The host operand an emitted instruction writes, if any. -/
def written : Op → Option OpArg
  | MOV _ dst _ => some dst
  | ADD _ dst _ => some dst
  | XOR _ dst _ => some dst
  | LEA _ dst _ => some (OpArg.R dst)
  | SafeLoadToReg dst _ _ _ _ _ => some (OpArg.R dst)
  | _ => none

/-- The emitted memory access of a load or store: the safe load or store, the
direct RAM write, the streaming-append call, the generic handler call. -/
def isMemoryAccess : Op → Bool
  | SafeLoadToReg _ _ _ _ _ _ => true
  | SafeWriteRegToReg _ _ _ _ _ => true
  | WriteToConstRamAddress _ _ _ _ => true
  | CALL _ => true
  | ABI_CallFunctionAC _ _ _ => true
  | _ => false

/-- Whether `op`, issued when the register cache is `gpr`, changes guest
register `a`: it rebinds `a` to a constant, or writes the operand that holds
`a`. -/
def modifiesGuest (gpr : RegCache) (a : Nat) (op : Op) : Bool :=
  match op with
  | SetImmediate32 i _ => i == a
  | _ => op.written == some (gpr.R a)

end Op

/-- The recorded calls contain a memory access, and no call before the first
one changes guest register `a`; `gpr` is the cache before the first call. -/
def baseUntouchedUntilAccess (a : Nat) : RegCache → List Op → Bool
  | _, [] => false
  | gpr, op :: ops =>
    if op.isMemoryAccess then true
    else !op.modifiesGuest gpr a && baseUntouchedUntilAccess a (gpr.step op) ops

/-- The test that sends a constant-address `stX` down the streaming-append
path (lines 306 and 312). -/
def stX_fifoPath (cfg : Config) (inst : UGeckoInstruction) (gpr : RegCache) : Bool :=
  (inst.RA == 0 || (gpr.R inst.RA).IsImm)
  && (stX_addr inst gpr &&& 0xFFFFF000) == 0xCC008000
  && cfg.optimizeGatherPipe

/-- The sample translator in exception-precise mode. -/
def sampleJitMemcheck : Jit :=
  { sampleJit with js := { sampleJit.js with memcheck := true } }

/-- The sample translator with guest register `i` bound to the constant `v`. -/
def sampleJitConst (i v : Nat) : Jit :=
  { sampleJit with gpr := sampleCache.SetImmediate32 i v }

namespace Op

/-- The bytes a streaming-append call appends: 1, 2 or 4 for a `CALL` of
`fifoDirectWrite8`, `16` or `32`, and 0 for every other call. -/
def fifoCallBytes : Op → Nat
  | CALL Fn.fifoDirectWrite8 => 1
  | CALL Fn.fifoDirectWrite16 => 2
  | CALL Fn.fifoDirectWrite32 => 4
  | _ => 0

/-- A streaming-append call. -/
def isFifoCall (op : Op) : Bool := op.fifoCallBytes != 0

end Op

/-- Successive `stX` translations of the stores of one block. -/
def stXs (cfg : Config) : List UGeckoInstruction → Jit → Jit
  | [], jit => jit
  | inst :: rest, jit => stXs cfg rest (stX cfg inst jit)

/-- The width in bytes of a store that `stX` sends down the streaming-append
path from the translator state `jit`, and 0 for a store on any other path. -/
def stX_fifoBytes (cfg : Config) (inst : UGeckoInstruction) (jit : Jit) : Nat :=
  if cfg.bJITLoadStoreOff then 0
  else
    match stX_accessSize inst with
    | some sz => if stX_fifoPath cfg inst jit.gpr then sz / 8 else 0
    | none => 0

/-- The sum, over successive `stX` translations, of the widths in bytes of the
stores that took the streaming-append path. -/
def stXs_fifoBytes (cfg : Config) : List UGeckoInstruction → Jit → Nat
  | [], _ => 0
  | inst :: rest, jit => stX_fifoBytes cfg inst jit + stXs_fifoBytes cfg rest (stX cfg inst jit)

/-- The total bytes of the streaming-append calls in a run of emitted code. -/
def fifoCallBytesTotal (ops : List Op) : Nat := (ops.map Op.fifoCallBytes).sum

/-- The register cache in which `lXXx` emits its load (after lines 230-231),
given the cache `gpr` that the address preparation left. -/
def lXXx_loadCache (inst : UGeckoInstruction) (memcheck : Bool) (gpr : RegCache) : RegCache :=
  (gpr.Lock [inst.RA, inst.RB, inst.RD]).BindToRegister inst.RD memcheck true

/-! ## Run-time meaning of the emitted address computation -/

/-- The configuration `sampleConfig` with idle skipping on and, in guest
memory, `cmplwi r0, 0` at `0x80003104` followed by the backward `beq`. -/
def sampleIdleConfig : Config :=
  { sampleConfig with
    bSkipIdle := true,
    ReadUnchecked_U32 := fun addr => if addr = 0x80003104 then 0x28000000 else 0x4182fff8 }

/-- The host while emitted code runs: its general purpose registers and the
guest register slots of `ppcState`. -/
structure Host where
  xreg : X64Reg → Nat
  ppcGpr : Nat → Nat

/-- The value an operand denotes in a host state. -/
def OpArg.read (h : Host) : OpArg → Nat
  | OpArg.Imm32 v => v
  | OpArg.R x => h.xreg x
  | OpArg.Mgpr i => h.ppcGpr i
  | _ => 0

/-- The run-time value of guest register `i`, read where the cache says it is. -/
def RegCache.value (gpr : RegCache) (h : Host) (i : Nat) : Nat := (gpr.R i).read h

namespace Host

def setX (h : Host) (x : X64Reg) (v : Nat) : Host :=
  { h with xreg := fun y => if y = x then v else h.xreg y }

def write (h : Host) (dst : OpArg) (v : Nat) : Host :=
  match dst with
  | OpArg.R x => h.setX x v
  | OpArg.Mgpr i => { h with ppcGpr := fun j => if j = i then v else h.ppcGpr j }
  | _ => h

/-- Modelled from the spec: the spill code of the register cache
(JitRegCache.cpp is missing): every guest register living in `x` is stored to
its home slot. -/
def spillX (h : Host) (gpr : RegCache) (x : X64Reg) : Host :=
  { h with ppcGpr := fun j => if gpr.regs j = Loc.reg x then h.xreg x else h.ppcGpr j }

/-- Modelled from the spec: the code of `FlushLockX`, spilling the occupants of
each reserved register in turn. -/
def flushX : Host → RegCache → List X64Reg → Host
  | h, _, [] => h
  | h, gpr, x :: xs => flushX (h.spillX gpr x) (gpr.spillX x) xs

/-- Modelled from the spec: the code of `BindToRegister`: the chosen host
register is spilled and, when `doLoad` is set, loaded with the value of the
guest register. -/
def bind (h : Host) (gpr : RegCache) (i : Nat) (doLoad : Bool) : Host :=
  match gpr.regs i with
  | Loc.reg _ => h
  | _ =>
    let h1 := h.spillX gpr gpr.GetFreeXReg
    if doLoad then h1.setX gpr.GetFreeXReg ((gpr.R i).read h) else h1

/-- The effect on the host of running the code of one recorded call, issued
when the register cache was `gpr`. Modelled from the spec for the emitter's
32-bit `MOV`, `ADD` and `LEA` (the emitter is missing); calls whose code does
not take part in an address computation leave the host alone here. -/
def step (h : Host) (gpr : RegCache) : Op → Host
  | Op.FlushLockX xs => h.flushX gpr xs
  | Op.BindToRegister i doLoad _ => h.bind gpr i doLoad
  | Op.KillImmediate i doLoad _ =>
    match gpr.regs i with
    | Loc.imm _ => h.bind gpr i doLoad
    | _ => h
  | Op.MOV _ dst src => h.write dst (src.read h)
  | Op.ADD _ dst src => h.write dst ((dst.read h + src.read h) % 4294967296)
  | Op.LEA _ dst (OpArg.MDisp r off) => h.setX dst (u32 ((h.xreg r : Int) + off))
  | Op.LEA _ dst (OpArg.MComplex b i scale off) =>
    h.setX dst (u32 ((h.xreg b : Int) + (scale * h.xreg i : Nat) + off))
  | _ => h

end Host

/-- What the first emitted load does when it runs: whether its destination is
the host register bound to guest register `d`, its effective address, its
width and extension, the value guest register `a` has at that moment, and
whether no call after it writes an operand or rebinds a register. -/
structure LoadView where
  dstHoldsGuest : Bool
  address : Nat
  accessSize : Nat
  signExtend : Bool
  baseValue : Nat
  quietAfter : Bool
deriving DecidableEq, Repr

/-- Calls that neither write an operand nor rebind a guest register to a
constant. -/
def Op.isQuiet (op : Op) : Bool :=
  match op with
  | Op.SetImmediate32 _ _ => false
  | _ => op.written == none

/-- Run the recorded calls from the cache `gpr` and the host `h` up to the first
load and describe that load. Modelled from the spec for `SafeLoadToReg`: the
effective address is the address operand plus the displacement, modulo 2^32. -/
def loadView (d a : Nat) : RegCache → Host → List Op → Option LoadView
  | _, _, [] => none
  | gpr, h, op :: ops =>
    match op with
    | Op.SafeLoadToReg dst opAddress accessSize offset _ signExtend =>
      some { dstHoldsGuest := gpr.regs d == Loc.reg dst,
             address := u32 ((opAddress.read h : Int) + offset),
             accessSize := accessSize,
             signExtend := signExtend,
             baseValue := gpr.value h a,
             quietAfter := ops.all Op.isQuiet }
    | _ => loadView d a (gpr.step op) (h.step gpr op) ops

/-- A host in which guest register 13 holds `0x80400000` in its home slot. -/
def sampleHost : Host :=
  { xreg := fun _ => 0, ppcGpr := fun i => if i = 13 then 0x80400000 else 0 }

/-- The (access size, sign-extend) pairs handed to the load emitter, in the
order of the emitted loads. -/
def loadsOf (ops : List Op) : List (Nat × Bool) :=
  ops.filterMap (fun op =>
    match op with
    | Op.SafeLoadToReg _ _ accessSize _ _ signExtend => some (accessSize, signExtend)
    | _ => none)

/-- The translator `j1` has only appended to the code of `j`, and none of the
appended calls is a load. -/
def LoadFreeExtension (j j1 : Jit) : Prop :=
  ∃ pre, j1.code = j.code ++ pre ∧ loadsOf pre = []

/-- The address arithmetic of the scratch-register step of `lXXx` (lines
204-225), as a list: `gpr` is the register cache on entry to the step, from
which `use_constant_offset` and `offset` are taken (lines 183-184); the operands
are read from the cache after `FlushLockX(ABI_PARAM1)`. -/
def lXXx_scratchOps (cfg : Config) (inst : UGeckoInstruction) (gpr : RegCache) : List Op :=
  let g1 := gpr.FlushLockX [cfg.ABI_PARAM1]
  let offset : Int := if inst.OPCD = 31 then s32 (gpr.R inst.RB).offset else inst.SIMM_16
  if (inst.OPCD != 31 || (gpr.R inst.RB).IsImm) = true then
    if (g1.R inst.RA).IsSimpleReg = true ∧ offset ≠ 0 then
      [Op.LEA 32 cfg.ABI_PARAM1 (OpArg.MDisp (g1.RX inst.RA) offset)]
    else if offset ≠ 0 then
      [Op.MOV 32 (OpArg.R cfg.ABI_PARAM1) (g1.R inst.RA),
       Op.ADD 32 (OpArg.R cfg.ABI_PARAM1) (OpArg.Imm32 (u32 offset))]
    else
      [Op.MOV 32 (OpArg.R cfg.ABI_PARAM1) (g1.R inst.RA)]
  else if (g1.R inst.RA).IsSimpleReg = true ∧ (g1.R inst.RB).IsSimpleReg = true then
    [Op.LEA 32 cfg.ABI_PARAM1 (OpArg.MComplex (g1.RX inst.RA) (g1.RX inst.RB) 1 0)]
  else
    [Op.MOV 32 (OpArg.R cfg.ABI_PARAM1) (g1.R inst.RA),
     Op.ADD 32 (OpArg.R cfg.ABI_PARAM1) (g1.R inst.RB)]

/-- The test of line 187 that keeps `lXXx` out of the scratch-register step. -/
def lXXx_inPlace (inst : UGeckoInstruction) (update : Bool) (jit : Jit) : Bool :=
  (update || (inst.OPCD != 31 || (jit.gpr.R inst.RB).IsImm)) && !jit.js.memcheck

/-- The recorded calls that change guest register `a`, in order; `gpr` is the
register cache before the first call. -/
def guestWrites (a : Nat) : RegCache → List Op → List Op
  | _, [] => []
  | gpr, op :: ops =>
    (if op.modifiesGuest gpr a then [op] else []) ++ guestWrites a (gpr.step op) ops

/-- No host register holds both guest registers `i` and `j`. -/
def RegCache.Apart (gpr : RegCache) (i j : Nat) : Prop :=
  ∀ x, gpr.regs i = Loc.reg x → gpr.regs j ≠ Loc.reg x

/-! ## Run-time meaning of a store translation -/

/-- The operands whose value an emitted instruction reads. -/
def Op.sources : Op → List OpArg
  | Op.MOV _ _ src => [src]
  | Op.ADD _ dst src => [dst, src]
  | Op.XOR _ dst src => [dst, src]
  | Op.TEST _ a1 a2 => [a1, a2]
  | Op.ABI_CallFunctionAC _ arg1 _ => [arg1]
  | _ => []

/-- Some call reads the operand holding guest register `s`, and no call before
the first such one changes guest register `a`; `gpr` is the cache before the
first call. -/
def sourceReadFirst (s a : Nat) : RegCache → List Op → Bool
  | _, [] => false
  | gpr, op :: ops =>
    if gpr.R s ∈ op.sources then true
    else !op.modifiesGuest gpr a && sourceReadFirst s a (gpr.step op) ops

/-- Run the recorded calls from the cache `gpr` and the host `h` up to the first
memory access of a store and give the value it stores. Modelled from the spec
for the absent emitters: `SafeWriteRegToReg` and `WriteToConstRamAddress` store
their value register, the streaming-append routines store the first-argument
register `param1`, the generic handler stores its first argument. -/
def storedValue (param1 : X64Reg) : RegCache → Host → List Op → Option Nat
  | _, _, [] => none
  | gpr, h, op :: ops =>
    match op with
    | Op.SafeWriteRegToReg value _ _ _ _ => some (h.xreg value)
    | Op.WriteToConstRamAddress _ src _ _ => some (h.xreg src)
    | Op.CALL _ => some (h.xreg param1)
    | Op.ABI_CallFunctionAC _ arg1 _ => some (arg1.read h)
    | _ => storedValue param1 (gpr.step op) (h.step gpr op) ops

/-- The value guest register `a` has after all the recorded calls have run. -/
def finalValue (a : Nat) : RegCache → Host → List Op → Nat
  | gpr, h, [] => gpr.value h a
  | gpr, h, op :: ops => finalValue a (gpr.step op) (h.step gpr op) ops

/-- The host after all the recorded calls have run from the cache `gpr` and the
host `h`. -/
def runHost : RegCache → Host → List Op → Host
  | _, h, [] => h
  | gpr, h, op :: ops => runHost (gpr.step op) (h.step gpr op) ops

/-- The sample translator in exception-precise mode with guest register `i`
already bound to a host register. -/
def sampleJitBound (i : Nat) : Jit :=
  { sampleJitMemcheck with gpr := sampleCache.BindToRegister i true false }

/-- The access sizes handed to the store emitters `SafeWriteRegToReg` and
`WriteToConstRamAddress`, in the order of the emitted stores. -/
def storesOf (ops : List Op) : List Nat :=
  ops.filterMap (fun op =>
    match op with
    | Op.SafeWriteRegToReg _ _ accessSize _ _ => some accessSize
    | Op.WriteToConstRamAddress accessSize _ _ _ => some accessSize
    | _ => none)

/-- The operand test of `stXx` (line 405): `!a || a == s || a == b`. -/
def stXx_rejects (inst : UGeckoInstruction) : Bool :=
  inst.RA == 0 || inst.RA == inst.RS || inst.RA == inst.RB

/-- The translator `Jit64::dcbst` (lines 246-256): the word before the
instruction is read at `compilerPC - 4`, in 32-bit arithmetic. -/
def dcbst (cfg : Config) (inst : UGeckoInstruction) (jit : Jit) : Jit :=
  if cfg.bJITLoadStoreOff then jit.emit (Op.FallBackToInterpreter inst.hex) else
  if (cfg.ReadUnchecked_U32 (u32 ((jit.js.compilerPC : Int) - 4)) &&& 0x7c00022c) != 0x7c00022c
  then jit.emit (Op.FallBackToInterpreter inst.hex)
  else jit

/-- The instruction word `w` is a `dcbt`: primary opcode 31, extended opcode
278. -/
def isDcbt (w : Nat) : Bool :=
  (UGeckoInstruction.mk w).OPCD == 31 && (UGeckoInstruction.mk w).SUBOP10 == 278

/-- The sample configuration with guest memory holding `word` at `0x800030FC`,
the address just before the sample translator's instruction. -/
def sampleDcbstConfig (word : Nat) : Config :=
  { sampleConfig with
    ReadUnchecked_U32 := fun addr => if addr = 0x800030FC then word else 0 }

/-! ## Jit64::lmw and Jit64::stmw -/

/-- One pass of the loop of `lmw` (lines 466-468), for guest register `i`. -/
def lmw_pass (cfg : Config) (inst : UGeckoInstruction) (jit : Jit) (i : Nat) : Jit :=
  let jit := jit.emit (Op.SafeLoadToReg EAX (OpArg.R ECX) 32 (((i : Int) - inst.RD) * 4)
    (cfg.CallerSavedRegistersInUse jit.gpr) false)
  let jit := jit.BindToRegister i false true
  jit.emit (Op.MOV 32 (jit.gpr.R i) (OpArg.R EAX))

/-- The translator `Jit64::lmw` (lines 454-471); the loop runs `i` from `RD` to
31. -/
def lmw (cfg : Config) (inst : UGeckoInstruction) (jit : Jit) : Jit :=
  if cfg.bJITLoadStoreOff then jit.emit (Op.FallBackToInterpreter inst.hex) else
  let jit := jit.FlushLockX [ECX]
  let jit := jit.emit (Op.MOV 32 (OpArg.R ECX) (OpArg.Imm32 (u32 inst.SIMM_16)))
  let jit :=
    if inst.RA != 0 then jit.emit (Op.ADD 32 (OpArg.R ECX) (jit.gpr.R inst.RA)) else jit
  let jit := (List.range' inst.RD (32 - inst.RD)).foldl (lmw_pass cfg inst) jit
  jit.UnlockAllX

/-- One pass of the loop of `stmw` (lines 482-487), for guest register `i`. The
offset `(i - RD) * 4 + (u32)(s32)SIMM_16` is computed in `u32` and handed over
as an `s32`. -/
def stmw_pass (cfg : Config) (inst : UGeckoInstruction) (jit : Jit) (i : Nat) : Jit :=
  let jit :=
    if inst.RA != 0 then jit.emit (Op.MOV 32 (OpArg.R EAX) (jit.gpr.R inst.RA))
    else jit.emit (Op.XOR 32 (OpArg.R EAX) (OpArg.R EAX))
  let jit := jit.emit (Op.MOV 32 (OpArg.R ECX) (jit.gpr.R i))
  jit.emit (Op.SafeWriteRegToReg ECX EAX 32
    (s32 (u32 ((((i : Int) - inst.RD) * 4) + (u32 inst.SIMM_16 : Nat))))
    (cfg.CallerSavedRegistersInUse jit.gpr))

/-- The translator `Jit64::stmw` (lines 473-490). -/
def stmw (cfg : Config) (inst : UGeckoInstruction) (jit : Jit) : Jit :=
  if cfg.bJITLoadStoreOff then jit.emit (Op.FallBackToInterpreter inst.hex) else
  let jit := jit.FlushLockX [ECX]
  let jit := (List.range' inst.RD (32 - inst.RD)).foldl (stmw_pass cfg inst) jit
  jit.UnlockAllX

/-- One memory access made by emitted code when it runs; `value` is the value
loaded or stored. -/
structure Access where
  isStore : Bool
  address : Nat
  accessSize : Nat
  value : Nat
deriving DecidableEq, Repr

/-- Modelled from the spec: the access an emitted safe load or store makes in
the host state `h` (the emitters are missing). The effective address is the
address operand plus the displacement, modulo 2^32; a load reads guest memory
`mem`, a store writes its value register. -/
def Op.access (mem : Nat → Nat) (h : Host) : Op → Option Access
  | Op.SafeLoadToReg _ opAddress accessSize offset _ _ =>
    some { isStore := false, address := u32 ((opAddress.read h : Int) + offset),
           accessSize := accessSize, value := mem (u32 ((opAddress.read h : Int) + offset)) }
  | Op.SafeWriteRegToReg value addr accessSize offset _ =>
    some { isStore := true, address := u32 ((h.xreg addr : Int) + offset),
           accessSize := accessSize, value := h.xreg value }
  | _ => none

/-- The host step with guest memory: a safe load leaves the loaded value in its
destination register, a 32-bit `XOR` writes the exclusive or, and every other
call acts as in `Host.step`. -/
def Host.stepMem (mem : Nat → Nat) (h : Host) (gpr : RegCache) : Op → Host
  | Op.SafeLoadToReg dst opAddress _ offset _ _ =>
    h.setX dst (mem (u32 ((opAddress.read h : Int) + offset)))
  | Op.XOR _ dst src => h.write dst (dst.read h ^^^ src.read h)
  | op => h.step gpr op

/-- The accesses the recorded calls make when run from the cache `gpr` and the
host `h`, in order. -/
def accessesOf (mem : Nat → Nat) : RegCache → Host → List Op → List Access
  | _, _, [] => []
  | gpr, h, op :: ops =>
    (op.access mem h).toList ++ accessesOf mem (gpr.step op) (h.stepMem mem gpr op) ops

/-- The host after the recorded calls have run against guest memory `mem`. -/
def runMem (mem : Nat → Nat) : RegCache → Host → List Op → Host
  | _, h, [] => h
  | gpr, h, op :: ops => runMem mem (gpr.step op) (h.stepMem mem gpr op) ops

/-- The register cache after the recorded calls. -/
def runCache : RegCache → List Op → RegCache
  | gpr, [] => gpr
  | gpr, op :: ops => runCache (gpr.step op) ops

/-- Encoding of `lmw rD, imm(rA)` (opcode 46) and `stmw rS, imm(rA)` (47). -/
def encodeMW (store : Bool) (d a imm : Nat) : UGeckoInstruction :=
  encodeD (if store then 47 else 46) d a imm

/-- No guest register lives in host register `x`. -/
def RegCache.Vacant (gpr : RegCache) (x : X64Reg) : Prop := ∀ j, gpr.regs j ≠ Loc.reg x

/-- The base of a multiple-word access: the run-time value of guest register
`RA`, or 0 when the field is 0. -/
def mw_base (inst : UGeckoInstruction) (gpr : RegCache) (h : Host) : Nat :=
  if inst.RA = 0 then 0 else gpr.value h inst.RA

/-- The effective address of the access for guest register `i`:
`(base + sign_extend16(imm) + 4 * (i - RD)) mod 2^32`. -/
def mw_address (inst : UGeckoInstruction) (gpr : RegCache) (h : Host) (i : Nat) : Nat :=
  u32 ((mw_base inst gpr h : Int) + inst.SIMM_16 + 4 * ((i : Int) - inst.RD))

/-- No host register holds two different guest registers. -/
def RegCache.Exclusive (gpr : RegCache) : Prop :=
  ∀ i j x, gpr.regs i = Loc.reg x → gpr.regs j = Loc.reg x → i = j

/-- The calls one pass of the loop of `lmw` makes for guest register `i` when the
register cache is `gpr`. -/
def lmw_passOps (cfg : Config) (inst : UGeckoInstruction) (gpr : RegCache) (i : Nat) : List Op :=
  [Op.SafeLoadToReg EAX (OpArg.R ECX) 32 (((i : Int) - inst.RD) * 4)
      (cfg.CallerSavedRegistersInUse gpr) false,
   Op.BindToRegister i false true,
   Op.MOV 32 ((gpr.BindToRegister i false true).R i) (OpArg.R EAX)]

/-- What the loop of `lmw` relies on between passes: the scratch registers `EAX`
and `ECX` hold no guest register, `ECX` is reserved, `EAX` is not in the
allocation order, no host register holds two guest registers, and `ECX` holds
the address `A` of the first word. -/
def lmw_Inv (gpr : RegCache) (h : Host) (A : Nat) : Prop :=
  gpr.Vacant EAX ∧ gpr.Vacant ECX ∧ ECX ∈ gpr.xlocked ∧ EAX ∉ gpr.order ∧ gpr.Exclusive
    ∧ h.xreg ECX = A

/-- A guest memory for the examples: the word at address `a` is `a % 1000`. -/
def sampleMem : Nat → Nat := fun a => a % 1000

/-- No guest register is locked and no host register is reserved. -/
def RegCache.Released (gpr : RegCache) : Prop := gpr.locked = [] ∧ gpr.xlocked = []

/-- Whether a register-cache call marks guest register `a` dirty or rebinds it
to a constant. -/
def Op.dirties (a : Nat) : Op → Bool
  | Op.BindToRegister i _ makeDirty => i == a && makeDirty
  | Op.KillImmediate i _ makeDirty => i == a && makeDirty
  | Op.SetImmediate32 i _ => i == a
  | _ => false

/-- The constant offset of a load as `lXXx` computes it (lines 183-184): the
constant bound to the index register for an X-form, the sign-extended immediate
for a D-form. -/
def lXXx_offset (inst : UGeckoInstruction) (gpr : RegCache) : Int :=
  if inst.OPCD = 31 then s32 (gpr.R inst.RB).offset else inst.SIMM_16

/-- The address `lXXx` folds at translation time when the base is bound to a
constant (lines 165 and 173). -/
def lXXx_foldedAddress (inst : UGeckoInstruction) (gpr : RegCache) : Nat :=
  if inst.OPCD = 31 then ((gpr.R inst.RA).offset + (gpr.R inst.RB).offset) % 4294967296
  else u32 (((gpr.R inst.RA).offset : Int) + inst.SIMM_16)

/-- The test of lines 163 and 171 that sends `lXXx` down the constant-folding
step. -/
def lXXx_folds (inst : UGeckoInstruction) (jit : Jit) : Bool :=
  (inst.OPCD != 31 && (jit.gpr.R inst.RA).IsImm && !jit.js.memcheck)
  || (inst.OPCD == 31 && (jit.gpr.R inst.RA).IsImm && (jit.gpr.R inst.RB).IsImm
      && !jit.js.memcheck)

/-! ## MemoryCard (GCMemcardRaw.cpp) -/

namespace MemoryCard

end MemoryCard

theorem emittedSince_append (new old : Jit) (ops : List Op) (h : new.code = old.code ++ ops) :
    new.emittedSince old = ops := by
  simp [Jit.emittedSince, h]

theorem lXXx_isUpdateForm_not_idle (cfg : Config) (inst : UGeckoInstruction) (js : JitState)
    (hU : lXXx_isUpdateForm inst = true) : lXXx_idle cfg inst js = false := by
  have h32 : inst.OPCD ≠ 32 := by
    intro h
    simp [lXXx_isUpdateForm, h] at hU
  simp [lXXx_idle, h32]

theorem lXXx_isUpdateForm_decode (inst : UGeckoInstruction)
    (hU : lXXx_isUpdateForm inst = true) : (lXXx_decode inst).isNone = false := by
  simp only [lXXx_isUpdateForm, Bool.or_eq_true, Bool.and_eq_true, beq_iff_eq] at hU
  rcases hU with (((h | h) | h) | h) | ⟨h, h2⟩
  · simp [lXXx_decode, h]
  · simp [lXXx_decode, h]
  · simp [lXXx_decode, h]
  · simp [lXXx_decode, h]
  · rcases h2 with ((h2 | h2) | h2) | h2 <;> simp [lXXx_decode, h, h2]

/-- The code of `lXXx` on the invalid-update arm (line 162): the alert, then the
common tail of the function. -/
theorem lXXx_code_invalid (cfg : Config) (inst : UGeckoInstruction) (jit : Jit)
    (hT : lXXx_fallback cfg inst = false)
    (hU : lXXx_isUpdateForm inst = true)
    (hE : lXXx_update inst jit.gpr = true)
    (hA : inst.RA = 0 ∨ inst.RD = inst.RA) :
    (lXXx cfg inst jit).code = jit.code ++
      [Op.PanicAlert "Invalid instruction",
       Op.Lock [inst.RA, inst.RB, inst.RD],
       Op.BindToRegister inst.RD jit.js.memcheck true,
       Op.SafeLoadToReg (((jit.gpr.Lock [inst.RA, inst.RB, inst.RD]).BindToRegister inst.RD
            jit.js.memcheck true).RX inst.RD) OpArg.dummy
          ((lXXx_decode inst).getD (0, false)).1 0
          (cfg.CallerSavedRegistersInUse
            ((jit.gpr.Lock [inst.RA, inst.RB, inst.RD]).BindToRegister inst.RD jit.js.memcheck true))
          ((lXXx_decode inst).getD (0, false)).2,
       Op.UnlockAll, Op.UnlockAllX] := by
  have hI := lXXx_isUpdateForm_not_idle cfg inst jit.js hU
  have hD := lXXx_isUpdateForm_decode inst hU
  have hA2 : (inst.RA == 0 || inst.RD == inst.RA) = true := by
    rcases hA with h | h <;> simp [h]
  simp [lXXx, hT, hI, hD, hE, lXXx_prepareAddress, hA2, lXXx_finish, Jit.emit, Jit.Lock,
    Jit.BindToRegister, Jit.UnlockAll, Jit.UnlockAllX]

/-! ## C1: update-form loads with an invalid base -/

/-- C1 as stated fails. `lbzu r3, 4(r3)` (base equals destination) raises the
alert but `lXXx` goes on to lock, bind the destination and emit a load through
the never-assigned address operand; `lbzu r3, 0(r3)` raises no alert at all and
is translated as an ordinary load, since a zero displacement switches the
update off. -/
theorem C1_lXXx_invalid_update_counterexample :
    (lXXx_isUpdateForm (encodeD 35 3 3 4) = true
      ∧ (encodeD 35 3 3 4).RA = (encodeD 35 3 3 4).RD
      ∧ (lXXx sampleConfig (encodeD 35 3 3 4) sampleJit).code =
          [Op.PanicAlert "Invalid instruction",
           Op.Lock [3, 0, 3],
           Op.BindToRegister 3 false true,
           Op.SafeLoadToReg X64Reg.RBP OpArg.dummy 8 0 0 false,
           Op.UnlockAll, Op.UnlockAllX])
    ∧ (lXXx_isUpdateForm (encodeD 35 3 3 0) = true
      ∧ (encodeD 35 3 3 0).RA = (encodeD 35 3 3 0).RD
      ∧ (lXXx sampleConfig (encodeD 35 3 3 0) sampleJit).code =
          [Op.BindToRegister 3 true false,
           Op.Lock [3, 0, 3],
           Op.BindToRegister 3 false true,
           Op.SafeLoadToReg X64Reg.RBP (OpArg.R X64Reg.RBP) 8 0 0 false,
           Op.UnlockAll, Op.UnlockAllX]) := by
  decide

/-- C1 (amended): for an update-form load that `lXXx` translates itself, whose
update is effective (non-zero displacement, or an index that is not the
constant zero) and whose base register field is 0 or equals the destination
field, the first thing `lXXx` does is raise the "Invalid instruction" alert, and
nothing it emits computes an address: no add, lea or move, no scratch-register
reservation and no constant rebinding of the base. -/
theorem C1_lXXx_invalid_update_alert (cfg : Config) (inst : UGeckoInstruction) (jit : Jit)
    (hT : lXXx_fallback cfg inst = false)
    (hU : lXXx_isUpdateForm inst = true)
    (hE : lXXx_update inst jit.gpr = true)
    (hA : inst.RA = 0 ∨ inst.RA = inst.RD) :
    ((lXXx cfg inst jit).emittedSince jit).head? = some (Op.PanicAlert "Invalid instruction")
    ∧ ∀ op ∈ (lXXx cfg inst jit).emittedSince jit, op.isAddressComputation = false := by
  have hA2 : inst.RA = 0 ∨ inst.RD = inst.RA := hA.imp id Eq.symm
  rw [emittedSince_append _ _ _ (lXXx_code_invalid cfg inst jit hT hU hE hA2)]
  refine ⟨rfl, ?_⟩
  intro op hop
  simp only [List.mem_cons, List.mem_singleton, List.not_mem_nil, or_false] at hop
  rcases hop with h | h | h | h | h | h <;> subst h <;> rfl

/-- C1 (amended) applied to `lbzu r3, 4(r3)`. -/
theorem C1_lXXx_invalid_update_alert_witness :
    lXXx_fallback sampleConfig (encodeD 35 3 3 4) = false
    ∧ lXXx_isUpdateForm (encodeD 35 3 3 4) = true
    ∧ lXXx_update (encodeD 35 3 3 4) sampleJit.gpr = true
    ∧ ((encodeD 35 3 3 4).RA = 0 ∨ (encodeD 35 3 3 4).RA = (encodeD 35 3 3 4).RD)
    ∧ (((lXXx sampleConfig (encodeD 35 3 3 4) sampleJit).emittedSince sampleJit).head?
          = some (Op.PanicAlert "Invalid instruction")
        ∧ ∀ op ∈ (lXXx sampleConfig (encodeD 35 3 3 4) sampleJit).emittedSince sampleJit,
            op.isAddressComputation = false) :=
  ⟨by decide, by decide, by decide, by decide,
    C1_lXXx_invalid_update_alert sampleConfig (encodeD 35 3 3 4) sampleJit
      (by decide) (by decide) (by decide) (by decide)⟩

/-! ## Register cache facts -/

theorem spillX_regs_ne (rc : RegCache) (x : X64Reg) (i : Nat) :
    (rc.spillX x).regs i ≠ Loc.reg x := by
  unfold RegCache.spillX
  by_cases h : rc.regs i = Loc.reg x <;> simp [h]

theorem spillX_regs_ne_of_ne (rc : RegCache) (x y : X64Reg) (i : Nat)
    (h : rc.regs i ≠ Loc.reg y) : (rc.spillX x).regs i ≠ Loc.reg y := by
  unfold RegCache.spillX
  by_cases h2 : rc.regs i = Loc.reg x <;> simp [h2, h]

theorem foldl_spillX_regs_ne_of_ne (xs : List X64Reg) (rc : RegCache) (y : X64Reg) (i : Nat)
    (h : rc.regs i ≠ Loc.reg y) : (xs.foldl RegCache.spillX rc).regs i ≠ Loc.reg y := by
  induction xs generalizing rc with
  | nil => simpa using h
  | cons x xs ih => exact ih (rc.spillX x) (spillX_regs_ne_of_ne rc x y i h)

theorem foldl_spillX_regs_ne (xs : List X64Reg) (rc : RegCache) (x : X64Reg) (i : Nat)
    (hx : x ∈ xs) : (xs.foldl RegCache.spillX rc).regs i ≠ Loc.reg x := by
  induction xs generalizing rc with
  | nil => simp at hx
  | cons y ys ih =>
    rcases List.mem_cons.mp hx with h | h
    · subst h
      exact foldl_spillX_regs_ne_of_ne ys (rc.spillX x) x i (spillX_regs_ne rc x i)
    · exact ih (rc.spillX y) h

/-- After `FlushLockX`, no guest register lives in a reserved host register. -/
theorem FlushLockX_R_ne (rc : RegCache) (xs : List X64Reg) (x : X64Reg) (i : Nat)
    (hx : x ∈ xs) : (rc.FlushLockX xs).R i ≠ OpArg.R x := by
  have h := foldl_spillX_regs_ne xs rc x i hx
  unfold RegCache.R RegCache.FlushLockX
  simp only
  cases hr : (xs.foldl RegCache.spillX rc).regs i with
  | home => simp
  | imm v => simp
  | reg y =>
    simp only [ne_eq, OpArg.R.injEq]
    intro hxy
    exact h (by rw [hr, hxy])

theorem Lock_R (rc : RegCache) (rs : List Nat) (i : Nat) : (rc.Lock rs).R i = rc.R i := rfl

/-! ## C2: order of write-back and memory access -/

theorem stX_accessSize_cases (inst : UGeckoInstruction) (sz : Nat)
    (h : stX_accessSize inst = some sz) : sz = 32 ∨ sz = 16 ∨ sz = 8 := by
  unfold stX_accessSize at h
  split at h <;> simp at h <;> omega

theorem baseUntouchedUntilAccess_append (a : Nat) (pre tail : List Op) (rc : RegCache)
    (h : baseUntouchedUntilAccess a rc pre = true) :
    baseUntouchedUntilAccess a rc (pre ++ tail) = true := by
  induction pre generalizing rc with
  | nil => simp [baseUntouchedUntilAccess] at h
  | cons op ops ih =>
    by_cases hm : op.isMemoryAccess = true
    · simp [baseUntouchedUntilAccess, hm]
    · simp only [baseUntouchedUntilAccess, hm, Bool.false_eq_true, if_false, Bool.and_eq_true,
        List.cons_append] at h ⊢
      exact ⟨h.1, ih _ h.2⟩

theorem stX_dynamic_code (cfg : Config) (inst : UGeckoInstruction) (update : Bool) (sz : Nat)
    (jit : Jit) : ∃ tail, (stX_dynamic cfg inst update sz jit).code = jit.code ++
      ([Op.FlushLockX [ECX, EDX], Op.Lock [inst.RS, inst.RA],
        Op.MOV 32 (OpArg.R EDX) ((jit.gpr.FlushLockX [ECX, EDX]).R inst.RA),
        Op.MOV 32 (OpArg.R ECX) ((jit.gpr.FlushLockX [ECX, EDX]).R inst.RS),
        Op.SafeWriteRegToReg ECX EDX sz inst.SIMM_16
          (cfg.CallerSavedRegistersInUse ((jit.gpr.FlushLockX [ECX, EDX]).Lock [inst.RS, inst.RA]))]
        ++ tail) := by
  unfold stX_dynamic
  by_cases h1 : (update && inst.SIMM_16 != 0) = true <;> by_cases h2 : jit.js.memcheck = true <;>
    simp [h1, h2, Jit.emit, Jit.FlushLockX, Jit.Lock, Jit.KillImmediate, Jit.MEMCHECK_START,
      Jit.MEMCHECK_END, Jit.UnlockAll, Jit.UnlockAllX, Lock_R]

theorem stX_writeback_after_access (cfg : Config) (inst : UGeckoInstruction) (jit : Jit)
    (sz : Nat)
    (hT : cfg.bJITLoadStoreOff = false) (hU : stX_update inst = true) (hA : inst.RA ≠ 0)
    (hS : stX_accessSize inst = some sz) (hF : stX_fifoPath cfg inst jit.gpr = false) :
    baseUntouchedUntilAccess inst.RA jit.gpr ((stX cfg inst jit).emittedSince jit) = true := by
  by_cases hI : (jit.gpr.R inst.RA).IsImm = true
  · have hF2 : ((stX_addr inst jit.gpr &&& 0xFFFFF000) == 0xCC008000
        && cfg.optimizeGatherPipe) = false := by
      simpa [stX_fifoPath, hI] using hF
    have hne : ∀ x, ¬ OpArg.R x = jit.gpr.R inst.RA := by
      intro x h
      rw [← h] at hI
      simp [OpArg.IsImm] at hI
    have hne2 : ¬ OpArg.MPC = jit.gpr.R inst.RA := by
      intro h
      rw [← h] at hI
      simp [OpArg.IsImm] at hI
    by_cases hR : cfg.IsRAMAddress (stX_addr inst jit.gpr) = true
    · simp [stX, hT, hU, hA, hS, hI, stX_const, hF2, hR, Jit.emit, Jit.SetImmediate32,
        Jit.emittedSince, baseUntouchedUntilAccess, Op.isMemoryAccess, Op.modifiesGuest,
        Op.written, RegCache.step, hne]
    · rcases stX_accessSize_cases inst sz hS with h | h | h <;> subst h <;>
        simp [stX, hT, hU, hA, hS, hI, stX_const, hF2, hR, Jit.emit, Jit.SetImmediate32,
          Jit.emittedSince, baseUntouchedUntilAccess, Op.isMemoryAccess, Op.modifiesGuest,
          Op.written, RegCache.step, hne2, memoryWrite]
  · have hx : ¬ OpArg.R EDX = (jit.gpr.FlushLockX [ECX, EDX]).R inst.RA :=
      fun h => FlushLockX_R_ne jit.gpr [ECX, EDX] EDX inst.RA (by simp) h.symm
    have hx2 : ¬ OpArg.R ECX = (jit.gpr.FlushLockX [ECX, EDX]).R inst.RA :=
      fun h => FlushLockX_R_ne jit.gpr [ECX, EDX] ECX inst.RA (by simp) h.symm
    obtain ⟨tail, ht⟩ := stX_dynamic_code cfg inst (stX_update inst) sz jit
    have hc : (stX cfg inst jit).code = (stX_dynamic cfg inst (stX_update inst) sz jit).code := by
      simp [stX, hT, hU, hA, hS, hI]
    rw [emittedSince_append _ _ _ (hc.trans ht)]
    apply baseUntouchedUntilAccess_append
    simp [baseUntouchedUntilAccess, Op.isMemoryAccess, Op.modifiesGuest, Op.written,
      RegCache.step, Lock_R, hx, hx2]

theorem lXXx_update_not_idle (cfg : Config) (inst : UGeckoInstruction) (gpr : RegCache)
    (js : JitState) (hE : lXXx_update inst gpr = true) : lXXx_idle cfg inst js = false := by
  have h32 : inst.OPCD ≠ 32 := by
    intro h
    simp [lXXx_update, h] at hE
  simp [lXXx_idle, h32]

theorem lXXx_writeback_after_access (cfg : Config) (inst : UGeckoInstruction) (jit : Jit)
    (hT : lXXx_fallback cfg inst = false) (hM : jit.js.memcheck = true)
    (hE : lXXx_update inst jit.gpr = true) (hA : inst.RA ≠ 0) (hD : inst.RD ≠ inst.RA) :
    baseUntouchedUntilAccess inst.RA jit.gpr ((lXXx cfg inst jit).emittedSince jit) = true := by
  have hI := lXXx_update_not_idle cfg inst jit.gpr jit.js hE
  have hx : ¬ OpArg.R cfg.ABI_PARAM1 = (jit.gpr.FlushLockX [cfg.ABI_PARAM1]).R inst.RA :=
    fun h => FlushLockX_R_ne jit.gpr [cfg.ABI_PARAM1] cfg.ABI_PARAM1 inst.RA (by simp) h.symm
  by_cases hN : (lXXx_decode inst).isNone = true <;>
  by_cases h1 : (inst.OPCD != 31 || (jit.gpr.R inst.RB).IsImm) = true <;>
  by_cases h2 : (((jit.gpr.FlushLockX [cfg.ABI_PARAM1]).R inst.RA).IsSimpleReg) = true <;>
  by_cases h3 : (((jit.gpr.FlushLockX [cfg.ABI_PARAM1]).R inst.RB).IsSimpleReg) = true <;>
  by_cases h4 : (if inst.OPCD = 31 then s32 (jit.gpr.R inst.RB).offset else inst.SIMM_16) = 0 <;>
    simp [lXXx, hT, hI, hN, hE, hM, hA, hD, lXXx_prepareAddress, lXXx_addrDynamic, lXXx_finish,
      h1, h2, h3, h4, Jit.emit, Jit.FlushLockX, Jit.Lock, Jit.BindToRegister,
      Jit.MEMCHECK_START, Jit.MEMCHECK_END, Jit.UnlockAll, Jit.UnlockAllX,
      Jit.emittedSince, baseUntouchedUntilAccess, Op.isMemoryAccess, Op.modifiesGuest,
      Op.written, RegCache.step, Lock_R, hx]

/-- C2 as stated fails on legal update forms. `lwzu r3, 8(r4)` without
exception-precise mode adds the displacement to the base in place before the
load is emitted; `stbu r3, 4(r4)` with `r4` the constant `0xCC008000` (the FIFO
path) rebinds `r4` before the append call; `stwux r3, r4, r5` adds the index to
the base before the store is emitted, without exception-precise mode and, inside
the memcheck guard, with it. -/
theorem C2_writeback_order_counterexample :
    (lXXx_isUpdateForm (encodeD 33 3 4 8) = true
      ∧ (lXXx sampleConfig (encodeD 33 3 4 8) sampleJit).code =
          [Op.BindToRegister 4 true true,
           Op.ADD 32 (OpArg.R X64Reg.RBP) (OpArg.Imm32 8),
           Op.Lock [4, 0, 3],
           Op.BindToRegister 3 false true,
           Op.SafeLoadToReg X64Reg.R13 (OpArg.R X64Reg.RBP) 32 0 0 false,
           Op.UnlockAll, Op.UnlockAllX]
      ∧ baseUntouchedUntilAccess 4 sampleJit.gpr
          ((lXXx sampleConfig (encodeD 33 3 4 8) sampleJit).emittedSince sampleJit) = false)
    ∧ (stX_update (encodeD 39 3 4 4) = true
      ∧ (stX sampleConfig (encodeD 39 3 4 4) (sampleJitConst 4 0xCC008000)).code =
          [Op.MOV 32 OpArg.MPC (OpArg.Imm32 0x80003100),
           Op.FlushLockX [X64Reg.RDI],
           Op.MOV 32 (OpArg.R X64Reg.RDI) (OpArg.Mgpr 3),
           Op.SetImmediate32 4 0xCC008004,
           Op.CALL Fn.fifoDirectWrite8,
           Op.UnlockAllX]
      ∧ baseUntouchedUntilAccess 4 (sampleJitConst 4 0xCC008000).gpr
          ((stX sampleConfig (encodeD 39 3 4 4) (sampleJitConst 4 0xCC008000)).emittedSince
            (sampleJitConst 4 0xCC008000)) = false)
    ∧ (stXx_update (encodeX 3 4 5 183) = true
      ∧ (stXx sampleConfig (encodeX 3 4 5 183) sampleJit).code =
          [Op.Lock [4, 5, 3],
           Op.FlushLockX [X64Reg.RCX, X64Reg.RDX],
           Op.BindToRegister 4 true true,
           Op.ADD 32 (OpArg.R X64Reg.RBP) (OpArg.Mgpr 5),
           Op.MOV 32 (OpArg.R X64Reg.RDX) (OpArg.R X64Reg.RBP),
           Op.MOV 32 (OpArg.R X64Reg.RCX) (OpArg.Mgpr 3),
           Op.SafeWriteRegToReg X64Reg.RCX X64Reg.RDX 32 0 0,
           Op.UnlockAll, Op.UnlockAllX]
      ∧ baseUntouchedUntilAccess 4 sampleJit.gpr
          ((stXx sampleConfig (encodeX 3 4 5 183) sampleJit).emittedSince sampleJit) = false)
    ∧ (sampleJitMemcheck.js.memcheck = true
      ∧ (stXx sampleConfig (encodeX 3 4 5 183) sampleJitMemcheck).code =
          [Op.Lock [4, 5, 3],
           Op.FlushLockX [X64Reg.RCX, X64Reg.RDX],
           Op.MEMCHECK_START,
           Op.BindToRegister 4 true true,
           Op.ADD 32 (OpArg.R X64Reg.RBP) (OpArg.Mgpr 5),
           Op.MOV 32 (OpArg.R X64Reg.RDX) (OpArg.R X64Reg.RBP),
           Op.MEMCHECK_END,
           Op.MOV 32 (OpArg.R X64Reg.RCX) (OpArg.Mgpr 3),
           Op.SafeWriteRegToReg X64Reg.RCX X64Reg.RDX 32 0 0,
           Op.UnlockAll, Op.UnlockAllX]
      ∧ baseUntouchedUntilAccess 4 sampleJitMemcheck.gpr
          ((stXx sampleConfig (encodeX 3 4 5 183) sampleJitMemcheck).emittedSince
            sampleJitMemcheck) = false) := by
  decide

/-! ## C3: update-form stores with base field 0 -/

/-- C3: when `stX` translates (the load/store switch is not off) an update-form
store opcode (stwu 37, sthu 45, stbu 39) whose base register field is 0, it
raises the "Invalid stX" alert and does nothing else: nothing is emitted (no
store, no handler or append call), the register cache (bindings, locks,
reservations) is unchanged and so is the block context with its FIFO byte
counter. -/
theorem C3_stX_invalid_update (cfg : Config) (inst : UGeckoInstruction) (jit : Jit)
    (hT : cfg.bJITLoadStoreOff = false)
    (hOp : inst.OPCD = 37 ∨ inst.OPCD = 45 ∨ inst.OPCD = 39)
    (hA : inst.RA = 0) :
    (stX cfg inst jit).emittedSince jit = [Op.PanicAlert "Invalid stX"]
    ∧ (stX cfg inst jit).gpr = jit.gpr
    ∧ (stX cfg inst jit).js = jit.js := by
  have hU : stX_update inst = true := by
    rcases hOp with h | h | h <;> simp [stX_update, h]
  have h : stX cfg inst jit = jit.emit (Op.PanicAlert "Invalid stX") := by
    simp [stX, hT, hU, hA]
  rw [h]
  exact ⟨emittedSince_append _ _ _ rfl, rfl, rfl⟩

/-- C3 applied to `stwu r3, 4(r0)`. -/
theorem C3_stX_invalid_update_witness :
    sampleConfig.bJITLoadStoreOff = false
    ∧ ((encodeD 37 3 0 4).OPCD = 37 ∨ (encodeD 37 3 0 4).OPCD = 45 ∨ (encodeD 37 3 0 4).OPCD = 39)
    ∧ (encodeD 37 3 0 4).RA = 0
    ∧ ((stX sampleConfig (encodeD 37 3 0 4) sampleJit).emittedSince sampleJit
          = [Op.PanicAlert "Invalid stX"]
        ∧ (stX sampleConfig (encodeD 37 3 0 4) sampleJit).gpr = sampleJit.gpr
        ∧ (stX sampleConfig (encodeD 37 3 0 4) sampleJit).js = sampleJit.js) :=
  ⟨by decide, by decide, by decide,
    C3_stX_invalid_update sampleConfig (encodeD 37 3 0 4) sampleJit
      (by decide) (by decide) (by decide)⟩

/-! ## C4: the streaming-append path of stX -/

theorem u32_s16_not_fifo (x : Nat) : (u32 (s16 x)) &&& 0xFFFFF000 ≠ 0xCC008000 := by
  intro h
  have hb := congrArg (fun n => Nat.testBit n 29) h
  simp only [Nat.testBit_and] at hb
  have h1 : Nat.testBit 0xFFFFF000 29 = true := by decide
  have h2 : Nat.testBit 0xCC008000 29 = false := by decide
  rw [h1, h2, Bool.and_true] at hb
  have hlt : (u32 (s16 x)) &&& 0xFFFFF000 ≤ u32 (s16 x) := Nat.and_le_left
  rw [h] at hlt
  rw [Nat.testBit_to_div_mod] at hb
  simp only [decide_eq_false_iff_not] at hb
  unfold u32 s16 at hb hlt
  split_ifs at hb hlt with hc <;> omega

/-- A store with base field 0 never has its constant address in the FIFO page. -/
theorem stX_fifoPath_base (cfg : Config) (inst : UGeckoInstruction) (gpr : RegCache)
    (hF : stX_fifoPath cfg inst gpr = true) : inst.RA ≠ 0 := by
  intro hA
  have ha : stX_addr inst gpr = u32 (s16 inst.hex) := by
    simp [stX_addr, hA, UGeckoInstruction.SIMM_16]
  have := u32_s16_not_fifo inst.hex
  simp [stX_fifoPath, ha, this] at hF

/-- The code of `stX` on the streaming-append path (lines 315-338). -/
theorem stX_code_fifo (cfg : Config) (inst : UGeckoInstruction) (jit : Jit) (sz : Nat)
    (hT : cfg.bJITLoadStoreOff = false) (hS : stX_accessSize inst = some sz)
    (hF : stX_fifoPath cfg inst jit.gpr = true) :
    ∃ fn, ((sz = 8 ∧ fn = Fn.fifoDirectWrite8) ∨ (sz = 16 ∧ fn = Fn.fifoDirectWrite16)
        ∨ (sz = 32 ∧ fn = Fn.fifoDirectWrite32))
      ∧ (stX cfg inst jit).code = jit.code ++
        ([Op.MOV 32 OpArg.MPC (OpArg.Imm32 jit.js.compilerPC),
          Op.FlushLockX [cfg.ABI_PARAM1],
          Op.MOV 32 (OpArg.R cfg.ABI_PARAM1) ((jit.gpr.FlushLockX [cfg.ABI_PARAM1]).R inst.RS)]
         ++ (if stX_update inst = true
              then [Op.SetImmediate32 inst.RA (stX_addr inst jit.gpr)] else [])
         ++ [Op.CALL fn, Op.UnlockAllX]) := by
  have hA := stX_fifoPath_base cfg inst jit.gpr hF
  simp only [stX_fifoPath, Bool.and_eq_true, Bool.or_eq_true, beq_iff_eq] at hF
  obtain ⟨⟨hI, hP⟩, hG⟩ := hF
  have hI2 : (jit.gpr.R inst.RA).IsImm = true := by
    rcases hI with h | h
    · exact absurd h hA
    · exact h
  rcases stX_accessSize_cases inst sz hS with h | h | h <;> subst h <;>
    by_cases hU : stX_update inst = true <;>
    simp [stX, hT, hU, hA, hS, hI2, stX_const, hP, hG, Jit.emit, Jit.SetImmediate32,
      Jit.FlushLockX, Jit.UnlockAllX, fifoDirectWrite]

theorem stX_const_no_fifo_call (cfg : Config) (inst : UGeckoInstruction) (update : Bool)
    (sz : Nat) (jit : Jit)
    (hF : ((stX_addr inst jit.gpr &&& 0xFFFFF000) == 0xCC008000 && cfg.optimizeGatherPipe) = false) :
    ∀ op ∈ (stX_const cfg inst update sz jit).emittedSince jit, op.isFifoCall = false := by
  by_cases hR : cfg.IsRAMAddress (stX_addr inst jit.gpr) = true <;>
  by_cases hU : update = true <;>
  cases hW : memoryWrite sz <;>
    simp [stX_const, hF, hR, hU, hW, Jit.emit, Jit.SetImmediate32, Jit.emittedSince,
      Op.isFifoCall, Op.fifoCallBytes]

theorem stX_dynamic_no_fifo_call (cfg : Config) (inst : UGeckoInstruction) (update : Bool)
    (sz : Nat) (jit : Jit) :
    ∀ op ∈ (stX_dynamic cfg inst update sz jit).emittedSince jit, op.isFifoCall = false := by
  by_cases h1 : (update && inst.SIMM_16 != 0) = true <;> by_cases h2 : jit.js.memcheck = true <;>
    simp [stX_dynamic, h1, h2, Jit.emit, Jit.FlushLockX, Jit.Lock, Jit.KillImmediate,
      Jit.MEMCHECK_START, Jit.MEMCHECK_END, Jit.UnlockAll, Jit.UnlockAllX, Jit.emittedSince,
      Op.isFifoCall, Op.fifoCallBytes]

/-- Off the streaming-append path `stX` emits no streaming-append call. -/
theorem stX_no_fifo_call (cfg : Config) (inst : UGeckoInstruction) (jit : Jit)
    (hF : stX_fifoPath cfg inst jit.gpr = false) :
    ∀ op ∈ (stX cfg inst jit).emittedSince jit, op.isFifoCall = false := by
  unfold stX
  by_cases hT : cfg.bJITLoadStoreOff = true
  · simp [hT, Jit.emit, Jit.emittedSince, Op.isFifoCall, Op.fifoCallBytes]
  by_cases hV : (inst.RA != 0 || !stX_update inst) = true
  · cases hS : stX_accessSize inst with
    | none => simp [hT, hV, Jit.emit, Jit.emittedSince, Op.isFifoCall, Op.fifoCallBytes]
    | some sz =>
      by_cases hI : (inst.RA == 0 || (jit.gpr.R inst.RA).IsImm) = true
      · have hF2 : ((stX_addr inst jit.gpr &&& 0xFFFFF000) == 0xCC008000
            && cfg.optimizeGatherPipe) = false := by
          simpa [stX_fifoPath, hI, Bool.and_assoc] using hF
        simpa [hT, hV, hI] using stX_const_no_fifo_call cfg inst (stX_update inst) sz jit hF2
      · simpa [hT, hV, hI] using stX_dynamic_no_fifo_call cfg inst (stX_update inst) sz jit
  · simp [hT, hV, Jit.emit, Jit.emittedSince, Op.isFifoCall, Op.fifoCallBytes]

/-- The indexed store translator never emits a streaming-append call. -/
theorem stXx_no_fifo_call (cfg : Config) (inst : UGeckoInstruction) (jit : Jit) :
    ∀ op ∈ (stXx cfg inst jit).emittedSince jit, op.isFifoCall = false := by
  unfold stXx
  by_cases hT : cfg.bJITLoadStoreOff = true
  · simp [hT, Jit.emit, Jit.emittedSince, Op.isFifoCall, Op.fifoCallBytes]
  by_cases hB : (inst.RA == 0 || inst.RA == inst.RS || inst.RA == inst.RB) = true
  · simp [hT, hB, Jit.emit, Jit.emittedSince, Op.isFifoCall, Op.fifoCallBytes]
  by_cases hU : stXx_update inst = true <;>
  by_cases hM : jit.js.memcheck = true <;>
  by_cases h1 : (((jit.gpr.Lock [inst.RA, inst.RB, inst.RS]).FlushLockX [ECX, EDX]).R
      inst.RA).IsSimpleReg = true <;>
  by_cases h2 : (((jit.gpr.Lock [inst.RA, inst.RB, inst.RS]).FlushLockX [ECX, EDX]).R
      inst.RB).IsSimpleReg = true <;>
  cases hS : stXx_accessSize inst <;>
    simp [hT, hB, hU, hM, h1, h2, hS, Jit.emit, Jit.FlushLockX, Jit.Lock, Jit.BindToRegister,
      Jit.MEMCHECK_START, Jit.MEMCHECK_END, Jit.UnlockAll, Jit.UnlockAllX, Jit.emittedSince,
      Op.isFifoCall, Op.fifoCallBytes]

/-- C4: when `stX` translates a store opcode it handles, it emits a
streaming-append call exactly when the address is a translation-time constant
(base field 0 or base bound to a constant), that constant
`(base + sign-extended immediate) mod 2^32` lies in the page `0xCC008000` and
the gather-pipe optimisation is on. On that path it emits, in order: the
record of the guest PC, the reservation of the first-argument register, the move
of the source register's operand into it, the constant rebinding of the base
when the opcode is an update form, one call to the 8-, 16- or 32-bit append
routine of the store's width, and the release. `stXx` never emits a
streaming-append call, whatever the instruction word, the configuration and the
translator state. -/
theorem C4_stX_fifo_call (cfg : Config) (inst : UGeckoInstruction) (jit : Jit) :
    (cfg.bJITLoadStoreOff = false → ∀ sz, stX_accessSize inst = some sz →
      ((∃ op ∈ (stX cfg inst jit).emittedSince jit, op.isFifoCall = true)
          ↔ stX_fifoPath cfg inst jit.gpr = true)
      ∧ (stX_fifoPath cfg inst jit.gpr = true →
          ∃ fn, ((sz = 8 ∧ fn = Fn.fifoDirectWrite8) ∨ (sz = 16 ∧ fn = Fn.fifoDirectWrite16)
              ∨ (sz = 32 ∧ fn = Fn.fifoDirectWrite32))
            ∧ (stX cfg inst jit).emittedSince jit =
              [Op.MOV 32 OpArg.MPC (OpArg.Imm32 jit.js.compilerPC),
                Op.FlushLockX [cfg.ABI_PARAM1],
                Op.MOV 32 (OpArg.R cfg.ABI_PARAM1)
                  ((jit.gpr.FlushLockX [cfg.ABI_PARAM1]).R inst.RS)]
              ++ (if stX_update inst = true
                    then [Op.SetImmediate32 inst.RA (stX_addr inst jit.gpr)] else [])
              ++ [Op.CALL fn, Op.UnlockAllX]))
    ∧ (∀ op ∈ (stXx cfg inst jit).emittedSince jit, op.isFifoCall = false) := by
  refine ⟨?_, stXx_no_fifo_call cfg inst jit⟩
  intro hT sz hS
  have hpath : stX_fifoPath cfg inst jit.gpr = true →
      ∃ fn, ((sz = 8 ∧ fn = Fn.fifoDirectWrite8) ∨ (sz = 16 ∧ fn = Fn.fifoDirectWrite16)
          ∨ (sz = 32 ∧ fn = Fn.fifoDirectWrite32))
        ∧ (stX cfg inst jit).emittedSince jit =
          [Op.MOV 32 OpArg.MPC (OpArg.Imm32 jit.js.compilerPC),
            Op.FlushLockX [cfg.ABI_PARAM1],
            Op.MOV 32 (OpArg.R cfg.ABI_PARAM1) ((jit.gpr.FlushLockX [cfg.ABI_PARAM1]).R inst.RS)]
          ++ (if stX_update inst = true
                then [Op.SetImmediate32 inst.RA (stX_addr inst jit.gpr)] else [])
          ++ [Op.CALL fn, Op.UnlockAllX] := by
    intro hF
    obtain ⟨fn, hfn, hc⟩ := stX_code_fifo cfg inst jit sz hT hS hF
    exact ⟨fn, hfn, emittedSince_append _ _ _ hc⟩
  refine ⟨⟨?_, ?_⟩, hpath⟩
  · rintro ⟨op, hop, hcall⟩
    by_contra hF
    have hno := stX_no_fifo_call cfg inst jit (by simpa using hF) op hop
    rw [hno] at hcall
    exact Bool.false_ne_true hcall
  · intro hF
    obtain ⟨fn, hfn, hc⟩ := hpath hF
    refine ⟨Op.CALL fn, ?_, ?_⟩
    · rw [hc]
      simp
    · rcases hfn with ⟨_, h⟩ | ⟨_, h⟩ | ⟨_, h⟩ <;> subst h <;> rfl

/-- C4 applied to `stb r3, 0(r4)` with `r4` bound to the constant `0xCC008000`,
which takes the streaming-append path with one call of the 8-bit routine, and
to the indexed stores `stwx r3, r4, r5` and `stbx r3, r4, r5` with `r4` bound to
that constant and `r5` to 0, which store through the ordinary emitter. -/
theorem C4_stX_fifo_call_witness :
    sampleConfig.bJITLoadStoreOff = false
    ∧ stX_accessSize (encodeD 38 3 4 0) = some 8
    ∧ stX_fifoPath sampleConfig (encodeD 38 3 4 0) (sampleJitConst 4 0xCC008000).gpr = true
    ∧ (∃ op ∈ (stX sampleConfig (encodeD 38 3 4 0) (sampleJitConst 4 0xCC008000)).emittedSince
          (sampleJitConst 4 0xCC008000), op.isFifoCall = true)
    ∧ (encodeX 3 4 5 151).OPCD = 31
    ∧ (∀ op ∈ (stXx sampleConfig (encodeX 3 4 5 151) (sampleJitConst 4 0xCC008000)).emittedSince
          (sampleJitConst 4 0xCC008000), op.isFifoCall = false)
    ∧ (∀ op ∈ (stXx sampleConfig (encodeX 3 4 5 215)
          ((sampleJitConst 4 0xCC008000).SetImmediate32 5 0)).emittedSince
          ((sampleJitConst 4 0xCC008000).SetImmediate32 5 0), op.isFifoCall = false) :=
  ⟨by decide, by decide, by decide,
    (((C4_stX_fifo_call sampleConfig (encodeD 38 3 4 0) (sampleJitConst 4 0xCC008000)).1
      (by decide) 8 (by decide)).1).2 (by decide),
    by decide,
    (C4_stX_fifo_call sampleConfig (encodeX 3 4 5 151) (sampleJitConst 4 0xCC008000)).2,
    (C4_stX_fifo_call sampleConfig (encodeX 3 4 5 215)
      ((sampleJitConst 4 0xCC008000).SetImmediate32 5 0)).2⟩

/-! ## C5: the per-block FIFO byte counter -/

theorem stX_dynamic_js (cfg : Config) (inst : UGeckoInstruction) (update : Bool) (sz : Nat)
    (jit : Jit) : (stX_dynamic cfg inst update sz jit).js = jit.js := by
  by_cases h1 : (update && inst.SIMM_16 != 0) = true <;> by_cases h2 : jit.js.memcheck = true <;>
    simp [stX_dynamic, h1, h2, Jit.emit, Jit.FlushLockX, Jit.Lock, Jit.KillImmediate,
      Jit.MEMCHECK_START, Jit.MEMCHECK_END, Jit.UnlockAll, Jit.UnlockAllX]

theorem stX_const_js (cfg : Config) (inst : UGeckoInstruction) (update : Bool) (sz : Nat)
    (jit : Jit)
    (hF : ((stX_addr inst jit.gpr &&& 0xFFFFF000) == 0xCC008000 && cfg.optimizeGatherPipe) = false) :
    (stX_const cfg inst update sz jit).js = jit.js := by
  by_cases hR : cfg.IsRAMAddress (stX_addr inst jit.gpr) = true <;>
  by_cases hU : update = true <;>
  cases hW : memoryWrite sz <;>
    simp [stX_const, hF, hR, hU, hW, Jit.emit, Jit.SetImmediate32]

/-- Off the streaming-append path `stX` leaves the block context alone. -/
theorem stX_js_of_not_fifo (cfg : Config) (inst : UGeckoInstruction) (jit : Jit)
    (hF : stX_fifoPath cfg inst jit.gpr = false) : (stX cfg inst jit).js = jit.js := by
  unfold stX
  by_cases hT : cfg.bJITLoadStoreOff = true
  · simp [hT, Jit.emit]
  by_cases hV : (inst.RA != 0 || !stX_update inst) = true
  · cases hS : stX_accessSize inst with
    | none => simp [hT, hV, Jit.emit]
    | some sz =>
      by_cases hI : (inst.RA == 0 || (jit.gpr.R inst.RA).IsImm) = true
      · have hF2 : ((stX_addr inst jit.gpr &&& 0xFFFFF000) == 0xCC008000
            && cfg.optimizeGatherPipe) = false := by
          simpa [stX_fifoPath, hI, Bool.and_assoc] using hF
        simpa [hT, hV, hI] using stX_const_js cfg inst (stX_update inst) sz jit hF2
      · simpa [hT, hV, hI] using stX_dynamic_js cfg inst (stX_update inst) sz jit
  · simp [hT, hV, Jit.emit]

/-- On the streaming-append path `stX` adds the store's width in bytes. -/
theorem stX_js_of_fifo (cfg : Config) (inst : UGeckoInstruction) (jit : Jit) (sz : Nat)
    (hT : cfg.bJITLoadStoreOff = false) (hS : stX_accessSize inst = some sz)
    (hF : stX_fifoPath cfg inst jit.gpr = true) :
    (stX cfg inst jit).js.fifoBytesThisBlock = jit.js.fifoBytesThisBlock + sz / 8 := by
  have hA := stX_fifoPath_base cfg inst jit.gpr hF
  simp only [stX_fifoPath, Bool.and_eq_true, Bool.or_eq_true, beq_iff_eq] at hF
  obtain ⟨⟨hI, hP⟩, hG⟩ := hF
  have hI2 : (jit.gpr.R inst.RA).IsImm = true := by
    rcases hI with h | h
    · exact absurd h hA
    · exact h
  rcases stX_accessSize_cases inst sz hS with h | h | h <;> subst h <;>
    by_cases hU : stX_update inst = true <;>
    simp [stX, hT, hU, hA, hS, hI2, stX_const, hP, hG, Jit.emit, Jit.SetImmediate32,
      Jit.FlushLockX, Jit.UnlockAllX, fifoDirectWrite]

theorem stX_counter (cfg : Config) (inst : UGeckoInstruction) (jit : Jit) :
    (stX cfg inst jit).js.fifoBytesThisBlock
      = jit.js.fifoBytesThisBlock + stX_fifoBytes cfg inst jit := by
  unfold stX_fifoBytes
  by_cases hT : cfg.bJITLoadStoreOff = true
  · simp [hT, stX, Jit.emit]
  · have hT2 : cfg.bJITLoadStoreOff = false := by simpa using hT
    by_cases hF : stX_fifoPath cfg inst jit.gpr = true
    · cases hS : stX_accessSize inst with
      | none =>
        have hA := stX_fifoPath_base cfg inst jit.gpr hF
        simp [hT2, stX, hS, hA, Jit.emit]
      | some sz => simp [hT2, hF, stX_js_of_fifo cfg inst jit sz hT2 hS hF]
    · have hF2 : stX_fifoPath cfg inst jit.gpr = false := by simpa using hF
      rw [stX_js_of_not_fifo cfg inst jit hF2]
      cases hS : stX_accessSize inst <;> simp [hT2, hF2]

theorem stX_const_code_prefix (cfg : Config) (inst : UGeckoInstruction) (update : Bool)
    (sz : Nat) (jit : Jit) : ∃ ops, (stX_const cfg inst update sz jit).code = jit.code ++ ops := by
  by_cases hF : ((stX_addr inst jit.gpr &&& 0xFFFFF000) == 0xCC008000
      && cfg.optimizeGatherPipe) = true <;>
  by_cases hR : cfg.IsRAMAddress (stX_addr inst jit.gpr) = true <;>
  by_cases hU : update = true <;>
  cases hW : memoryWrite sz <;>
  cases hD : fifoDirectWrite sz <;>
    simp [stX_const, hF, hR, hU, hW, hD, Jit.emit, Jit.SetImmediate32, Jit.FlushLockX,
      Jit.UnlockAllX]

/-- Whatever `stX` does, it only appends to the code emitted so far. -/
theorem stX_code_prefix (cfg : Config) (inst : UGeckoInstruction) (jit : Jit) :
    ∃ ops, (stX cfg inst jit).code = jit.code ++ ops := by
  unfold stX
  by_cases hT : cfg.bJITLoadStoreOff = true
  · simp [hT, Jit.emit]
  by_cases hV : (inst.RA != 0 || !stX_update inst) = true
  · cases hS : stX_accessSize inst with
    | none => simp [hT, hV, Jit.emit]
    | some sz =>
      by_cases hI : (inst.RA == 0 || (jit.gpr.R inst.RA).IsImm) = true
      · simpa [hT, hV, hI] using stX_const_code_prefix cfg inst (stX_update inst) sz jit
      · obtain ⟨tail, ht⟩ := stX_dynamic_code cfg inst (stX_update inst) sz jit
        exact ⟨_, by simpa [hT, hV, hI] using ht⟩
  · simp [hT, hV, Jit.emit]

theorem stX_code_eq (cfg : Config) (inst : UGeckoInstruction) (jit : Jit) :
    (stX cfg inst jit).code = jit.code ++ (stX cfg inst jit).emittedSince jit := by
  obtain ⟨ops, h⟩ := stX_code_prefix cfg inst jit
  rw [emittedSince_append _ _ _ h, h]

theorem stXs_code_eq (cfg : Config) (insts : List UGeckoInstruction) (jit : Jit) :
    (stXs cfg insts jit).code = jit.code ++ (stXs cfg insts jit).emittedSince jit := by
  induction insts generalizing jit with
  | nil => simp [stXs, Jit.emittedSince]
  | cons inst rest ih =>
    have h1 := ih (stX cfg inst jit)
    have h2 := stX_code_eq cfg inst jit
    have h3 : (stXs cfg (inst :: rest) jit).code = jit.code ++
        ((stX cfg inst jit).emittedSince jit
          ++ (stXs cfg rest (stX cfg inst jit)).emittedSince (stX cfg inst jit)) := by
      simp only [stXs]
      rw [h1]
      nth_rewrite 1 [h2]
      rw [List.append_assoc]
    rw [emittedSince_append _ _ _ h3, h3]

theorem stXs_emittedSince_cons (cfg : Config) (inst : UGeckoInstruction)
    (rest : List UGeckoInstruction) (jit : Jit) :
    (stXs cfg (inst :: rest) jit).emittedSince jit =
      (stX cfg inst jit).emittedSince jit
        ++ (stXs cfg rest (stX cfg inst jit)).emittedSince (stX cfg inst jit) := by
  have h1 := stXs_code_eq cfg rest (stX cfg inst jit)
  have h2 := stX_code_eq cfg inst jit
  apply emittedSince_append
  simp only [stXs]
  rw [h1]
  nth_rewrite 1 [h2]
  rw [List.append_assoc]

/-- The append calls one `stX` translation emits carry exactly the width of a
store on the streaming-append path, and nothing on any other path. -/
theorem stX_call_bytes (cfg : Config) (inst : UGeckoInstruction) (jit : Jit) :
    fifoCallBytesTotal ((stX cfg inst jit).emittedSince jit) = stX_fifoBytes cfg inst jit := by
  have hzero : ∀ ops : List Op, (∀ op ∈ ops, op.isFifoCall = false) →
      fifoCallBytesTotal ops = 0 := by
    intro ops h
    unfold fifoCallBytesTotal
    apply List.sum_eq_zero
    intro n hn
    obtain ⟨op, hop, rfl⟩ := List.mem_map.mp hn
    simpa [Op.isFifoCall] using h op hop
  unfold stX_fifoBytes
  by_cases hT : cfg.bJITLoadStoreOff = true
  · simp [hT, stX, Jit.emit, Jit.emittedSince, fifoCallBytesTotal, Op.fifoCallBytes]
  have hT2 : cfg.bJITLoadStoreOff = false := by simpa using hT
  by_cases hF : stX_fifoPath cfg inst jit.gpr = true
  · cases hS : stX_accessSize inst with
    | none =>
      have hA := stX_fifoPath_base cfg inst jit.gpr hF
      simp [hT2, stX, hS, hA, Jit.emit, Jit.emittedSince, fifoCallBytesTotal, Op.fifoCallBytes]
    | some sz =>
      obtain ⟨fn, hfn, hc⟩ := stX_code_fifo cfg inst jit sz hT2 hS hF
      rw [emittedSince_append _ _ _ hc]
      by_cases hU : stX_update inst = true <;>
        rcases hfn with ⟨h1, h2⟩ | ⟨h1, h2⟩ | ⟨h1, h2⟩ <;> subst h1 <;> subst h2 <;>
        simp [hT2, hF, hU, fifoCallBytesTotal, Op.fifoCallBytes]
  · have hF2 : stX_fifoPath cfg inst jit.gpr = false := by simpa using hF
    rw [hzero _ (stX_no_fifo_call cfg inst jit hF2)]
    cases hS : stX_accessSize inst <;> simp [hT2, hF2]

/-- C5: over any run of successive `stX` translations, the per-block FIFO byte
counter grows by exactly the sum of the widths in bytes of the stores that took
the streaming-append path; that sum equals the total bytes of the append calls
emitted; each such width is 1, 2 or 4; and a store on any other path (constant
RAM, generic handler, run-time address, invalid, handed to the interpreter)
leaves the block context, counter included, unchanged. -/
theorem C5_fifo_counter (cfg : Config) (insts : List UGeckoInstruction) (jit : Jit) :
    (stXs cfg insts jit).js.fifoBytesThisBlock
        = jit.js.fifoBytesThisBlock + stXs_fifoBytes cfg insts jit
    ∧ stXs_fifoBytes cfg insts jit = fifoCallBytesTotal ((stXs cfg insts jit).emittedSince jit)
    ∧ (∀ (inst : UGeckoInstruction) (j : Jit),
        stX_fifoBytes cfg inst j = 0 ∨ stX_fifoBytes cfg inst j = 1
          ∨ stX_fifoBytes cfg inst j = 2 ∨ stX_fifoBytes cfg inst j = 4)
    ∧ (∀ (inst : UGeckoInstruction) (j : Jit),
        stX_fifoPath cfg inst j.gpr = false → (stX cfg inst j).js = j.js) := by
  refine ⟨?_, ?_, ?_, fun inst j h => stX_js_of_not_fifo cfg inst j h⟩
  · induction insts generalizing jit with
    | nil => simp [stXs, stXs_fifoBytes]
    | cons inst rest ih =>
      simp only [stXs, stXs_fifoBytes]
      rw [ih (stX cfg inst jit), stX_counter cfg inst jit, Nat.add_assoc]
  · induction insts generalizing jit with
    | nil => simp [stXs, stXs_fifoBytes, Jit.emittedSince, fifoCallBytesTotal]
    | cons inst rest ih =>
      rw [stXs_emittedSince_cons]
      simp only [stXs_fifoBytes]
      rw [ih (stX cfg inst jit), ← stX_call_bytes cfg inst jit]
      simp [fifoCallBytesTotal]
  · intro inst j
    unfold stX_fifoBytes
    by_cases hT : cfg.bJITLoadStoreOff = true
    · simp [hT]
    · cases hS : stX_accessSize inst with
      | none => simp [hT]
      | some sz =>
        by_cases hF : stX_fifoPath cfg inst j.gpr = true
        · rcases stX_accessSize_cases inst sz hS with h | h | h <;> subst h <;> simp [hT, hF]
        · simp [hT, hF]

/-- C5 applied to the block `stb r3, 0(r4); sth r3, 0(r4); stw r3, 0(r5)` with
`r4` bound to the constant `0xCC008000` and `r5` in its home slot: the counter
grows by 1 + 2 + 0 bytes, and `stw r3, 0(r5)` alone leaves it unchanged. -/
theorem C5_fifo_counter_witness :
    stXs_fifoBytes sampleConfig [encodeD 38 3 4 0, encodeD 44 3 4 0, encodeD 36 3 5 0]
        (sampleJitConst 4 0xCC008000) = 3
    ∧ (stXs sampleConfig [encodeD 38 3 4 0, encodeD 44 3 4 0, encodeD 36 3 5 0]
          (sampleJitConst 4 0xCC008000)).js.fifoBytesThisBlock
        = (sampleJitConst 4 0xCC008000).js.fifoBytesThisBlock
          + stXs_fifoBytes sampleConfig [encodeD 38 3 4 0, encodeD 44 3 4 0, encodeD 36 3 5 0]
              (sampleJitConst 4 0xCC008000)
    ∧ stX_fifoPath sampleConfig (encodeD 36 3 5 0) sampleJit.gpr = false
    ∧ (stX sampleConfig (encodeD 36 3 5 0) sampleJit).js = sampleJit.js :=
  ⟨by decide,
    (C5_fifo_counter sampleConfig [encodeD 38 3 4 0, encodeD 44 3 4 0, encodeD 36 3 5 0]
      (sampleJitConst 4 0xCC008000)).1,
    by decide,
    (C5_fifo_counter sampleConfig [] sampleJit).2.2.2 (encodeD 36 3 5 0) sampleJit (by decide)⟩

/-! ## C6: constant folding of the load address -/

/-- C6 as stated fails on two loads that the zero-base rule does not resolve,
with exception-precise mode off and the base bound to `0x80001000`. For
`lwzu r3, 4(r3)` (base equals destination) the address operand is the
never-assigned operand and the base is not rebound; for `lwz r0, 16(r13)` on
the idle-loop path the address operand is the base constant itself, with the
displacement passed separately. -/
theorem C6_lXXx_constant_fold_counterexample :
    ((sampleJitConst 3 0x80001000).gpr.R (encodeD 33 3 3 4).RA = OpArg.Imm32 0x80001000
      ∧ (lXXx sampleConfig (encodeD 33 3 3 4) (sampleJitConst 3 0x80001000)).code =
          [Op.PanicAlert "Invalid instruction",
           Op.Lock [3, 0, 3],
           Op.BindToRegister 3 false true,
           Op.SafeLoadToReg X64Reg.RBP OpArg.dummy 32 0 0 false,
           Op.UnlockAll, Op.UnlockAllX])
    ∧ ((sampleJitConst 13 0x80001000).gpr.R (encodeD 32 0 13 16).RA = OpArg.Imm32 0x80001000
      ∧ (lXXx sampleIdleConfig
          (encodeD 32 0 13 16) (sampleJitConst 13 0x80001000)).code =
          [Op.BindToRegister 0 false true,
           Op.SafeLoadToReg X64Reg.RBP (OpArg.Imm32 0x80001000) 32 16 0 false,
           Op.TEST 32 (OpArg.R X64Reg.RBP) (OpArg.R X64Reg.RBP),
           Op.J_CC CCFlags.CC_NZ "noIdle",
           Op.ABI_PushRegistersAndAdjustStack 0 false,
           Op.ABI_CallFunctionC Fn.OnIdle 16,
           Op.ABI_PopRegistersAndAdjustStack 0 false,
           Op.WriteExceptionExit,
           Op.SetJumpTarget "noIdle"]) := by
  decide

/-- C6 (amended): for a load whose opcode `lXXx` recognises and translates on
its ordinary path (the idle-loop pattern is not taken), with exception-precise
mode off, a non-zero base field, and the base different from the destination
when update is requested: if the base is bound to a constant `A`, then for a
D-form `val = (A + sign_extend16(I)) mod 2^32`, and for an X-form whose index
is bound to a constant `B`, `val = (A + B) mod 2^32`, is the address operand of
the load; the displacement passed is 0; nothing else is emitted but the
locking, the binding of the destination and the release, so no address
arithmetic; and when update is requested the base is first rebound to `val`. -/
theorem C6_lXXx_constant_fold (cfg : Config) (inst : UGeckoInstruction) (jit : Jit)
    (A val sz : Nat) (sx : Bool)
    (hT : lXXx_fallback cfg inst = false)
    (hIdle : lXXx_idle cfg inst jit.js = false)
    (hDec : lXXx_decode inst = some (sz, sx))
    (hM : jit.js.memcheck = false)
    (hA : inst.RA ≠ 0)
    (hL : lXXx_update inst jit.gpr = true → inst.RD ≠ inst.RA)
    (hBase : jit.gpr.R inst.RA = OpArg.Imm32 A)
    (hVal : (inst.OPCD ≠ 31 ∧ val = u32 ((A : Int) + inst.SIMM_16))
      ∨ (inst.OPCD = 31 ∧ ∃ B, jit.gpr.R inst.RB = OpArg.Imm32 B ∧ val = (A + B) % 4294967296)) :
    (lXXx cfg inst jit).emittedSince jit =
      (if lXXx_update inst jit.gpr = true then [Op.SetImmediate32 inst.RA val] else [])
      ++ [Op.Lock [inst.RA, inst.RB, inst.RD],
          Op.BindToRegister inst.RD false true,
          Op.SafeLoadToReg
            ((lXXx_loadCache inst false
              (if lXXx_update inst jit.gpr = true then jit.gpr.SetImmediate32 inst.RA val
                else jit.gpr)).RX inst.RD)
            (OpArg.Imm32 val) sz 0
            (cfg.CallerSavedRegistersInUse
              (lXXx_loadCache inst false
                (if lXXx_update inst jit.gpr = true then jit.gpr.SetImmediate32 inst.RA val
                  else jit.gpr)))
            sx,
          Op.UnlockAll, Op.UnlockAllX] := by
  apply emittedSince_append
  by_cases hU : lXXx_update inst jit.gpr = true
  · have hD : inst.RD ≠ inst.RA := hL hU
    rcases hVal with ⟨h31, hv⟩ | ⟨h31, B, hB, hv⟩
    · simp [lXXx, hT, hIdle, hDec, hU, hM, hA, hD, h31, hBase, hv, lXXx_prepareAddress,
        lXXx_finish, OpArg.IsImm, OpArg.offset, Jit.emit, Jit.Lock, Jit.BindToRegister,
        Jit.SetImmediate32, Jit.UnlockAll, Jit.UnlockAllX, lXXx_loadCache]
    · simp [lXXx, hT, hIdle, hDec, hU, hM, hA, hD, h31, hBase, hB, hv, lXXx_prepareAddress,
        lXXx_finish, OpArg.IsImm, OpArg.offset, Jit.emit, Jit.Lock, Jit.BindToRegister,
        Jit.SetImmediate32, Jit.UnlockAll, Jit.UnlockAllX, lXXx_loadCache]
  · rcases hVal with ⟨h31, hv⟩ | ⟨h31, B, hB, hv⟩
    · simp [lXXx, hT, hIdle, hDec, hU, hM, hA, h31, hBase, hv, lXXx_prepareAddress,
        lXXx_finish, OpArg.IsImm, OpArg.offset, Jit.emit, Jit.Lock, Jit.BindToRegister,
        Jit.SetImmediate32, Jit.UnlockAll, Jit.UnlockAllX, lXXx_loadCache]
    · simp [lXXx, hT, hIdle, hDec, hU, hM, hA, h31, hBase, hB, hv, lXXx_prepareAddress,
        lXXx_finish, OpArg.IsImm, OpArg.offset, Jit.emit, Jit.Lock, Jit.BindToRegister,
        Jit.SetImmediate32, Jit.UnlockAll, Jit.UnlockAllX, lXXx_loadCache]

/-- C6 (amended) applied to `lwzu r3, 8(r4)` with `r4` bound to `0x80001000`:
the base is rebound to `0x80001008`, which is also the address operand. -/
theorem C6_lXXx_constant_fold_witness :
    lXXx_fallback sampleConfig (encodeD 33 3 4 8) = false
    ∧ lXXx_idle sampleConfig (encodeD 33 3 4 8) (sampleJitConst 4 0x80001000).js = false
    ∧ lXXx_decode (encodeD 33 3 4 8) = some (32, false)
    ∧ (sampleJitConst 4 0x80001000).js.memcheck = false
    ∧ (encodeD 33 3 4 8).RA ≠ 0
    ∧ (sampleJitConst 4 0x80001000).gpr.R (encodeD 33 3 4 8).RA = OpArg.Imm32 0x80001000
    ∧ (lXXx sampleConfig (encodeD 33 3 4 8) (sampleJitConst 4 0x80001000)).emittedSince
          (sampleJitConst 4 0x80001000) =
        [Op.SetImmediate32 4 0x80001008,
         Op.Lock [4, 0, 3],
         Op.BindToRegister 3 false true,
         Op.SafeLoadToReg X64Reg.RBP (OpArg.Imm32 0x80001008) 32 0 0 false,
         Op.UnlockAll, Op.UnlockAllX] :=
  ⟨by decide, by decide, by decide, by decide, by decide, by decide,
    C6_lXXx_constant_fold sampleConfig (encodeD 33 3 4 8) (sampleJitConst 4 0x80001000)
      0x80001000 0x80001008 32 false (by decide) (by decide) (by decide) (by decide) (by decide)
      (fun _ => by decide) (by decide) (Or.inl ⟨by decide, by decide⟩)⟩

/-! ## C7: the zero-base rule -/

theorem idle_word_fields (x : Nat) (h : x &&& 0xFFFF0000 = 0x800D0000) :
    x / 65536 % 65536 = 0x800D := by
  have hd : (x &&& 0xFFFF0000) >>> 16 = (x >>> 16) &&& ((0xFFFF0000 : Nat) >>> 16) := by
    apply Nat.eq_of_testBit_eq
    intro j
    simp only [Nat.testBit_shiftRight, Nat.testBit_and]
  have h2 : (0xFFFF0000 : Nat) >>> 16 = 2 ^ 16 - 1 := by decide
  have h3 : (0x800D0000 : Nat) >>> 16 = 0x800D := by decide
  rw [h, h2, h3, Nat.and_pow_two_sub_one_eq_mod, Nat.shiftRight_eq_div_pow] at hd
  simpa using hd.symm

/-- On the idle-loop pattern the word is `lwz r0, imm(r13)`. -/
theorem lXXx_idle_fields (cfg : Config) (inst : UGeckoInstruction) (js : JitState)
    (h : lXXx_idle cfg inst js = true) : inst.OPCD = 32 ∧ inst.RD = 0 ∧ inst.RA = 13 := by
  simp only [lXXx_idle, Bool.and_eq_true, beq_iff_eq] at h
  obtain ⟨⟨⟨⟨_, hop⟩, hw⟩, _⟩, _⟩ := h
  have hf := idle_word_fields inst.hex hw
  refine ⟨hop, ?_, ?_⟩
  · unfold UGeckoInstruction.RD
    omega
  · unfold UGeckoInstruction.RA
    omega

theorem lXXx_not_idle_of_base_zero (cfg : Config) (inst : UGeckoInstruction) (js : JitState)
    (hA : inst.RA = 0) : lXXx_idle cfg inst js = false := by
  by_contra h
  have := (lXXx_idle_fields cfg inst js (by simpa using h)).2.2
  omega

/-- C7: for a load whose opcode `lXXx` recognises and translates, with base
register field 0 and no update requested, the address operand of the load is
the constant equal to the sign-extended 16-bit immediate for a D-form, and the
operand that holds the index register on entry for an X-form, with displacement
0. Besides the load, `lXXx` only locks, binds the destination and releases: it
emits no add, lea or move, reserves no scratch register and binds no register
for the address. -/
theorem C7_lXXx_zero_base (cfg : Config) (inst : UGeckoInstruction) (jit : Jit)
    (sz : Nat) (sx : Bool)
    (hT : lXXx_fallback cfg inst = false)
    (hDec : lXXx_decode inst = some (sz, sx))
    (hA : inst.RA = 0)
    (hU : lXXx_update inst jit.gpr = false) :
    (lXXx cfg inst jit).emittedSince jit =
      (if inst.OPCD = 31 then [Op.Lock [inst.RB]] else [])
      ++ [Op.Lock [inst.RA, inst.RB, inst.RD],
          Op.BindToRegister inst.RD jit.js.memcheck true,
          Op.SafeLoadToReg
            ((lXXx_loadCache inst jit.js.memcheck
              (if inst.OPCD = 31 then jit.gpr.Lock [inst.RB] else jit.gpr)).RX inst.RD)
            (if inst.OPCD = 31 then jit.gpr.R inst.RB else OpArg.Imm32 (u32 inst.SIMM_16))
            sz 0
            (cfg.CallerSavedRegistersInUse
              (lXXx_loadCache inst jit.js.memcheck
                (if inst.OPCD = 31 then jit.gpr.Lock [inst.RB] else jit.gpr)))
            sx,
          Op.UnlockAll, Op.UnlockAllX]
    ∧ ∀ op ∈ (lXXx cfg inst jit).emittedSince jit, op.isAddressComputation = false := by
  have hI := lXXx_not_idle_of_base_zero cfg inst jit.js hA
  have hc : (lXXx cfg inst jit).emittedSince jit =
      (if inst.OPCD = 31 then [Op.Lock [inst.RB]] else [])
      ++ [Op.Lock [inst.RA, inst.RB, inst.RD],
          Op.BindToRegister inst.RD jit.js.memcheck true,
          Op.SafeLoadToReg
            ((lXXx_loadCache inst jit.js.memcheck
              (if inst.OPCD = 31 then jit.gpr.Lock [inst.RB] else jit.gpr)).RX inst.RD)
            (if inst.OPCD = 31 then jit.gpr.R inst.RB else OpArg.Imm32 (u32 inst.SIMM_16))
            sz 0
            (cfg.CallerSavedRegistersInUse
              (lXXx_loadCache inst jit.js.memcheck
                (if inst.OPCD = 31 then jit.gpr.Lock [inst.RB] else jit.gpr)))
            sx,
          Op.UnlockAll, Op.UnlockAllX] := by
    apply emittedSince_append
    by_cases h31 : inst.OPCD = 31 <;>
      simp [lXXx, hT, hI, hDec, hU, hA, h31, lXXx_prepareAddress, lXXx_finish, Jit.emit,
        Jit.Lock, Jit.BindToRegister, Jit.UnlockAll, Jit.UnlockAllX, lXXx_loadCache, Lock_R]
  refine ⟨hc, ?_⟩
  rw [hc]
  intro op hop
  by_cases h31 : inst.OPCD = 31
  · simp only [h31, if_true, List.cons_append, List.nil_append, List.mem_cons,
      List.mem_singleton, List.not_mem_nil, or_false] at hop
    rcases hop with h | h | h | h | h | h <;> subst h <;> rfl
  · simp only [h31, if_false, List.nil_append, List.mem_cons,
      List.mem_singleton, List.not_mem_nil, or_false] at hop
    rcases hop with h | h | h | h | h <;> subst h <;> rfl

/-- C7 applied to `lwz r3, -4(r0)` and to `lwzx r3, r0, r5`. -/
theorem C7_lXXx_zero_base_witness :
    (lXXx_fallback sampleConfig (encodeD 32 3 0 0xFFFC) = false
      ∧ lXXx_decode (encodeD 32 3 0 0xFFFC) = some (32, false)
      ∧ (encodeD 32 3 0 0xFFFC).RA = 0
      ∧ lXXx_update (encodeD 32 3 0 0xFFFC) sampleJit.gpr = false
      ∧ (lXXx sampleConfig (encodeD 32 3 0 0xFFFC) sampleJit).emittedSince sampleJit =
          [Op.Lock [0, 31, 3],
           Op.BindToRegister 3 false true,
           Op.SafeLoadToReg X64Reg.RBP (OpArg.Imm32 0xFFFFFFFC) 32 0 0 false,
           Op.UnlockAll, Op.UnlockAllX])
    ∧ (lXXx_fallback sampleConfig (encodeX 3 0 5 23) = false
      ∧ lXXx_decode (encodeX 3 0 5 23) = some (32, false)
      ∧ (encodeX 3 0 5 23).RA = 0
      ∧ lXXx_update (encodeX 3 0 5 23) sampleJit.gpr = false
      ∧ (lXXx sampleConfig (encodeX 3 0 5 23) sampleJit).emittedSince sampleJit =
          [Op.Lock [5],
           Op.Lock [0, 5, 3],
           Op.BindToRegister 3 false true,
           Op.SafeLoadToReg X64Reg.RBP (OpArg.Mgpr 5) 32 0 0 false,
           Op.UnlockAll, Op.UnlockAllX]) :=
  ⟨⟨by decide, by decide, by decide, by decide,
      (C7_lXXx_zero_base sampleConfig (encodeD 32 3 0 0xFFFC) sampleJit 32 false
        (by decide) (by decide) (by decide) (by decide)).1⟩,
    ⟨by decide, by decide, by decide, by decide,
      (C7_lXXx_zero_base sampleConfig (encodeX 3 0 5 23) sampleJit 32 false
        (by decide) (by decide) (by decide) (by decide)).1⟩⟩

/-! ## C8: in-place address computation -/

/-- After `BindToRegister`, the guest register lives in a host register. -/
theorem BindToRegister_R (rc : RegCache) (i : Nat) (doLoad makeDirty : Bool) :
    (rc.BindToRegister i doLoad makeDirty).R i
      = OpArg.R ((rc.BindToRegister i doLoad makeDirty).RX i) := by
  unfold RegCache.BindToRegister
  cases h : rc.regs i <;> simp [RegCache.R, RegCache.RX, h]

/-- C8 as stated fails for an indexed load without update. For
`lwzx r3, r4, r5` with all registers in their home slots `lXXx` reserves the
scratch register and computes the address there, without binding the base; with
`r5` bound to the constant 8 it binds the base and uses it as the address
operand, but passes 8 as the displacement of the load instead of adding it in
place. -/
theorem C8_lXXx_in_place_counterexample :
    (lXXx_update (encodeX 3 4 5 23) sampleJit.gpr = false
      ∧ (lXXx sampleConfig (encodeX 3 4 5 23) sampleJit).code =
          [Op.FlushLockX [X64Reg.RDI],
           Op.MOV 32 (OpArg.R X64Reg.RDI) (OpArg.Mgpr 4),
           Op.ADD 32 (OpArg.R X64Reg.RDI) (OpArg.Mgpr 5),
           Op.Lock [4, 5, 3],
           Op.BindToRegister 3 false true,
           Op.SafeLoadToReg X64Reg.RBP (OpArg.R X64Reg.RDI) 32 0 0 false,
           Op.UnlockAll, Op.UnlockAllX])
    ∧ (lXXx_update (encodeX 3 4 5 23) (sampleJitConst 5 8).gpr = false
      ∧ (lXXx sampleConfig (encodeX 3 4 5 23) (sampleJitConst 5 8)).code =
          [Op.BindToRegister 4 true false,
           Op.Lock [4, 5, 3],
           Op.BindToRegister 3 false true,
           Op.SafeLoadToReg X64Reg.R13 (OpArg.R X64Reg.RBP) 32 8 0 false,
           Op.UnlockAll, Op.UnlockAllX]) := by
  decide

/-- C8 (amended): for a legal load whose opcode `lXXx` recognises, that reaches
the third resolution step (base field non-zero, not constant-folded) with
exception-precise mode off: whenever update is requested, `lXXx` binds the base
register (dirty) to a host register, adds to it in place the index register
(X-form with a non-constant index) or else the constant offset, and uses that
register as the address operand with displacement 0; for an X-form without
update whose index is bound to a constant, it binds the base register, uses
that register as the address operand and passes the constant as the
displacement of the load. In both cases the scratch host register is not
reserved. -/
theorem C8_lXXx_in_place (cfg : Config) (inst : UGeckoInstruction) (jit : Jit)
    (sz : Nat) (sx : Bool)
    (hT : lXXx_fallback cfg inst = false)
    (hDec : lXXx_decode inst = some (sz, sx))
    (hM : jit.js.memcheck = false)
    (hA : inst.RA ≠ 0)
    (hL : lXXx_update inst jit.gpr = true → inst.RD ≠ inst.RA)
    (hNF : (jit.gpr.R inst.RA).IsImm = false
      ∨ (inst.OPCD = 31 ∧ (jit.gpr.R inst.RB).IsImm = false))
    (hScope : lXXx_update inst jit.gpr = true
      ∨ (inst.OPCD = 31 ∧ (jit.gpr.R inst.RB).IsImm = true)) :
    (lXXx cfg inst jit).emittedSince jit =
      [Op.BindToRegister inst.RA true (lXXx_update inst jit.gpr)]
      ++ (if lXXx_update inst jit.gpr = true then
            [Op.ADD 32 ((jit.gpr.BindToRegister inst.RA true true).R inst.RA)
              (if inst.OPCD = 31 ∧ (jit.gpr.R inst.RB).IsImm = false
                then (jit.gpr.BindToRegister inst.RA true true).R inst.RB
                else OpArg.Imm32 (u32 (if inst.OPCD = 31 then s32 (jit.gpr.R inst.RB).offset
                                        else inst.SIMM_16)))]
          else [])
      ++ [Op.Lock [inst.RA, inst.RB, inst.RD],
          Op.BindToRegister inst.RD false true,
          Op.SafeLoadToReg
            ((lXXx_loadCache inst false
              (jit.gpr.BindToRegister inst.RA true (lXXx_update inst jit.gpr))).RX inst.RD)
            ((jit.gpr.BindToRegister inst.RA true (lXXx_update inst jit.gpr)).R inst.RA)
            sz
            (if lXXx_update inst jit.gpr = true then 0 else s32 (jit.gpr.R inst.RB).offset)
            (cfg.CallerSavedRegistersInUse
              (lXXx_loadCache inst false
                (jit.gpr.BindToRegister inst.RA true (lXXx_update inst jit.gpr))))
            sx,
          Op.UnlockAll, Op.UnlockAllX]
    ∧ ((jit.gpr.BindToRegister inst.RA true (lXXx_update inst jit.gpr)).R inst.RA).IsSimpleReg
        = true
    ∧ ∀ op ∈ (lXXx cfg inst jit).emittedSince jit, ∀ xs, op ≠ Op.FlushLockX xs := by
  have hI : lXXx_idle cfg inst jit.js = false := by
    rcases hScope with h | ⟨h, _⟩
    · exact lXXx_update_not_idle cfg inst jit.gpr jit.js h
    · simp [lXXx_idle, h]
  have hsimple : ((jit.gpr.BindToRegister inst.RA true (lXXx_update inst jit.gpr)).R
      inst.RA).IsSimpleReg = true := by
    rw [BindToRegister_R]
    rfl
  refine (fun hc => And.intro hc (And.intro hsimple ?_)) ?_
  · rw [hc]
    intro op hop xs hx
    subst hx
    by_cases hU : lXXx_update inst jit.gpr = true <;> simp [hU] at hop
  · apply emittedSince_append
    by_cases hU : lXXx_update inst jit.gpr = true
    · have hD : inst.RD ≠ inst.RA := hL hU
      by_cases h31 : inst.OPCD = 31 <;>
      by_cases hB : (jit.gpr.R inst.RB).IsImm = true <;>
      by_cases hIa : (jit.gpr.R inst.RA).IsImm = true <;>
        first
        | (exfalso; rcases hNF with h | ⟨h, h2⟩ <;> simp_all; done)
        | (simp [lXXx, hT, hI, hDec, hU, hM, hA, hD, h31, hB, hIa, lXXx_prepareAddress,
            lXXx_addrDynamic, lXXx_finish, Jit.emit, Jit.Lock, Jit.BindToRegister,
            Jit.UnlockAll, Jit.UnlockAllX, lXXx_loadCache])
    · rcases hScope with h | ⟨h31, hB⟩
      · exact absurd h hU
      · have hIa : (jit.gpr.R inst.RA).IsImm = false := by
          rcases hNF with h | ⟨_, h⟩
          · exact h
          · rw [hB] at h
            exact absurd h (by decide)
        simp [lXXx, hT, hI, hDec, hU, hM, hA, h31, hB, hIa, lXXx_prepareAddress,
          lXXx_addrDynamic, lXXx_finish, Jit.emit, Jit.Lock, Jit.BindToRegister,
          Jit.UnlockAll, Jit.UnlockAllX, lXXx_loadCache]

/-- C8 (amended) applied to `lwzu r3, 8(r4)` and to `lwzx r3, r4, r5` with `r5`
bound to the constant 8, all other registers in their home slots. -/
theorem C8_lXXx_in_place_witness :
    (lXXx_fallback sampleConfig (encodeD 33 3 4 8) = false
      ∧ lXXx_decode (encodeD 33 3 4 8) = some (32, false)
      ∧ sampleJit.js.memcheck = false
      ∧ (encodeD 33 3 4 8).RA ≠ 0
      ∧ (sampleJit.gpr.R (encodeD 33 3 4 8).RA).IsImm = false
      ∧ lXXx_update (encodeD 33 3 4 8) sampleJit.gpr = true
      ∧ (lXXx sampleConfig (encodeD 33 3 4 8) sampleJit).emittedSince sampleJit =
          [Op.BindToRegister 4 true true,
           Op.ADD 32 (OpArg.R X64Reg.RBP) (OpArg.Imm32 8),
           Op.Lock [4, 0, 3],
           Op.BindToRegister 3 false true,
           Op.SafeLoadToReg X64Reg.R13 (OpArg.R X64Reg.RBP) 32 0 0 false,
           Op.UnlockAll, Op.UnlockAllX])
    ∧ (lXXx_fallback sampleConfig (encodeX 3 4 5 23) = false
      ∧ lXXx_decode (encodeX 3 4 5 23) = some (32, false)
      ∧ (sampleJitConst 5 8).js.memcheck = false
      ∧ (encodeX 3 4 5 23).RA ≠ 0
      ∧ ((sampleJitConst 5 8).gpr.R (encodeX 3 4 5 23).RA).IsImm = false
      ∧ ((encodeX 3 4 5 23).OPCD = 31
          ∧ ((sampleJitConst 5 8).gpr.R (encodeX 3 4 5 23).RB).IsImm = true)
      ∧ (lXXx sampleConfig (encodeX 3 4 5 23) (sampleJitConst 5 8)).emittedSince
            (sampleJitConst 5 8) =
          [Op.BindToRegister 4 true false,
           Op.Lock [4, 5, 3],
           Op.BindToRegister 3 false true,
           Op.SafeLoadToReg X64Reg.R13 (OpArg.R X64Reg.RBP) 32 8 0 false,
           Op.UnlockAll, Op.UnlockAllX]) :=
  ⟨⟨by decide, by decide, by decide, by decide, by decide, by decide,
      (C8_lXXx_in_place sampleConfig (encodeD 33 3 4 8) sampleJit 32 false
        (by decide) (by decide) (by decide) (by decide) (fun _ => by decide)
        (Or.inl (by decide)) (Or.inl (by decide))).1⟩,
    ⟨by decide, by decide, by decide, by decide, by decide, by decide,
      (C8_lXXx_in_place sampleConfig (encodeX 3 4 5 23) (sampleJitConst 5 8) 32 false
        (by decide) (by decide) (by decide) (by decide) (fun _ => by decide)
        (Or.inl (by decide)) (Or.inr (by decide))).1⟩⟩

/-! ## C10: the code of the idle-loop branch -/

/-- The code of the idle-loop branch (lines 110-133). When `lXXx` translates
the instruction itself, idle skipping is on and
the idle pattern matches (so the word is `lwz r0, imm(r13)`), it binds the
destination and then emits exactly, in this order: the 32-bit zero-extending
load into the destination's host register from the base operand with the
sign-extended immediate as displacement; a test of that register against
itself; a branch on non-zero to `noIdle`; the save of the caller-saved registers
in use; one call of the idle hook with the constant
`(ppcState.gpr[base] + sign-extended immediate) mod 2^32`, the base value being
the one in `ppcState` when the translator runs; the restore of the same
registers; the block exception exit; and the target of the `noIdle` branch.
The block context is unchanged. -/
theorem lXXx_idle_code (cfg : Config) (inst : UGeckoInstruction) (jit : Jit)
    (hT : lXXx_fallback cfg inst = false)
    (hI : lXXx_idle cfg inst jit.js = true) :
    cfg.bSkipIdle = true ∧ inst.RD = 0 ∧ inst.RA = 13
    ∧ (lXXx cfg inst jit).emittedSince jit =
      [Op.BindToRegister inst.RD false true,
       Op.SafeLoadToReg ((jit.gpr.BindToRegister inst.RD false true).RX inst.RD)
         ((jit.gpr.BindToRegister inst.RD false true).R inst.RA) 32 inst.SIMM_16
         (cfg.CallerSavedRegistersInUse (jit.gpr.BindToRegister inst.RD false true)) false,
       Op.TEST 32 (OpArg.R ((jit.gpr.BindToRegister inst.RD false true).RX inst.RD))
         (OpArg.R ((jit.gpr.BindToRegister inst.RD false true).RX inst.RD)),
       Op.J_CC CCFlags.CC_NZ "noIdle",
       Op.ABI_PushRegistersAndAdjustStack
         (cfg.CallerSavedRegistersInUse (jit.gpr.BindToRegister inst.RD false true)) false,
       Op.ABI_CallFunctionC Fn.OnIdle (u32 ((cfg.ppcStateGpr inst.RA : Int) + inst.SIMM_16)),
       Op.ABI_PopRegistersAndAdjustStack
         (cfg.CallerSavedRegistersInUse (jit.gpr.BindToRegister inst.RD false true)) false,
       Op.WriteExceptionExit,
       Op.SetJumpTarget "noIdle"]
    ∧ (lXXx cfg inst jit).js = jit.js := by
  obtain ⟨hop, hd, ha⟩ := lXXx_idle_fields cfg inst jit.js hI
  have hs : cfg.bSkipIdle = true := by
    simp only [lXXx_idle, Bool.and_eq_true] at hI
    exact hI.1.1.1.1
  have hDec : lXXx_decode inst = some (32, false) := by simp [lXXx_decode, hop]
  have hl : lXXx cfg inst jit = lXXx_idleBody cfg inst 32 false jit := by
    simp [lXXx, hT, hDec, hI]
  refine ⟨hs, hd, ha, ?_, ?_⟩
  · apply emittedSince_append
    rw [hl]
    simp [lXXx_idleBody, Jit.emit, Jit.BindToRegister, BindToRegister_R]
  · rw [hl]
    rfl

/-- C10 at the failing input: `lwz r0, 16(r13)` at `0x80003100`, followed in
guest memory by `cmplwi r0, 0` and the backward `beq`, with idle skipping on,
`r13` bound in the register cache to the constant `0x80001000` and
`ppcState.gpr[13]` holding 0 when the translator runs. The emitted load reads
the effective address `0x80001010` (base operand `0x80001000`, displacement 16),
but the idle hook is called with `0x10`: its argument is computed from
`ppcState.gpr[13]` at translation time (line 122), not from the base the load
uses (line 113). The order of the emitted calls is the one the claim gives. -/
theorem C10_idle_hook_failing_input :
    lXXx_fallback sampleIdleConfig (encodeD 32 0 13 16) = false
    ∧ lXXx_idle sampleIdleConfig (encodeD 32 0 13 16) (sampleJitConst 13 0x80001000).js = true
    ∧ (sampleJitConst 13 0x80001000).gpr.R 13 = OpArg.Imm32 0x80001000
    ∧ sampleIdleConfig.ppcStateGpr 13 = 0
    ∧ (lXXx sampleIdleConfig (encodeD 32 0 13 16) (sampleJitConst 13 0x80001000)).emittedSince
          (sampleJitConst 13 0x80001000) =
        [Op.BindToRegister 0 false true,
         Op.SafeLoadToReg X64Reg.RBP (OpArg.Imm32 0x80001000) 32 16 0 false,
         Op.TEST 32 (OpArg.R X64Reg.RBP) (OpArg.R X64Reg.RBP),
         Op.J_CC CCFlags.CC_NZ "noIdle",
         Op.ABI_PushRegistersAndAdjustStack 0 false,
         Op.ABI_CallFunctionC Fn.OnIdle 0x10,
         Op.ABI_PopRegistersAndAdjustStack 0 false,
         Op.WriteExceptionExit,
         Op.SetJumpTarget "noIdle"]
    ∧ (loadView 0 13 (sampleJitConst 13 0x80001000).gpr sampleHost
          ((lXXx sampleIdleConfig (encodeD 32 0 13 16)
            (sampleJitConst 13 0x80001000)).emittedSince (sampleJitConst 13 0x80001000))).map
        LoadView.address = some 0x80001010 := by
  decide

/-! ## C9: the idle-loop branch emits the same load -/

theorem u32_u32_add_zero (x : Int) : u32 (((u32 x : Nat) : Int) + 0) = u32 x := by
  unfold u32
  omega

theorem u32_u32 (x : Int) : u32 ((u32 x : Nat) : Int) = u32 x := by
  unfold u32
  omega

theorem u32_add_mod_cast (v : Nat) (s : Int) :
    u32 (((v : Int) + ((u32 s : Nat) : Int)) % 4294967296) = u32 ((v : Int) + s) := by
  unfold u32
  omega

theorem read_R (h : Host) (x : X64Reg) : (OpArg.R x).read h = h.xreg x := rfl

theorem read_Imm32 (h : Host) (v : Nat) : (OpArg.Imm32 v).read h = v := rfl

theorem u32_add_mod (v : Nat) (s : Int) :
    u32 ((((v + u32 s) % 4294967296 : Nat) : Int) + 0) = u32 ((v : Int) + s) := by
  unfold u32
  omega

/-- Spilling a host register keeps the run-time value of every guest register. -/
theorem value_spillX (gpr : RegCache) (h : Host) (x : X64Reg) (i : Nat) :
    (gpr.spillX x).value (h.spillX gpr x) i = gpr.value h i := by
  unfold RegCache.value RegCache.R RegCache.spillX Host.spillX
  cases hr : gpr.regs i with
  | home => simp [hr, OpArg.read]
  | imm v => simp [hr, OpArg.read]
  | reg y =>
    by_cases hxy : y = x
    · subst hxy
      simp [hr, OpArg.read]
    · simp [hr, OpArg.read, hxy]

theorem BindToRegister_regs (rc : RegCache) (i : Nat) (doLoad makeDirty : Bool) :
    (rc.BindToRegister i doLoad makeDirty).regs i
      = Loc.reg ((rc.BindToRegister i doLoad makeDirty).RX i) := by
  unfold RegCache.BindToRegister
  cases h : rc.regs i <;> simp [RegCache.RX, h]

/-- Binding guest register `d` keeps the run-time value of every other guest
register. -/
theorem value_bind_other (gpr : RegCache) (h : Host) (d i : Nat) (doLoad makeDirty : Bool)
    (hne : i ≠ d) :
    (gpr.BindToRegister d doLoad makeDirty).value (h.bind gpr d doLoad) i = gpr.value h i := by
  have key : ∀ v : Nat, ((gpr.spillX gpr.GetFreeXReg).R i).read
      (if doLoad = true then (h.spillX gpr gpr.GetFreeXReg).setX gpr.GetFreeXReg v
        else h.spillX gpr gpr.GetFreeXReg) = gpr.value h i := by
    intro v
    rw [← value_spillX gpr h gpr.GetFreeXReg i]
    have hno := spillX_regs_ne gpr gpr.GetFreeXReg i
    unfold RegCache.value RegCache.R
    cases hr : (gpr.spillX gpr.GetFreeXReg).regs i with
    | home => cases doLoad <;> simp [OpArg.read, Host.setX]
    | imm w => cases doLoad <;> simp [OpArg.read, Host.setX]
    | reg y =>
      have hy : y ≠ gpr.GetFreeXReg := by
        intro hy
        exact hno (by rw [hr, hy])
      cases doLoad <;> simp [OpArg.read, Host.setX, hy]
  unfold RegCache.BindToRegister Host.bind
  cases hr : gpr.regs d with
  | reg y => simp
  | home =>
    simp only [RegCache.value, RegCache.R, hne, if_false]
    exact key _
  | imm w =>
    simp only [RegCache.value, RegCache.R, hne, if_false]
    exact key _

/-- Binding guest register `d` with its value loaded keeps its run-time value. -/
theorem value_bind_self (gpr : RegCache) (h : Host) (d : Nat) (makeDirty : Bool) :
    (gpr.BindToRegister d true makeDirty).value (h.bind gpr d true) d = gpr.value h d := by
  unfold RegCache.BindToRegister Host.bind RegCache.value RegCache.R
  cases hr : gpr.regs d <;> simp [hr, OpArg.read, Host.setX]

theorem bind_xreg_noload (gpr : RegCache) (h : Host) (d : Nat) :
    (h.bind gpr d false).xreg = h.xreg := by
  unfold Host.bind
  cases hr : gpr.regs d <;> simp [Host.spillX]

theorem bind_xreg_other (gpr : RegCache) (h : Host) (d : Nat) (doLoad : Bool) (x : X64Reg)
    (hx : x ≠ gpr.GetFreeXReg) : (h.bind gpr d doLoad).xreg x = h.xreg x := by
  unfold Host.bind
  cases hr : gpr.regs d <;> cases doLoad <;> simp [Host.spillX, Host.setX, hx]

/-- The allocator never hands out a reserved host register. -/
theorem GetFreeXReg_not_xlocked (rc : RegCache) :
    rc.GetFreeXReg ∉ rc.xlocked ∨ rc.GetFreeXReg = X64Reg.INVALID_REG := by
  unfold RegCache.GetFreeXReg
  split
  · rename_i x hx
    have := List.find?_some hx
    simp only [Bool.and_eq_true, decide_eq_true_eq] at this
    exact Or.inl this.1
  · split
    · rename_i x hx
      have := List.find?_some hx
      simp only [Bool.and_eq_true, decide_eq_true_eq] at this
      exact Or.inl this.1
    · exact Or.inr rfl

/-- The load of the idle-loop branch: into the register of the destination,
from the base value plus the displacement, with the base value intact. -/
theorem lXXx_idleBody_view (cfg : Config) (inst : UGeckoInstruction) (jit : Jit) (h : Host)
    (sz : Nat) (sx : Bool) (hne : inst.RA ≠ inst.RD) :
    loadView inst.RD inst.RA jit.gpr h ((lXXx_idleBody cfg inst sz sx jit).emittedSince jit)
      = some { dstHoldsGuest := true,
               address := u32 ((jit.gpr.value h inst.RA : Int) + inst.SIMM_16),
               accessSize := sz, signExtend := sx,
               baseValue := jit.gpr.value h inst.RA,
               quietAfter := true } := by
  have hc : (lXXx_idleBody cfg inst sz sx jit).emittedSince jit = _ :=
    emittedSince_append _ _ _ (by
      simp [lXXx_idleBody, Jit.emit, Jit.BindToRegister]
      rfl)
  rw [hc]
  have hv := value_bind_other jit.gpr h inst.RD inst.RA false true hne
  have hr := BindToRegister_regs jit.gpr inst.RD false true
  simp only [loadView, RegCache.step, Host.step]
  simp [hr, Op.isQuiet, Op.written]
  unfold RegCache.value at hv
  rw [hv]
  trivial

theorem lXXx_update_lwz (inst : UGeckoInstruction) (gpr : RegCache) (hOp : inst.OPCD = 32) :
    lXXx_update inst gpr = false := by
  simp [lXXx_update, hOp]

/-- The code of `lXXx` for `lwz` on its ordinary path with a constant base and
exception-precise mode off. -/
theorem lXXx_lwz_code_const (cfg : Config) (inst : UGeckoInstruction) (jit : Jit)
    (hT : lXXx_fallback cfg inst = false) (hI : lXXx_idle cfg inst jit.js = false)
    (hOp : inst.OPCD = 32) (hA : inst.RA ≠ 0)
    (hM : jit.js.memcheck = false) (hImm : (jit.gpr.R inst.RA).IsImm = true) :
    (lXXx cfg inst jit).emittedSince jit =
      [Op.Lock [inst.RA, inst.RB, inst.RD],
       Op.BindToRegister inst.RD false true,
       Op.SafeLoadToReg ((lXXx_loadCache inst false jit.gpr).RX inst.RD)
         (OpArg.Imm32 (u32 (((jit.gpr.R inst.RA).offset : Int) + inst.SIMM_16))) 32 0
         (cfg.CallerSavedRegistersInUse (lXXx_loadCache inst false jit.gpr)) false,
       Op.UnlockAll, Op.UnlockAllX] := by
  apply emittedSince_append
  have hDec : lXXx_decode inst = some (32, false) := by simp [lXXx_decode, hOp]
  have hU := lXXx_update_lwz inst jit.gpr hOp
  simp [lXXx, hT, hI, hDec, hU, hM, hA, hOp, hImm, lXXx_prepareAddress, lXXx_finish,
    Jit.emit, Jit.Lock, Jit.BindToRegister, Jit.UnlockAll, Jit.UnlockAllX, lXXx_loadCache]

/-- The same with a base that is not a constant: the base is bound and the
displacement is passed to the load. -/
theorem lXXx_lwz_code_bound (cfg : Config) (inst : UGeckoInstruction) (jit : Jit)
    (hT : lXXx_fallback cfg inst = false) (hI : lXXx_idle cfg inst jit.js = false)
    (hOp : inst.OPCD = 32) (hA : inst.RA ≠ 0)
    (hM : jit.js.memcheck = false) (hImm : (jit.gpr.R inst.RA).IsImm = false) :
    (lXXx cfg inst jit).emittedSince jit =
      [Op.BindToRegister inst.RA true false,
       Op.Lock [inst.RA, inst.RB, inst.RD],
       Op.BindToRegister inst.RD false true,
       Op.SafeLoadToReg
         ((lXXx_loadCache inst false (jit.gpr.BindToRegister inst.RA true false)).RX inst.RD)
         ((jit.gpr.BindToRegister inst.RA true false).R inst.RA) 32 inst.SIMM_16
         (cfg.CallerSavedRegistersInUse
           (lXXx_loadCache inst false (jit.gpr.BindToRegister inst.RA true false))) false,
       Op.UnlockAll, Op.UnlockAllX] := by
  apply emittedSince_append
  have hDec : lXXx_decode inst = some (32, false) := by simp [lXXx_decode, hOp]
  have hU := lXXx_update_lwz inst jit.gpr hOp
  simp [lXXx, hT, hI, hDec, hU, hM, hA, hOp, hImm, lXXx_prepareAddress, lXXx_addrDynamic,
    lXXx_finish, Jit.emit, Jit.Lock, Jit.BindToRegister, Jit.UnlockAll, Jit.UnlockAllX,
    lXXx_loadCache]

/-- In exception-precise mode the address is computed in the scratch register. -/
theorem lXXx_lwz_code_scratch (cfg : Config) (inst : UGeckoInstruction) (jit : Jit)
    (hT : lXXx_fallback cfg inst = false) (hI : lXXx_idle cfg inst jit.js = false)
    (hOp : inst.OPCD = 32) (hA : inst.RA ≠ 0) (hM : jit.js.memcheck = true) :
    (lXXx cfg inst jit).emittedSince jit =
      [Op.FlushLockX [cfg.ABI_PARAM1]]
      ++ (if ((jit.gpr.FlushLockX [cfg.ABI_PARAM1]).R inst.RA).IsSimpleReg = true
              ∧ inst.SIMM_16 ≠ 0 then
            [Op.LEA 32 cfg.ABI_PARAM1
              (OpArg.MDisp ((jit.gpr.FlushLockX [cfg.ABI_PARAM1]).RX inst.RA) inst.SIMM_16)]
          else if inst.SIMM_16 ≠ 0 then
            [Op.MOV 32 (OpArg.R cfg.ABI_PARAM1) ((jit.gpr.FlushLockX [cfg.ABI_PARAM1]).R inst.RA),
             Op.ADD 32 (OpArg.R cfg.ABI_PARAM1) (OpArg.Imm32 (u32 inst.SIMM_16))]
          else
            [Op.MOV 32 (OpArg.R cfg.ABI_PARAM1) ((jit.gpr.FlushLockX [cfg.ABI_PARAM1]).R inst.RA)])
      ++ [Op.Lock [inst.RA, inst.RB, inst.RD],
          Op.BindToRegister inst.RD true true,
          Op.SafeLoadToReg
            ((lXXx_loadCache inst true (jit.gpr.FlushLockX [cfg.ABI_PARAM1])).RX inst.RD)
            (OpArg.R cfg.ABI_PARAM1) 32 0
            (cfg.CallerSavedRegistersInUse
              (lXXx_loadCache inst true (jit.gpr.FlushLockX [cfg.ABI_PARAM1]))) false,
          Op.UnlockAll, Op.UnlockAllX] := by
  apply emittedSince_append
  have hDec : lXXx_decode inst = some (32, false) := by simp [lXXx_decode, hOp]
  have hU := lXXx_update_lwz inst jit.gpr hOp
  by_cases h1 : ((jit.gpr.FlushLockX [cfg.ABI_PARAM1]).R inst.RA).IsSimpleReg = true <;>
  by_cases h2 : inst.SIMM_16 = 0 <;>
    simp [lXXx, hT, hI, hDec, hU, hM, hA, hOp, h1, h2, lXXx_prepareAddress, lXXx_addrDynamic,
      lXXx_finish, Jit.emit, Jit.Lock, Jit.BindToRegister, Jit.FlushLockX, Jit.UnlockAll,
      Jit.UnlockAllX, lXXx_loadCache]

theorem read_of_IsImm (op : OpArg) (h : Host) (hImm : op.IsImm = true) :
    op.read h = op.offset := by
  cases op <;> first | rfl | simp [OpArg.IsImm] at hImm

theorem Lock_value (gpr : RegCache) (rs : List Nat) (h : Host) (i : Nat) :
    (gpr.Lock rs).value h i = gpr.value h i := rfl

theorem lXXx_lwz_view_const (cfg : Config) (inst : UGeckoInstruction) (jit : Jit) (h : Host)
    (hT : lXXx_fallback cfg inst = false) (hI : lXXx_idle cfg inst jit.js = false)
    (hOp : inst.OPCD = 32) (hA : inst.RA ≠ 0) (hne : inst.RA ≠ inst.RD)
    (hM : jit.js.memcheck = false) (hImm : (jit.gpr.R inst.RA).IsImm = true) :
    loadView inst.RD inst.RA jit.gpr h ((lXXx cfg inst jit).emittedSince jit)
      = some { dstHoldsGuest := true,
               address := u32 ((jit.gpr.value h inst.RA : Int) + inst.SIMM_16),
               accessSize := 32, signExtend := false,
               baseValue := jit.gpr.value h inst.RA,
               quietAfter := true } := by
  rw [lXXx_lwz_code_const cfg inst jit hT hI hOp hA hM hImm]
  have hv := value_bind_other (jit.gpr.Lock [inst.RA, inst.RB, inst.RD]) h inst.RD inst.RA
    false true hne
  rw [Lock_value] at hv
  have hr := BindToRegister_regs (jit.gpr.Lock [inst.RA, inst.RB, inst.RD]) inst.RD false true
  have hval : jit.gpr.value h inst.RA = (jit.gpr.R inst.RA).offset :=
    read_of_IsImm _ h hImm
  simp only [loadView, RegCache.step, Host.step, lXXx_loadCache]
  simp [hr, hv, hval, Op.isQuiet, Op.written, OpArg.read, u32_u32]

theorem lXXx_lwz_view_bound (cfg : Config) (inst : UGeckoInstruction) (jit : Jit) (h : Host)
    (hT : lXXx_fallback cfg inst = false) (hI : lXXx_idle cfg inst jit.js = false)
    (hOp : inst.OPCD = 32) (hA : inst.RA ≠ 0) (hne : inst.RA ≠ inst.RD)
    (hM : jit.js.memcheck = false) (hImm : (jit.gpr.R inst.RA).IsImm = false) :
    loadView inst.RD inst.RA jit.gpr h ((lXXx cfg inst jit).emittedSince jit)
      = some { dstHoldsGuest := true,
               address := u32 ((jit.gpr.value h inst.RA : Int) + inst.SIMM_16),
               accessSize := 32, signExtend := false,
               baseValue := jit.gpr.value h inst.RA,
               quietAfter := true } := by
  rw [lXXx_lwz_code_bound cfg inst jit hT hI hOp hA hM hImm]
  have hs := value_bind_self jit.gpr h inst.RA false
  have hv := value_bind_other ((jit.gpr.BindToRegister inst.RA true false).Lock
    [inst.RA, inst.RB, inst.RD]) (h.bind jit.gpr inst.RA true) inst.RD inst.RA false true hne
  rw [Lock_value, hs] at hv
  have hr := BindToRegister_regs ((jit.gpr.BindToRegister inst.RA true false).Lock
    [inst.RA, inst.RB, inst.RD]) inst.RD false true
  have hx := bind_xreg_noload ((jit.gpr.BindToRegister inst.RA true false).Lock
    [inst.RA, inst.RB, inst.RD]) (h.bind jit.gpr inst.RA true) inst.RD
  have hR := BindToRegister_R jit.gpr inst.RA true false
  have haddr : ((jit.gpr.BindToRegister inst.RA true false).R inst.RA).read
      ((h.bind jit.gpr inst.RA true).bind ((jit.gpr.BindToRegister inst.RA true false).Lock
        [inst.RA, inst.RB, inst.RD]) inst.RD false) = jit.gpr.value h inst.RA := by
    rw [← hs]
    unfold RegCache.value
    rw [hR]
    simp only [OpArg.read]
    rw [hx]
  simp only [loadView, RegCache.step, Host.step, lXXx_loadCache]
  simp [hr, hv, haddr, Op.isQuiet, Op.written]

theorem R_of_IsSimpleReg (gpr : RegCache) (i : Nat) (hs : (gpr.R i).IsSimpleReg = true) :
    gpr.R i = OpArg.R (gpr.RX i) := by
  unfold RegCache.R RegCache.RX at *
  cases hr : gpr.regs i <;> simp [hr, OpArg.IsSimpleReg] at hs ⊢

theorem value_setX_ne (gpr : RegCache) (h : Host) (x : X64Reg) (v i : Nat)
    (hne : gpr.R i ≠ OpArg.R x) : gpr.value (h.setX x v) i = gpr.value h i := by
  unfold RegCache.value
  cases hr : gpr.R i with
  | R y =>
    have hy : y ≠ x := by
      intro hy
      exact hne (by rw [hr, hy])
    simp [OpArg.read, Host.setX, hy]
  | _ => rfl

theorem FlushLockX_value (gpr : RegCache) (h : Host) (x : X64Reg) (i : Nat) :
    (gpr.FlushLockX [x]).value (h.flushX gpr [x]) i = gpr.value h i :=
  value_spillX gpr h x i

/-- The tail of `lXXx` after the address has been put in the scratch register:
the load reads its address from the scratch register, which binding the
destination leaves alone. -/
theorem scratch_tail_view (g1 : RegCache) (h2 : Host) (P1 : X64Reg) (d a : Nat)
    (rs : List Nat) (doLoad : Bool) (sz regs : Nat) (sx : Bool)
    (hP : P1 ∈ g1.xlocked) (hInv : P1 ≠ X64Reg.INVALID_REG) (hne : a ≠ d) :
    loadView d a g1 h2
        [Op.Lock rs, Op.BindToRegister d doLoad true,
         Op.SafeLoadToReg (((g1.Lock rs).BindToRegister d doLoad true).RX d) (OpArg.R P1) sz 0
           regs sx,
         Op.UnlockAll, Op.UnlockAllX]
      = some { dstHoldsGuest := true,
               address := u32 ((h2.xreg P1 : Int) + 0),
               accessSize := sz, signExtend := sx,
               baseValue := g1.value h2 a,
               quietAfter := true } := by
  have hv := value_bind_other (g1.Lock rs) h2 d a doLoad true hne
  rw [Lock_value] at hv
  have hr := BindToRegister_regs (g1.Lock rs) d doLoad true
  have hfree : P1 ≠ (g1.Lock rs).GetFreeXReg := by
    intro hcon
    rcases GetFreeXReg_not_xlocked (g1.Lock rs) with hn | hi
    · apply hn
      rw [← hcon]
      exact hP
    · exact hInv (hcon.trans hi)
  have hx := bind_xreg_other (g1.Lock rs) h2 d doLoad P1 hfree
  simp only [loadView, RegCache.step, Host.step]
  simp [hr, hv, hx, Op.isQuiet, Op.written, OpArg.read]

theorem loadView_FlushLockX (d a : Nat) (gpr : RegCache) (h : Host) (xs : List X64Reg)
    (ops : List Op) :
    loadView d a gpr h (Op.FlushLockX xs :: ops)
      = loadView d a (gpr.FlushLockX xs) (h.flushX gpr xs) ops := rfl

theorem loadView_MOV (d a : Nat) (gpr : RegCache) (h : Host) (bits : Nat) (dst src : OpArg)
    (ops : List Op) :
    loadView d a gpr h (Op.MOV bits dst src :: ops)
      = loadView d a gpr (h.write dst (src.read h)) ops := rfl

theorem loadView_ADD (d a : Nat) (gpr : RegCache) (h : Host) (bits : Nat) (dst src : OpArg)
    (ops : List Op) :
    loadView d a gpr h (Op.ADD bits dst src :: ops)
      = loadView d a gpr (h.write dst ((dst.read h + src.read h) % 4294967296)) ops := rfl

theorem loadView_LEA_MDisp (d a : Nat) (gpr : RegCache) (h : Host) (bits : Nat)
    (dst r : X64Reg) (off : Int) (ops : List Op) :
    loadView d a gpr h (Op.LEA bits dst (OpArg.MDisp r off) :: ops)
      = loadView d a gpr (h.setX dst (u32 ((h.xreg r : Int) + off))) ops := rfl

theorem lXXx_lwz_view_scratch (cfg : Config) (inst : UGeckoInstruction) (jit : Jit) (h : Host)
    (hT : lXXx_fallback cfg inst = false) (hI : lXXx_idle cfg inst jit.js = false)
    (hOp : inst.OPCD = 32) (hA : inst.RA ≠ 0) (hne : inst.RA ≠ inst.RD)
    (hM : jit.js.memcheck = true) (hInv : cfg.ABI_PARAM1 ≠ X64Reg.INVALID_REG) :
    loadView inst.RD inst.RA jit.gpr h ((lXXx cfg inst jit).emittedSince jit)
      = some { dstHoldsGuest := true,
               address := u32 ((jit.gpr.value h inst.RA : Int) + inst.SIMM_16),
               accessSize := 32, signExtend := false,
               baseValue := jit.gpr.value h inst.RA,
               quietAfter := true } := by
  rw [lXXx_lwz_code_scratch cfg inst jit hT hI hOp hA hM]
  have hP : cfg.ABI_PARAM1 ∈ (jit.gpr.FlushLockX [cfg.ABI_PARAM1]).xlocked := by
    simp [RegCache.FlushLockX]
  have hneR : (jit.gpr.FlushLockX [cfg.ABI_PARAM1]).R inst.RA ≠ OpArg.R cfg.ABI_PARAM1 :=
    FlushLockX_R_ne jit.gpr [cfg.ABI_PARAM1] cfg.ABI_PARAM1 inst.RA (by simp)
  have hV := FlushLockX_value jit.gpr h cfg.ABI_PARAM1 inst.RA
  have hV2 : ((jit.gpr.FlushLockX [cfg.ABI_PARAM1]).R inst.RA).read
      (h.flushX jit.gpr [cfg.ABI_PARAM1]) = jit.gpr.value h inst.RA := hV
  by_cases h1 : ((jit.gpr.FlushLockX [cfg.ABI_PARAM1]).R inst.RA).IsSimpleReg = true
  · by_cases h2 : inst.SIMM_16 = 0
    · simp only [h1, h2, ne_eq, not_true_eq_false, and_false, if_false, List.cons_append,
        List.nil_append]
      rw [loadView_FlushLockX, loadView_MOV, lXXx_loadCache,
        scratch_tail_view _ _ _ _ _ _ _ _ _ _ hP hInv hne]
      simp only [Host.write]
      rw [value_setX_ne _ _ _ _ _ hneR, hV]
      simp [Host.setX, hV2]
    · simp only [h1, h2, ne_eq, not_false_eq_true, and_self, if_true, List.cons_append,
        List.nil_append]
      rw [loadView_FlushLockX, loadView_LEA_MDisp, lXXx_loadCache,
        scratch_tail_view _ _ _ _ _ _ _ _ _ _ hP hInv hne]
      rw [value_setX_ne _ _ _ _ _ hneR, hV]
      have hxa : (h.flushX jit.gpr [cfg.ABI_PARAM1]).xreg
          ((jit.gpr.FlushLockX [cfg.ABI_PARAM1]).RX inst.RA) = jit.gpr.value h inst.RA := by
        rw [← hV]
        unfold RegCache.value
        rw [R_of_IsSimpleReg _ _ h1]
        rfl
      simp [Host.setX, hxa, u32_u32]
  · by_cases h2 : inst.SIMM_16 = 0
    · simp only [h1, h2, ne_eq, not_true_eq_false, and_false, if_false, List.cons_append,
        List.nil_append]
      rw [loadView_FlushLockX, loadView_MOV, lXXx_loadCache,
        scratch_tail_view _ _ _ _ _ _ _ _ _ _ hP hInv hne]
      simp only [Host.write]
      rw [value_setX_ne _ _ _ _ _ hneR, hV]
      simp [Host.setX, hV2]
    · simp only [h1, h2, ne_eq, not_false_eq_true, false_and, if_false, if_true,
        Bool.false_eq_true, List.cons_append, List.nil_append]
      rw [loadView_FlushLockX, loadView_MOV, loadView_ADD, lXXx_loadCache,
        scratch_tail_view _ _ _ _ _ _ _ _ _ _ hP hInv hne]
      simp only [Host.write]
      rw [value_setX_ne _ _ _ _ _ hneR, value_setX_ne _ _ _ _ _ hneR, hV]
      simp [Host.setX, read_R, read_Imm32, hV2, u32_add_mod_cast]

/-- C9: when `lXXx` translates the instruction itself and the idle-loop
pattern matches (so the word is `lwz r0, imm(r13)`), the load emitted with idle
skipping on and the load emitted with idle skipping off are the same load: the
destination is the host register bound to guest register 0, the effective
address at run time is (value of the base register + sign-extended immediate)
mod 2^32, the width is 32 bits with zero extension; in both cases the base
register still has its value when the load runs and nothing emitted after the
load writes an operand or rebinds a register. `ABI_PARAM1` is taken to be a
real host register. -/
theorem C9_idle_same_load (cfg : Config) (inst : UGeckoInstruction) (jit : Jit) (h : Host)
    (hT : lXXx_fallback cfg inst = false)
    (hInv : cfg.ABI_PARAM1 ≠ X64Reg.INVALID_REG)
    (hI : lXXx_idle { cfg with bSkipIdle := true } inst jit.js = true) :
    loadView inst.RD inst.RA jit.gpr h
        ((lXXx { cfg with bSkipIdle := true } inst jit).emittedSince jit)
      = some { dstHoldsGuest := true,
               address := u32 ((jit.gpr.value h inst.RA : Int) + inst.SIMM_16),
               accessSize := 32, signExtend := false,
               baseValue := jit.gpr.value h inst.RA,
               quietAfter := true }
    ∧ loadView inst.RD inst.RA jit.gpr h
        ((lXXx { cfg with bSkipIdle := false } inst jit).emittedSince jit)
      = some { dstHoldsGuest := true,
               address := u32 ((jit.gpr.value h inst.RA : Int) + inst.SIMM_16),
               accessSize := 32, signExtend := false,
               baseValue := jit.gpr.value h inst.RA,
               quietAfter := true } := by
  obtain ⟨hOp, hd, ha⟩ := lXXx_idle_fields _ inst jit.js hI
  have hne : inst.RA ≠ inst.RD := by omega
  have hA : inst.RA ≠ 0 := by omega
  have hDec : lXXx_decode inst = some (32, false) := by simp [lXXx_decode, hOp]
  constructor
  · have hTon : lXXx_fallback { cfg with bSkipIdle := true } inst = false := hT
    have hl : lXXx { cfg with bSkipIdle := true } inst jit
        = lXXx_idleBody { cfg with bSkipIdle := true } inst 32 false jit := by
      simp [lXXx, hTon, hDec, hI]
    rw [hl]
    exact lXXx_idleBody_view _ inst jit h 32 false hne
  · have hToff : lXXx_fallback { cfg with bSkipIdle := false } inst = false := hT
    have hIoff : lXXx_idle { cfg with bSkipIdle := false } inst jit.js = false := by
      simp [lXXx_idle]
    by_cases hM : jit.js.memcheck = true
    · exact lXXx_lwz_view_scratch _ inst jit h hToff hIoff hOp hA hne hM hInv
    · have hM2 : jit.js.memcheck = false := by simpa using hM
      by_cases hImm : (jit.gpr.R inst.RA).IsImm = true
      · exact lXXx_lwz_view_const _ inst jit h hToff hIoff hOp hA hne hM2 hImm
      · exact lXXx_lwz_view_bound _ inst jit h hToff hIoff hOp hA hne hM2
          (by simpa using hImm)

/-- C9 applied to `lwz r0, 16(r13)` with `r13` holding `0x80400000`. -/
theorem C9_idle_same_load_witness :
    lXXx_fallback sampleIdleConfig (encodeD 32 0 13 16) = false
    ∧ sampleIdleConfig.ABI_PARAM1 ≠ X64Reg.INVALID_REG
    ∧ lXXx_idle { sampleIdleConfig with bSkipIdle := true } (encodeD 32 0 13 16) sampleJit.js = true
    ∧ loadView 0 13 sampleJit.gpr sampleHost
        ((lXXx { sampleIdleConfig with bSkipIdle := true } (encodeD 32 0 13 16)
          sampleJit).emittedSince sampleJit)
      = some { dstHoldsGuest := true, address := 0x80400010, accessSize := 32,
               signExtend := false, baseValue := 0x80400000, quietAfter := true }
    ∧ loadView 0 13 sampleJit.gpr sampleHost
        ((lXXx { sampleIdleConfig with bSkipIdle := false } (encodeD 32 0 13 16)
          sampleJit).emittedSince sampleJit)
      = some { dstHoldsGuest := true, address := 0x80400010, accessSize := 32,
               signExtend := false, baseValue := 0x80400000, quietAfter := true } :=
  ⟨by decide, by decide, by decide,
    C9_idle_same_load sampleIdleConfig (encodeD 32 0 13 16) sampleJit sampleHost
      (by decide) (by decide) (by decide)⟩

/-! ## C11: constant-address stores off the FIFO path -/

/-- C11 as stated fails for an update form with base field 0: `stwu r3, 4(r0)`
has the translation-time constant address 4, which is neither in the FIFO page
nor RAM, so the claim puts it on the generic-handler path with a rebinding of
the base; `stX` only raises the "Invalid stX" alert and takes none of the three
paths. -/
theorem C11_stX_const_counterexample :
    (encodeD 37 3 0 4).RA = 0
    ∧ stX_update (encodeD 37 3 0 4) = true
    ∧ stX_addr (encodeD 37 3 0 4) sampleJit.gpr = 4
    ∧ stX_fifoPath sampleConfig (encodeD 37 3 0 4) sampleJit.gpr = false
    ∧ sampleConfig.IsRAMAddress 4 = false
    ∧ (stX sampleConfig (encodeD 37 3 0 4) sampleJit).code = [Op.PanicAlert "Invalid stX"] := by
  decide

/-- The code of `stX` on the two constant-address paths that are not the FIFO
path (lines 340-371). -/
theorem stX_code_const (cfg : Config) (inst : UGeckoInstruction) (jit : Jit) (sz : Nat)
    (hT : cfg.bJITLoadStoreOff = false) (hS : stX_accessSize inst = some sz)
    (hLegal : inst.RA ≠ 0 ∨ stX_update inst = false)
    (hConst : inst.RA = 0 ∨ (jit.gpr.R inst.RA).IsImm = true)
    (hNF : stX_fifoPath cfg inst jit.gpr = false) :
    ∃ fn, ((sz = 8 ∧ fn = Fn.Write_U8) ∨ (sz = 16 ∧ fn = Fn.Write_U16)
        ∨ (sz = 32 ∧ fn = Fn.Write_U32))
      ∧ (stX cfg inst jit).code = jit.code ++
        ((if cfg.IsRAMAddress (stX_addr inst jit.gpr) = true then
            [Op.MOV 32 (OpArg.R EAX) (jit.gpr.R inst.RS),
             Op.WriteToConstRamAddress sz EAX (stX_addr inst jit.gpr) true]
          else
            [Op.MOV 32 OpArg.MPC (OpArg.Imm32 jit.js.compilerPC),
             Op.ABI_PushRegistersAndAdjustStack (cfg.CallerSavedRegistersInUse jit.gpr) false,
             Op.ABI_CallFunctionAC fn (jit.gpr.R inst.RS) (stX_addr inst jit.gpr),
             Op.ABI_PopRegistersAndAdjustStack (cfg.CallerSavedRegistersInUse jit.gpr) false])
         ++ (if stX_update inst = true
              then [Op.SetImmediate32 inst.RA (stX_addr inst jit.gpr)] else [])) := by
  have hV : (inst.RA != 0 || !stX_update inst) = true := by
    rcases hLegal with h | h <;> simp [h]
  have hC : (inst.RA == 0 || (jit.gpr.R inst.RA).IsImm) = true := by
    rcases hConst with h | h <;> simp [h]
  have hF2 : ((stX_addr inst jit.gpr &&& 0xFFFFF000) == 0xCC008000
      && cfg.optimizeGatherPipe) = false := by
    simpa [stX_fifoPath, hC, Bool.and_assoc] using hNF
  rcases hLegal with hA | hU
  · rcases stX_accessSize_cases inst sz hS with h | h | h <;> subst h <;>
      by_cases hR : cfg.IsRAMAddress (stX_addr inst jit.gpr) = true <;>
      by_cases hU : stX_update inst = true <;>
      simp [stX, hT, hA, hS, hC, stX_const, hF2, hR, hU, Jit.emit, Jit.SetImmediate32,
        memoryWrite]
  · rcases stX_accessSize_cases inst sz hS with h | h | h <;> subst h <;>
      by_cases hR : cfg.IsRAMAddress (stX_addr inst jit.gpr) = true <;>
      simp [stX, hT, hS, hC, stX_const, hF2, hR, hU, Jit.emit, Jit.SetImmediate32, memoryWrite]

/-- C11 (amended): for a legal store (not an update form with base field 0)
whose opcode `stX` handles and translates itself, whose address is a
translation-time constant `addr` (base field 0 or base bound to a constant)
and which does not take the FIFO path: if `addr` is classified as RAM, `stX`
emits the move of the source operand into `EAX` and a direct constant-address
write of the store's width to `addr`, and no handler call; otherwise it records
the guest PC and emits exactly one call of the generic write handler of the
store's width with the source operand and `addr`, between the save and the
restore of the caller-saved registers in use. In both cases an update form
then rebinds the base register to the constant `addr`. No streaming-append call
is emitted and the block context is unchanged, so exactly one of the three
paths is taken. -/
theorem C11_stX_const_paths (cfg : Config) (inst : UGeckoInstruction) (jit : Jit) (sz : Nat)
    (hT : cfg.bJITLoadStoreOff = false) (hS : stX_accessSize inst = some sz)
    (hLegal : inst.RA ≠ 0 ∨ stX_update inst = false)
    (hConst : inst.RA = 0 ∨ (jit.gpr.R inst.RA).IsImm = true)
    (hNF : stX_fifoPath cfg inst jit.gpr = false) :
    (∃ fn, ((sz = 8 ∧ fn = Fn.Write_U8) ∨ (sz = 16 ∧ fn = Fn.Write_U16)
        ∨ (sz = 32 ∧ fn = Fn.Write_U32))
      ∧ (stX cfg inst jit).emittedSince jit =
        (if cfg.IsRAMAddress (stX_addr inst jit.gpr) = true then
            [Op.MOV 32 (OpArg.R EAX) (jit.gpr.R inst.RS),
             Op.WriteToConstRamAddress sz EAX (stX_addr inst jit.gpr) true]
          else
            [Op.MOV 32 OpArg.MPC (OpArg.Imm32 jit.js.compilerPC),
             Op.ABI_PushRegistersAndAdjustStack (cfg.CallerSavedRegistersInUse jit.gpr) false,
             Op.ABI_CallFunctionAC fn (jit.gpr.R inst.RS) (stX_addr inst jit.gpr),
             Op.ABI_PopRegistersAndAdjustStack (cfg.CallerSavedRegistersInUse jit.gpr) false])
        ++ (if stX_update inst = true
              then [Op.SetImmediate32 inst.RA (stX_addr inst jit.gpr)] else []))
    ∧ (∀ op ∈ (stX cfg inst jit).emittedSince jit, op.isFifoCall = false)
    ∧ (stX cfg inst jit).js = jit.js := by
  obtain ⟨fn, hfn, hc⟩ := stX_code_const cfg inst jit sz hT hS hLegal hConst hNF
  exact ⟨⟨fn, hfn, emittedSince_append _ _ _ hc⟩, stX_no_fifo_call cfg inst jit hNF,
    stX_js_of_not_fifo cfg inst jit hNF⟩

/-- C11 (amended) applied to `stwu r3, 8(r4)` with `r4` bound to the RAM
address `0x80001000`. -/
theorem C11_stX_const_paths_witness :
    sampleConfig.bJITLoadStoreOff = false
    ∧ stX_accessSize (encodeD 37 3 4 8) = some 32
    ∧ (encodeD 37 3 4 8).RA ≠ 0
    ∧ ((sampleJitConst 4 0x80001000).gpr.R (encodeD 37 3 4 8).RA).IsImm = true
    ∧ stX_fifoPath sampleConfig (encodeD 37 3 4 8) (sampleJitConst 4 0x80001000).gpr = false
    ∧ (stX sampleConfig (encodeD 37 3 4 8) (sampleJitConst 4 0x80001000)).code =
        [Op.MOV 32 (OpArg.R X64Reg.RAX) (OpArg.Mgpr 3),
         Op.WriteToConstRamAddress 32 X64Reg.RAX 0x80001008 true,
         Op.SetImmediate32 4 0x80001008]
    ∧ (stX sampleConfig (encodeD 37 3 4 8) (sampleJitConst 4 0x80001000)).js
        = (sampleJitConst 4 0x80001000).js :=
  ⟨by decide, by decide, by decide, by decide, by decide, by decide,
    (C11_stX_const_paths sampleConfig (encodeD 37 3 4 8) (sampleJitConst 4 0x80001000) 32
      (by decide) (by decide) (Or.inl (by decide)) (Or.inr (by decide)) (by decide)).2.2⟩

/-! ## C12: access size and sign extension of loads -/

theorem loadsOf_append (xs ys : List Op) : loadsOf (xs ++ ys) = loadsOf xs ++ loadsOf ys := by
  simp [loadsOf, List.filterMap_append]

theorem ext_refl (j : Jit) : LoadFreeExtension j j := ⟨[], by simp, rfl⟩

theorem ext_emit (j j1 : Jit) (op : Op) (h : LoadFreeExtension j j1) (hop : op.isLoad = false) :
    LoadFreeExtension j (j1.emit op) := by
  obtain ⟨pre, hc, hl⟩ := h
  refine ⟨pre ++ [op], by simp [Jit.emit, hc], ?_⟩
  rw [loadsOf_append, hl]
  cases op <;> first | rfl | simp [Op.isLoad] at hop

theorem ext_gpr (j j1 : Jit) (g : RegCache) (op : Op) (h : LoadFreeExtension j j1)
    (hop : op.isLoad = false) :
    LoadFreeExtension j { j1 with gpr := g, code := j1.code ++ [op] } :=
  ext_emit j j1 op h hop

theorem ext_Lock (j j1 : Jit) (rs : List Nat) (h : LoadFreeExtension j j1) :
    LoadFreeExtension j (j1.Lock rs) := ext_gpr j j1 _ _ h rfl

theorem ext_FlushLockX (j j1 : Jit) (xs : List X64Reg) (h : LoadFreeExtension j j1) :
    LoadFreeExtension j (j1.FlushLockX xs) := ext_gpr j j1 _ _ h rfl

theorem ext_BindToRegister (j j1 : Jit) (i : Nat) (l m : Bool) (h : LoadFreeExtension j j1) :
    LoadFreeExtension j (j1.BindToRegister i l m) := ext_gpr j j1 _ _ h rfl

theorem ext_SetImmediate32 (j j1 : Jit) (i v : Nat) (h : LoadFreeExtension j j1) :
    LoadFreeExtension j (j1.SetImmediate32 i v) := ext_gpr j j1 _ _ h rfl

/-- The innermost address preparation only appends code, none of it a load. -/
theorem lXXx_addrDynamic_code (cfg : Config) (inst : UGeckoInstruction) (update : Bool)
    (jit : Jit) : LoadFreeExtension jit (lXXx_addrDynamic cfg inst update jit).jit := by
  simp only [lXXx_addrDynamic]
  split_ifs <;>
    repeat (first
      | exact ext_refl _
      | rfl
      | apply ext_emit
      | apply ext_Lock
      | apply ext_FlushLockX
      | apply ext_BindToRegister
      | apply ext_SetImmediate32)

/-- The address preparation only appends code, none of it a load. -/
theorem lXXx_prepareAddress_code (cfg : Config) (inst : UGeckoInstruction) (update : Bool)
    (jit : Jit) : LoadFreeExtension jit (lXXx_prepareAddress cfg inst update jit).jit := by
  simp only [lXXx_prepareAddress]
  split_ifs <;>
    repeat (first
      | exact ext_refl _
      | exact lXXx_addrDynamic_code cfg inst update jit
      | rfl
      | apply ext_emit
      | apply ext_Lock
      | apply ext_FlushLockX
      | apply ext_BindToRegister
      | apply ext_SetImmediate32)

/-- The tail of `lXXx` appends exactly one load, with the pair it was given. -/
theorem lXXx_finish_loads (cfg : Config) (inst : UGeckoInstruction) (sz : Nat)
    (sx update : Bool) (p : AddrPrep) :
    ∃ ops, (lXXx_finish cfg inst sz sx update p).code = p.jit.code ++ ops
      ∧ loadsOf ops = [(sz, sx)] := by
  by_cases h1 : (update && p.storeAddress) = true <;>
  by_cases h2 : p.jit.js.memcheck = true <;>
    simp [lXXx_finish, h1, h2, Jit.emit, Jit.Lock, Jit.BindToRegister, Jit.MEMCHECK_START,
      Jit.MEMCHECK_END, Jit.UnlockAll, Jit.UnlockAllX, loadsOf]

theorem lXXx_idleBody_loads (cfg : Config) (inst : UGeckoInstruction) (sz : Nat) (sx : Bool)
    (jit : Jit) :
    ∃ ops, (lXXx_idleBody cfg inst sz sx jit).code = jit.code ++ ops
      ∧ loadsOf ops = [(sz, sx)] := by
  simp [lXXx_idleBody, Jit.emit, Jit.BindToRegister, loadsOf]

/-- Whenever `lXXx` translates an instruction itself it emits exactly one load,
with the access size and sign extension of its decoding switch. -/
theorem lXXx_loads (cfg : Config) (inst : UGeckoInstruction) (jit : Jit)
    (hT : lXXx_fallback cfg inst = false) :
    loadsOf ((lXXx cfg inst jit).emittedSince jit) = [(lXXx_decode inst).getD (0, false)] := by
  have key : ∀ j0 : Jit, LoadFreeExtension jit j0 →
      (∃ ops, (lXXx_idleBody cfg inst ((lXXx_decode inst).getD (0, false)).1
          ((lXXx_decode inst).getD (0, false)).2 j0).code = jit.code ++ ops
        ∧ loadsOf ops = [(lXXx_decode inst).getD (0, false)])
      ∧ (∃ ops, (lXXx_finish cfg inst ((lXXx_decode inst).getD (0, false)).1
          ((lXXx_decode inst).getD (0, false)).2 (lXXx_update inst j0.gpr)
          (lXXx_prepareAddress cfg inst (lXXx_update inst j0.gpr) j0)).code = jit.code ++ ops
        ∧ loadsOf ops = [(lXXx_decode inst).getD (0, false)]) := by
    intro j0 ⟨pre0, hc0, hl0⟩
    constructor
    · obtain ⟨ops, hc, hl⟩ := lXXx_idleBody_loads cfg inst
        ((lXXx_decode inst).getD (0, false)).1 ((lXXx_decode inst).getD (0, false)).2 j0
      exact ⟨pre0 ++ ops, by rw [hc, hc0, List.append_assoc], by rw [loadsOf_append, hl0, hl]; rfl⟩
    · obtain ⟨pre, hc1, hl1⟩ := lXXx_prepareAddress_code cfg inst (lXXx_update inst j0.gpr) j0
      obtain ⟨ops, hc, hl⟩ := lXXx_finish_loads cfg inst
        ((lXXx_decode inst).getD (0, false)).1 ((lXXx_decode inst).getD (0, false)).2
        (lXXx_update inst j0.gpr) (lXXx_prepareAddress cfg inst (lXXx_update inst j0.gpr) j0)
      exact ⟨pre0 ++ (pre ++ ops), by rw [hc, hc1, hc0, List.append_assoc, List.append_assoc],
        by rw [loadsOf_append, loadsOf_append, hl0, hl1, hl]; rfl⟩
  by_cases hN : (lXXx_decode inst).isNone = true
  · obtain ⟨hidle, hord⟩ := key (jit.emit (Op.PanicAlert "Invalid instruction"))
      (ext_emit _ _ _ (ext_refl _) rfl)
    by_cases hI : lXXx_idle cfg inst (jit.emit (Op.PanicAlert "Invalid instruction")).js = true
    · obtain ⟨ops, hc, hl⟩ := hidle
      have : (lXXx cfg inst jit).code = jit.code ++ ops := by
        rw [← hc]
        simp only [lXXx, hT, hN, hI, Bool.false_eq_true, if_false, if_true]
      rw [emittedSince_append _ _ _ this, hl]
    · obtain ⟨ops, hc, hl⟩ := hord
      have : (lXXx cfg inst jit).code = jit.code ++ ops := by
        rw [← hc]
        simp only [lXXx, hT, hN, hI, Bool.false_eq_true, if_false, if_true]
      rw [emittedSince_append _ _ _ this, hl]
  · obtain ⟨hidle, hord⟩ := key jit (ext_refl _)
    by_cases hI : lXXx_idle cfg inst jit.js = true
    · obtain ⟨ops, hc, hl⟩ := hidle
      have : (lXXx cfg inst jit).code = jit.code ++ ops := by
        rw [← hc]
        simp only [lXXx, hT, hN, hI, Bool.false_eq_true, if_false, if_true]
      rw [emittedSince_append _ _ _ this, hl]
    · obtain ⟨ops, hc, hl⟩ := hord
      have : (lXXx cfg inst jit).code = jit.code ++ ops := by
        rw [← hc]
        simp only [lXXx, hT, hN, hI, Bool.false_eq_true, if_false, if_true]
      rw [emittedSince_append _ _ _ this, hl]

/-- C12: the decoding switch of `lXXx` gives lwz, lwzu, lwzx, lwzux the pair
(32, zero-extend); lbz, lbzu, lbzx, lbzux (8, zero-extend); lhz, lhzu, lhzx,
lhzux (16, zero-extend); lha, lhau, lhax, lhaux (16, sign-extend), so an update
form has the pair of its plain form; every recognised opcode has width 8, 16
or 32; and whenever `lXXx` translates a recognised opcode itself, on the
idle-loop path as on the ordinary path, it emits exactly one load and hands the
load emitter exactly that pair. -/
theorem C12_lXXx_access_size (cfg : Config) (inst : UGeckoInstruction) (jit : Jit) :
    ((inst.OPCD = 32 ∨ inst.OPCD = 33
        ∨ (inst.OPCD = 31 ∧ (inst.SUBOP10 = 23 ∨ inst.SUBOP10 = 55)))
      → lXXx_decode inst = some (32, false))
    ∧ ((inst.OPCD = 34 ∨ inst.OPCD = 35
        ∨ (inst.OPCD = 31 ∧ (inst.SUBOP10 = 87 ∨ inst.SUBOP10 = 119)))
      → lXXx_decode inst = some (8, false))
    ∧ ((inst.OPCD = 40 ∨ inst.OPCD = 41
        ∨ (inst.OPCD = 31 ∧ (inst.SUBOP10 = 279 ∨ inst.SUBOP10 = 311)))
      → lXXx_decode inst = some (16, false))
    ∧ ((inst.OPCD = 42 ∨ inst.OPCD = 43
        ∨ (inst.OPCD = 31 ∧ (inst.SUBOP10 = 343 ∨ inst.SUBOP10 = 375)))
      → lXXx_decode inst = some (16, true))
    ∧ (∀ sz sx, lXXx_decode inst = some (sz, sx) → sz = 8 ∨ sz = 16 ∨ sz = 32)
    ∧ (∀ sz sx, lXXx_fallback cfg inst = false → lXXx_decode inst = some (sz, sx) →
        loadsOf ((lXXx cfg inst jit).emittedSince jit) = [(sz, sx)]) := by
  refine ⟨?_, ?_, ?_, ?_, ?_, ?_⟩
  · rintro (h | h | ⟨h, h2 | h2⟩)
    · simp [lXXx_decode, h]
    · simp [lXXx_decode, h]
    · simp [lXXx_decode, h, h2]
    · simp [lXXx_decode, h, h2]
  · rintro (h | h | ⟨h, h2 | h2⟩)
    · simp [lXXx_decode, h]
    · simp [lXXx_decode, h]
    · simp [lXXx_decode, h, h2]
    · simp [lXXx_decode, h, h2]
  · rintro (h | h | ⟨h, h2 | h2⟩)
    · simp [lXXx_decode, h]
    · simp [lXXx_decode, h]
    · simp [lXXx_decode, h, h2]
    · simp [lXXx_decode, h, h2]
  · rintro (h | h | ⟨h, h2 | h2⟩)
    · simp [lXXx_decode, h]
    · simp [lXXx_decode, h]
    · simp [lXXx_decode, h, h2]
    · simp [lXXx_decode, h, h2]
  · intro sz sx h
    unfold lXXx_decode at h
    split at h
    all_goals first
      | (simp only [Option.some.injEq, Prod.mk.injEq] at h; omega)
      | (split at h <;> simp only [Option.some.injEq, Prod.mk.injEq, reduceCtorEq] at h <;> omega)
      | simp at h
  · intro sz sx hT hD
    rw [lXXx_loads cfg inst jit hT, hD]
    rfl

/-- C12 applied to `lhau r3, 4(r4)`: the pair is (16, sign-extend) and it is
the pair of the one load emitted. -/
theorem C12_lXXx_access_size_witness :
    ((encodeD 43 3 4 4).OPCD = 42 ∨ (encodeD 43 3 4 4).OPCD = 43
        ∨ ((encodeD 43 3 4 4).OPCD = 31
          ∧ ((encodeD 43 3 4 4).SUBOP10 = 343 ∨ (encodeD 43 3 4 4).SUBOP10 = 375)))
    ∧ lXXx_decode (encodeD 43 3 4 4) = some (16, true)
    ∧ lXXx_fallback sampleConfig (encodeD 43 3 4 4) = false
    ∧ loadsOf ((lXXx sampleConfig (encodeD 43 3 4 4) sampleJit).emittedSince sampleJit)
        = [(16, true)] :=
  ⟨by decide,
    (C12_lXXx_access_size sampleConfig (encodeD 43 3 4 4) sampleJit).2.2.2.1 (by decide),
    by decide,
    (C12_lXXx_access_size sampleConfig (encodeD 43 3 4 4) sampleJit).2.2.2.2.2 16 true
      (by decide) (by decide)⟩

/-! ## C13 and C15: the scratch-register step -/

/-- What the scratch-register step of `lXXx` returns (lines 200-226). -/
theorem lXXx_addrDynamic_scratch (cfg : Config) (inst : UGeckoInstruction) (update : Bool)
    (jit : Jit) (hS : lXXx_inPlace inst update jit = false) :
    lXXx_addrDynamic cfg inst update jit =
      { jit := { gpr := jit.gpr.FlushLockX [cfg.ABI_PARAM1], js := jit.js,
                 code := jit.code ++ ([Op.FlushLockX [cfg.ABI_PARAM1]]
                   ++ lXXx_scratchOps cfg inst jit.gpr) },
        opAddress := OpArg.R cfg.ABI_PARAM1, loadOffset := 0, storeAddress := true } := by
  have hS2 : ((update || (inst.OPCD != 31 || (jit.gpr.R inst.RB).IsImm))
      && !jit.js.memcheck) = false := hS
  simp only [lXXx_addrDynamic, hS2, Bool.false_eq_true, if_false, lXXx_scratchOps]
  by_cases h1 : (inst.OPCD != 31 || (jit.gpr.R inst.RB).IsImm) = true <;>
  by_cases h3 : ((jit.gpr.FlushLockX [cfg.ABI_PARAM1]).R inst.RA).IsSimpleReg = true <;>
  by_cases h4 : ((jit.gpr.FlushLockX [cfg.ABI_PARAM1]).R inst.RB).IsSimpleReg = true <;>
  by_cases h5 : (if inst.OPCD = 31 then s32 (jit.gpr.R inst.RB).offset
      else inst.SIMM_16) = 0 <;>
    simp [h1, h3, h4, h5, Jit.emit, Jit.FlushLockX]

theorem spillX_regs_reg (rc : RegCache) (x y : X64Reg) (i : Nat)
    (h : (rc.spillX x).regs i = Loc.reg y) : rc.regs i = Loc.reg y := by
  unfold RegCache.spillX at h
  by_cases hx : rc.regs i = Loc.reg x
  · simp [hx] at h
  · simpa [hx] using h

theorem foldl_spillX_regs_reg (xs : List X64Reg) (rc : RegCache) (y : X64Reg) (i : Nat)
    (h : (xs.foldl RegCache.spillX rc).regs i = Loc.reg y) : rc.regs i = Loc.reg y := by
  induction xs generalizing rc with
  | nil => simpa using h
  | cons x xs ih => exact spillX_regs_reg rc x y i (ih (rc.spillX x) h)

theorem FlushLockX_Apart (rc : RegCache) (xs : List X64Reg) (i j : Nat)
    (h : rc.Apart i j) : (rc.FlushLockX xs).Apart i j := by
  intro x hi hj
  exact h x (foldl_spillX_regs_reg xs rc x i hi) (foldl_spillX_regs_reg xs rc x j hj)

/-- After binding `d`, no other guest register shares its host register. -/
theorem BindToRegister_R_ne (g : RegCache) (d a : Nat) (doLoad makeDirty : Bool)
    (hne : a ≠ d) (hwf : g.Apart a d) :
    ¬ OpArg.R ((g.BindToRegister d doLoad makeDirty).RX d)
      = (g.BindToRegister d doLoad makeDirty).R a := by
  unfold RegCache.BindToRegister RegCache.R RegCache.RX
  cases hd : g.regs d with
  | reg y =>
    simp only [hd]
    cases ha : g.regs a with
    | reg z =>
      simp only [OpArg.R.injEq]
      intro hyz
      exact hwf z ha (by rw [hd, hyz])
    | home => simp
    | imm v => simp
  | home =>
    have hno := spillX_regs_ne g g.GetFreeXReg a
    simp only [hne, if_false, if_true]
    cases ha : (g.spillX g.GetFreeXReg).regs a with
    | reg z =>
      simp only [OpArg.R.injEq]
      intro hyz
      exact hno (by rw [ha, hyz])
    | home => simp
    | imm v => simp
  | imm w =>
    have hno := spillX_regs_ne g g.GetFreeXReg a
    simp only [hne, if_false, if_true]
    cases ha : (g.spillX g.GetFreeXReg).regs a with
    | reg z =>
      simp only [OpArg.R.injEq]
      intro hyz
      exact hno (by rw [ha, hyz])
    | home => simp
    | imm v => simp

theorem lXXx_scratchOps_written (cfg : Config) (inst : UGeckoInstruction) (gpr : RegCache) :
    lXXx_scratchOps cfg inst gpr ≠ []
    ∧ ∀ op ∈ lXXx_scratchOps cfg inst gpr, op.written = some (OpArg.R cfg.ABI_PARAM1)
        ∧ (∀ g : RegCache, g.step op = g) ∧ op.isMemoryAccess = false
        ∧ ∀ i v, op ≠ Op.SetImmediate32 i v := by
  unfold lXXx_scratchOps
  simp only
  split_ifs <;> simp [Op.written, RegCache.step, Op.isMemoryAccess]

theorem modifiesGuest_of_written (g : RegCache) (a : Nat) (op : Op) (x : X64Reg)
    (hw : op.written = some (OpArg.R x)) (hx : ¬ OpArg.R x = g.R a) :
    op.modifiesGuest g a = false := by
  cases op <;> simp [Op.written] at hw <;> simp [Op.modifiesGuest, Op.written, hw, hx]

/-- Emitter calls that only write host register `x` are invisible to the
scan for writes of a guest register that does not live in `x`. -/
theorem guestWrites_skip (ops rest : List Op) (g : RegCache) (a : Nat) (x : X64Reg)
    (h : ∀ op ∈ ops, op.written = some (OpArg.R x) ∧ (∀ g : RegCache, g.step op = g)
      ∧ op.isMemoryAccess = false ∧ ∀ i v, op ≠ Op.SetImmediate32 i v)
    (hx : ¬ OpArg.R x = g.R a) :
    guestWrites a g (ops ++ rest) = guestWrites a g rest
    ∧ baseUntouchedUntilAccess a g (ops ++ rest) = baseUntouchedUntilAccess a g rest := by
  induction ops with
  | nil => simp
  | cons op ops ih =>
    have hop := h op (List.mem_cons_self _ _)
    have ih2 := ih (fun o ho => h o (List.mem_cons_of_mem _ ho))
    have hm := modifiesGuest_of_written g a op x hop.1 hx
    simp [guestWrites, baseUntouchedUntilAccess, hm, hop.2.1, hop.2.2.1, ih2]

/-- The code of `lXXx` when its address preparation takes the scratch-register
step. -/
theorem lXXx_code_scratch (cfg : Config) (inst : UGeckoInstruction) (jit : Jit)
    (sz : Nat) (sx : Bool)
    (hT : lXXx_fallback cfg inst = false) (hI : lXXx_idle cfg inst jit.js = false)
    (hDec : lXXx_decode inst = some (sz, sx)) (hA : inst.RA ≠ 0)
    (hL : lXXx_update inst jit.gpr = true → inst.RD ≠ inst.RA)
    (hS : lXXx_inPlace inst (lXXx_update inst jit.gpr) jit = false) :
    (lXXx cfg inst jit).emittedSince jit =
      [Op.FlushLockX [cfg.ABI_PARAM1]] ++ lXXx_scratchOps cfg inst jit.gpr
      ++ [Op.Lock [inst.RA, inst.RB, inst.RD],
          Op.BindToRegister inst.RD jit.js.memcheck true,
          Op.SafeLoadToReg
            ((lXXx_loadCache inst jit.js.memcheck
              (jit.gpr.FlushLockX [cfg.ABI_PARAM1])).RX inst.RD)
            (OpArg.R cfg.ABI_PARAM1) sz 0
            (cfg.CallerSavedRegistersInUse
              (lXXx_loadCache inst jit.js.memcheck (jit.gpr.FlushLockX [cfg.ABI_PARAM1])))
            sx]
      ++ (if lXXx_update inst jit.gpr = true then
            [Op.BindToRegister inst.RA true true,
             Op.MEMCHECK_START,
             Op.MOV 32
               (((lXXx_loadCache inst jit.js.memcheck
                   (jit.gpr.FlushLockX [cfg.ABI_PARAM1])).BindToRegister inst.RA true true).R
                 inst.RA)
               (OpArg.R cfg.ABI_PARAM1),
             Op.MEMCHECK_END]
          else [])
      ++ [Op.UnlockAll, Op.UnlockAllX] := by
  apply emittedSince_append
  have hS2 := hS
  unfold lXXx_inPlace at hS2
  have h3 : (inst.OPCD != 31 && (jit.gpr.R inst.RA).IsImm && !jit.js.memcheck) = false := by
    cases hm : jit.js.memcheck <;> cases hb : (jit.gpr.R inst.RB).IsImm <;>
      cases h31 : (inst.OPCD != 31) <;> cases hu : lXXx_update inst jit.gpr <;> simp_all
  have h4 : (inst.OPCD == 31 && (jit.gpr.R inst.RA).IsImm && (jit.gpr.R inst.RB).IsImm
      && !jit.js.memcheck) = false := by
    cases hm : jit.js.memcheck <;> cases hb : (jit.gpr.R inst.RB).IsImm <;>
      cases h31 : (inst.OPCD != 31) <;> cases hu : lXXx_update inst jit.gpr <;> simp_all
  have hM : lXXx_update inst jit.gpr = true → jit.js.memcheck = true := by
    intro hu
    cases hm : jit.js.memcheck <;> simp_all
  have hprep : lXXx_prepareAddress cfg inst (lXXx_update inst jit.gpr) jit
      = lXXx_addrDynamic cfg inst (lXXx_update inst jit.gpr) jit := by
    by_cases hU : lXXx_update inst jit.gpr = true
    · have hD := hL hU
      simp only [lXXx_prepareAddress, hU, h3, h4]
      simp [hA, hD]
    · simp only [lXXx_prepareAddress, h3, h4]
      simp [hA, hU]
  have hl : lXXx cfg inst jit = lXXx_finish cfg inst sz sx (lXXx_update inst jit.gpr)
      (lXXx_addrDynamic cfg inst (lXXx_update inst jit.gpr) jit) := by
    simp [lXXx, hT, hDec, hI, hprep]
  rw [hl, lXXx_addrDynamic_scratch cfg inst _ jit hS]
  by_cases hU : lXXx_update inst jit.gpr = true
  · have hm := hM hU
    simp [lXXx_finish, hU, hm, Jit.emit, Jit.Lock, Jit.BindToRegister, Jit.MEMCHECK_START,
      Jit.MEMCHECK_END, Jit.UnlockAll, Jit.UnlockAllX, lXXx_loadCache]
  · simp [lXXx_finish, hU, Jit.emit, Jit.Lock, Jit.BindToRegister, Jit.UnlockAll,
      Jit.UnlockAllX, lXXx_loadCache]

/-- C13: in exception-precise mode, for a legal update-form load (base field
non-zero and different from the destination) that `lXXx` translates itself,
with base and destination not sharing a host register on entry: the emitted
code is the reservation of the scratch register, the address arithmetic, all of
it written to the scratch register, the locking, the binding of the destination
with its old value loaded, the load through the scratch register and, when the
update is effective, the binding of the base and, inside the memcheck guard,
the copy of the scratch register into it. No call before the load changes the
base register, and the only call that changes it at all is that copy. -/
theorem C13_lXXx_memcheck_update (cfg : Config) (inst : UGeckoInstruction) (jit : Jit)
    (sz : Nat) (sx : Bool)
    (hT : lXXx_fallback cfg inst = false)
    (hForm : lXXx_isUpdateForm inst = true)
    (hDec : lXXx_decode inst = some (sz, sx))
    (hM : jit.js.memcheck = true)
    (hA : inst.RA ≠ 0) (hD : inst.RD ≠ inst.RA)
    (hWF : jit.gpr.Apart inst.RA inst.RD) :
    (lXXx cfg inst jit).emittedSince jit =
      [Op.FlushLockX [cfg.ABI_PARAM1]] ++ lXXx_scratchOps cfg inst jit.gpr
      ++ [Op.Lock [inst.RA, inst.RB, inst.RD],
          Op.BindToRegister inst.RD true true,
          Op.SafeLoadToReg
            ((lXXx_loadCache inst true (jit.gpr.FlushLockX [cfg.ABI_PARAM1])).RX inst.RD)
            (OpArg.R cfg.ABI_PARAM1) sz 0
            (cfg.CallerSavedRegistersInUse
              (lXXx_loadCache inst true (jit.gpr.FlushLockX [cfg.ABI_PARAM1])))
            sx]
      ++ (if lXXx_update inst jit.gpr = true then
            [Op.BindToRegister inst.RA true true,
             Op.MEMCHECK_START,
             Op.MOV 32
               (((lXXx_loadCache inst true
                   (jit.gpr.FlushLockX [cfg.ABI_PARAM1])).BindToRegister inst.RA true true).R
                 inst.RA)
               (OpArg.R cfg.ABI_PARAM1),
             Op.MEMCHECK_END]
          else [])
      ++ [Op.UnlockAll, Op.UnlockAllX]
    ∧ (∀ op ∈ lXXx_scratchOps cfg inst jit.gpr, op.written = some (OpArg.R cfg.ABI_PARAM1))
    ∧ baseUntouchedUntilAccess inst.RA jit.gpr ((lXXx cfg inst jit).emittedSince jit) = true
    ∧ guestWrites inst.RA jit.gpr ((lXXx cfg inst jit).emittedSince jit) =
        (if lXXx_update inst jit.gpr = true then
          [Op.MOV 32
            (((lXXx_loadCache inst true
                (jit.gpr.FlushLockX [cfg.ABI_PARAM1])).BindToRegister inst.RA true true).R
              inst.RA)
            (OpArg.R cfg.ABI_PARAM1)]
        else []) := by
  have hI := lXXx_isUpdateForm_not_idle cfg inst jit.js hForm
  have hS : lXXx_inPlace inst (lXXx_update inst jit.gpr) jit = false := by
    simp [lXXx_inPlace, hM]
  have hc := lXXx_code_scratch cfg inst jit sz sx hT hI hDec hA (fun _ => hD) hS
  rw [hM] at hc
  have hw := lXXx_scratchOps_written cfg inst jit.gpr
  have hx : ¬ OpArg.R cfg.ABI_PARAM1 = (jit.gpr.FlushLockX [cfg.ABI_PARAM1]).R inst.RA :=
    fun h => FlushLockX_R_ne jit.gpr [cfg.ABI_PARAM1] cfg.ABI_PARAM1 inst.RA (by simp) h.symm
  have hLoad := BindToRegister_R_ne
    ((jit.gpr.FlushLockX [cfg.ABI_PARAM1]).Lock [inst.RA, inst.RB, inst.RD]) inst.RD inst.RA
    true true (Ne.symm hD) (FlushLockX_Apart jit.gpr [cfg.ABI_PARAM1] _ _ hWF)
  refine ⟨hc, fun op hop => (hw.2 op hop).1, ?_, ?_⟩
  · rw [hc]
    simp only [List.append_assoc, List.singleton_append, List.cons_append, List.nil_append]
    simp only [baseUntouchedUntilAccess, Op.isMemoryAccess, Op.modifiesGuest, Op.written,
      RegCache.step]
    simp only [Bool.false_eq_true, if_false]
    rw [(guestWrites_skip _ _ _ _ _ hw.2 hx).2]
    simp [baseUntouchedUntilAccess, Op.isMemoryAccess, Op.modifiesGuest, Op.written,
      RegCache.step]
  · rw [hc]
    simp only [List.append_assoc, List.singleton_append, List.cons_append, List.nil_append]
    simp only [guestWrites, Op.modifiesGuest, Op.written, RegCache.step]
    simp only [beq_iff_eq, reduceCtorEq, if_false, List.nil_append]
    rw [(guestWrites_skip _ _ _ _ _ hw.2 hx).1]
    by_cases hU : lXXx_update inst jit.gpr = true
    · simp [hU, guestWrites, Op.modifiesGuest, Op.written, RegCache.step, lXXx_loadCache, hLoad]
    · simp [hU, guestWrites, Op.modifiesGuest, Op.written, RegCache.step, lXXx_loadCache, hLoad]

/-- C13 applied to `lwzu r3, 8(r4)` in exception-precise mode, all registers in
their home slots: the only write to `r4` is the copy of the scratch register
`RDI` into its host register after the load. -/
theorem C13_lXXx_memcheck_update_witness :
    lXXx_fallback sampleConfig (encodeD 33 3 4 8) = false
    ∧ lXXx_isUpdateForm (encodeD 33 3 4 8) = true
    ∧ lXXx_decode (encodeD 33 3 4 8) = some (32, false)
    ∧ sampleJitMemcheck.js.memcheck = true
    ∧ (encodeD 33 3 4 8).RA ≠ 0
    ∧ (encodeD 33 3 4 8).RD ≠ (encodeD 33 3 4 8).RA
    ∧ (lXXx sampleConfig (encodeD 33 3 4 8) sampleJitMemcheck).code =
        [Op.FlushLockX [X64Reg.RDI],
         Op.MOV 32 (OpArg.R X64Reg.RDI) (OpArg.Mgpr 4),
         Op.ADD 32 (OpArg.R X64Reg.RDI) (OpArg.Imm32 8),
         Op.Lock [4, 0, 3],
         Op.BindToRegister 3 true true,
         Op.SafeLoadToReg X64Reg.RBP (OpArg.R X64Reg.RDI) 32 0 0 false,
         Op.BindToRegister 4 true true,
         Op.MEMCHECK_START,
         Op.MOV 32 (OpArg.R X64Reg.R13) (OpArg.R X64Reg.RDI),
         Op.MEMCHECK_END,
         Op.UnlockAll, Op.UnlockAllX]
    ∧ guestWrites 4 sampleJitMemcheck.gpr
        ((lXXx sampleConfig (encodeD 33 3 4 8) sampleJitMemcheck).emittedSince sampleJitMemcheck)
      = [Op.MOV 32 (OpArg.R X64Reg.R13) (OpArg.R X64Reg.RDI)] :=
  ⟨by decide, by decide, by decide, by decide, by decide, by decide, by decide,
    (C13_lXXx_memcheck_update sampleConfig (encodeD 33 3 4 8) sampleJitMemcheck 32 false
      (by decide) (by decide) (by decide) (by decide) (by decide) (by decide)
      (by intro x h; cases h)).2.2.2⟩

/-! ## C14: update-form stores read the source before touching the base -/

theorem foldl_spillX_value (xs : List X64Reg) (gpr : RegCache) (h : Host) (i : Nat) :
    (xs.foldl RegCache.spillX gpr).value (h.flushX gpr xs) i = gpr.value h i := by
  induction xs generalizing gpr h with
  | nil => rfl
  | cons x xs ih =>
    simp only [List.foldl_cons, Host.flushX]
    rw [ih, value_spillX]

theorem FlushLockX_value_list (gpr : RegCache) (h : Host) (xs : List X64Reg) (i : Nat) :
    (gpr.FlushLockX xs).value (h.flushX gpr xs) i = gpr.value h i :=
  foldl_spillX_value xs gpr h i

theorem stX_addr_of_imm (inst : UGeckoInstruction) (gpr : RegCache) (h : Host)
    (hA : inst.RA ≠ 0) (hImm : (gpr.R inst.RA).IsImm = true) :
    stX_addr inst gpr = u32 ((gpr.value h inst.RA : Int) + inst.SIMM_16) := by
  have hv : gpr.value h inst.RA = (gpr.R inst.RA).offset := read_of_IsImm _ h hImm
  simp [stX_addr, hA, hv]

theorem SetImmediate32_value (gpr : RegCache) (h : Host) (i v : Nat) :
    (gpr.SetImmediate32 i v).value h i = v := by
  simp [RegCache.value, RegCache.R, RegCache.SetImmediate32, OpArg.read]

theorem stX_semantics_fifo (cfg : Config) (inst : UGeckoInstruction) (jit : Jit) (h : Host)
    (sz : Nat)
    (hT : cfg.bJITLoadStoreOff = false) (hS : stX_accessSize inst = some sz)
    (hU : stX_update inst = true)
    (hF : stX_fifoPath cfg inst jit.gpr = true) :
    sourceReadFirst inst.RS inst.RA jit.gpr ((stX cfg inst jit).emittedSince jit) = true
    ∧ storedValue cfg.ABI_PARAM1 jit.gpr h ((stX cfg inst jit).emittedSince jit)
        = some (jit.gpr.value h inst.RS)
    ∧ finalValue inst.RA jit.gpr h ((stX cfg inst jit).emittedSince jit)
        = u32 ((jit.gpr.value h inst.RA : Int) + inst.SIMM_16) := by
  have hA := stX_fifoPath_base cfg inst jit.gpr hF
  have hImm : (jit.gpr.R inst.RA).IsImm = true := by
    simp only [stX_fifoPath, Bool.and_eq_true, Bool.or_eq_true, beq_iff_eq] at hF
    rcases hF.1.1 with h0 | h0
    · exact absurd h0 hA
    · exact h0
  have hne : ¬ OpArg.MPC = jit.gpr.R inst.RA := by
    intro hc
    rw [← hc] at hImm
    simp [OpArg.IsImm] at hImm
  obtain ⟨fn, _, hc⟩ := stX_code_fifo cfg inst jit sz hT hS hF
  rw [emittedSince_append _ _ _ hc]
  have hV := FlushLockX_value_list jit.gpr h [cfg.ABI_PARAM1] inst.RS
  have hV2 : ((jit.gpr.FlushLockX [cfg.ABI_PARAM1]).R inst.RS).read
      (h.flushX jit.gpr [cfg.ABI_PARAM1]) = jit.gpr.value h inst.RS := hV
  have haddr := stX_addr_of_imm inst jit.gpr h hA hImm
  simp only [hU, if_true, List.cons_append, List.nil_append]
  refine ⟨?_, ?_, ?_⟩
  · simp only [sourceReadFirst, Op.sources, Op.modifiesGuest, Op.written, RegCache.step]
    split_ifs <;> simp_all
  · simp [storedValue, RegCache.step, Host.step, Host.write, Host.setX, hV2]
  · simp only [finalValue, RegCache.step]
    exact (SetImmediate32_value _ _ _ _).trans haddr

theorem stX_semantics_const (cfg : Config) (inst : UGeckoInstruction) (jit : Jit) (h : Host)
    (sz : Nat)
    (hT : cfg.bJITLoadStoreOff = false) (hS : stX_accessSize inst = some sz)
    (hU : stX_update inst = true) (hA : inst.RA ≠ 0)
    (hImm : (jit.gpr.R inst.RA).IsImm = true)
    (hF : stX_fifoPath cfg inst jit.gpr = false) :
    sourceReadFirst inst.RS inst.RA jit.gpr ((stX cfg inst jit).emittedSince jit) = true
    ∧ storedValue cfg.ABI_PARAM1 jit.gpr h ((stX cfg inst jit).emittedSince jit)
        = some (jit.gpr.value h inst.RS)
    ∧ finalValue inst.RA jit.gpr h ((stX cfg inst jit).emittedSince jit)
        = u32 ((jit.gpr.value h inst.RA : Int) + inst.SIMM_16) := by
  have hne : ¬ OpArg.MPC = jit.gpr.R inst.RA := by
    intro hc
    rw [← hc] at hImm
    simp [OpArg.IsImm] at hImm
  obtain ⟨fn, _, hc⟩ := stX_code_const cfg inst jit sz hT hS (Or.inl hA) (Or.inr hImm) hF
  rw [emittedSince_append _ _ _ hc]
  have haddr := stX_addr_of_imm inst jit.gpr h hA hImm
  simp only [hU, if_true]
  by_cases hR : cfg.IsRAMAddress (stX_addr inst jit.gpr) = true
  · simp only [hR, if_true, List.cons_append, List.nil_append]
    refine ⟨?_, ?_, ?_⟩
    · simp [sourceReadFirst, Op.sources]
    · simp [storedValue, RegCache.step, Host.step, Host.write, Host.setX, RegCache.value]
    · simp only [finalValue, RegCache.step]
      exact (SetImmediate32_value _ _ _ _).trans haddr
  · simp only [hR, Bool.false_eq_true, if_false, List.cons_append, List.nil_append]
    refine ⟨?_, ?_, ?_⟩
    · simp only [sourceReadFirst, Op.sources, Op.modifiesGuest, Op.written, RegCache.step]
      split_ifs <;> simp_all
    · simp [storedValue, RegCache.step, Host.step, Host.write, RegCache.value]
    · simp only [finalValue, RegCache.step]
      exact (SetImmediate32_value _ _ _ _).trans haddr

theorem spillX_IsImm (rc : RegCache) (x : X64Reg) (i : Nat) :
    ((rc.spillX x).R i).IsImm = (rc.R i).IsImm := by
  unfold RegCache.spillX RegCache.R
  cases hr : rc.regs i with
  | home => simp [hr, OpArg.IsImm]
  | imm v => simp [hr, OpArg.IsImm]
  | reg y => by_cases hy : y = x <;> simp [hr, hy, OpArg.IsImm]

theorem foldl_spillX_IsImm (xs : List X64Reg) (rc : RegCache) (i : Nat) :
    ((xs.foldl RegCache.spillX rc).R i).IsImm = (rc.R i).IsImm := by
  induction xs generalizing rc with
  | nil => rfl
  | cons x xs ih =>
    simp only [List.foldl_cons]
    rw [ih, spillX_IsImm]

theorem FlushLockX_IsImm (rc : RegCache) (xs : List X64Reg) (i : Nat) :
    ((rc.FlushLockX xs).R i).IsImm = (rc.R i).IsImm :=
  foldl_spillX_IsImm xs rc i

theorem regs_not_imm (rc : RegCache) (i : Nat) (h : (rc.R i).IsImm = false) (v : Nat) :
    rc.regs i ≠ Loc.imm v := by
  intro hr
  simp [RegCache.R, hr, OpArg.IsImm] at h

theorem KillImmediate_eq (rc : RegCache) (i : Nat) (l m : Bool)
    (h : (rc.R i).IsImm = false) : rc.KillImmediate i l m = rc := by
  unfold RegCache.KillImmediate
  cases hr : rc.regs i with
  | imm v => exact absurd hr (regs_not_imm rc i h v)
  | home => rfl
  | reg x => rfl

theorem value_write_self (gpr : RegCache) (h : Host) (i v : Nat)
    (hImm : (gpr.R i).IsImm = false) : gpr.value (h.write (gpr.R i) v) i = v := by
  unfold RegCache.value
  cases hr : gpr.regs i with
  | imm w => exact absurd hr (regs_not_imm gpr i hImm w)
  | home => simp [RegCache.R, hr, Host.write, OpArg.read]
  | reg x => simp [RegCache.R, hr, Host.write, Host.setX, OpArg.read]

theorem u32_add_u32 (v : Nat) (s : Int) :
    (v + u32 s) % 4294967296 = u32 ((v : Int) + s) := by
  unfold u32
  omega

theorem u32_of_lt (v : Nat) (hv : v < 4294967296) : u32 ((v : Int) + 0) = v := by
  unfold u32
  omega

/-- The code of the run-time-address part of `stX` for an update form. -/
theorem stX_dynamic_code_update (cfg : Config) (inst : UGeckoInstruction) (sz : Nat)
    (jit : Jit) (hImm : (jit.gpr.R inst.RA).IsImm = false) :
    (stX_dynamic cfg inst true sz jit).code = jit.code ++
      ([Op.FlushLockX [ECX, EDX], Op.Lock [inst.RS, inst.RA],
        Op.MOV 32 (OpArg.R EDX) ((jit.gpr.FlushLockX [ECX, EDX]).R inst.RA),
        Op.MOV 32 (OpArg.R ECX) ((jit.gpr.FlushLockX [ECX, EDX]).R inst.RS),
        Op.SafeWriteRegToReg ECX EDX sz inst.SIMM_16
          (cfg.CallerSavedRegistersInUse ((jit.gpr.FlushLockX [ECX, EDX]).Lock [inst.RS, inst.RA]))]
       ++ (if inst.SIMM_16 ≠ 0 then
            [Op.KillImmediate inst.RA true true]
            ++ (if jit.js.memcheck = true then [Op.MEMCHECK_START] else [])
            ++ [Op.ADD 32 ((jit.gpr.FlushLockX [ECX, EDX]).R inst.RA)
                  (OpArg.Imm32 (u32 inst.SIMM_16))]
            ++ (if jit.js.memcheck = true then [Op.MEMCHECK_END] else [])
          else [])
       ++ [Op.UnlockAll, Op.UnlockAllX]) := by
  have hk : ((jit.gpr.FlushLockX [ECX, EDX]).Lock [inst.RS, inst.RA]).KillImmediate
      inst.RA true true = (jit.gpr.FlushLockX [ECX, EDX]).Lock [inst.RS, inst.RA] :=
    KillImmediate_eq _ _ _ _ (by rw [Lock_R, FlushLockX_IsImm]; exact hImm)
  by_cases h1 : inst.SIMM_16 = 0 <;> by_cases h2 : jit.js.memcheck = true <;>
    simp [stX_dynamic, h1, h2, hk, Jit.emit, Jit.FlushLockX, Jit.Lock, Jit.KillImmediate,
      Jit.MEMCHECK_START, Jit.MEMCHECK_END, Jit.UnlockAll, Jit.UnlockAllX, Lock_R]

theorem Host_step_KillImmediate_eq (gpr : RegCache) (h : Host) (i : Nat) (l m : Bool)
    (hImm : (gpr.R i).IsImm = false) : h.step gpr (Op.KillImmediate i l m) = h := by
  simp only [Host.step]
  cases hr : gpr.regs i with
  | imm v => exact absurd hr (regs_not_imm gpr i hImm v)
  | home => rfl
  | reg x => rfl

theorem setX_xreg_self (h : Host) (x : X64Reg) (v : Nat) : (h.setX x v).xreg x = v := by
  simp [Host.setX]

theorem write_R (h : Host) (x : X64Reg) (v : Nat) : h.write (OpArg.R x) v = h.setX x v := rfl

theorem stX_semantics_dynamic (cfg : Config) (inst : UGeckoInstruction) (jit : Jit) (h : Host)
    (sz : Nat)
    (hT : cfg.bJITLoadStoreOff = false) (hS : stX_accessSize inst = some sz)
    (hU : stX_update inst = true) (hA : inst.RA ≠ 0)
    (hImm : (jit.gpr.R inst.RA).IsImm = false)
    (hB : jit.gpr.value h inst.RA < 4294967296) :
    sourceReadFirst inst.RS inst.RA jit.gpr ((stX cfg inst jit).emittedSince jit) = true
    ∧ storedValue cfg.ABI_PARAM1 jit.gpr h ((stX cfg inst jit).emittedSince jit)
        = some (jit.gpr.value h inst.RS)
    ∧ finalValue inst.RA jit.gpr h ((stX cfg inst jit).emittedSince jit)
        = u32 ((jit.gpr.value h inst.RA : Int) + inst.SIMM_16) := by
  have hl : stX cfg inst jit = stX_dynamic cfg inst true sz jit := by
    simp [stX, hT, hU, hA, hS, hImm]
  rw [hl, emittedSince_append _ _ _ (stX_dynamic_code_update cfg inst sz jit hImm)]
  have hxa : ¬ OpArg.R EDX = (jit.gpr.FlushLockX [ECX, EDX]).R inst.RA :=
    fun hc => FlushLockX_R_ne jit.gpr [ECX, EDX] EDX inst.RA (by simp) hc.symm
  have hca : ¬ OpArg.R ECX = (jit.gpr.FlushLockX [ECX, EDX]).R inst.RA :=
    fun hc => FlushLockX_R_ne jit.gpr [ECX, EDX] ECX inst.RA (by simp) hc.symm
  have hxs : (jit.gpr.FlushLockX [ECX, EDX]).R inst.RS ≠ OpArg.R EDX :=
    FlushLockX_R_ne jit.gpr [ECX, EDX] EDX inst.RS (by simp)
  have hVa := FlushLockX_value_list jit.gpr h [ECX, EDX] inst.RA
  have hVs := FlushLockX_value_list jit.gpr h [ECX, EDX] inst.RS
  have hIm1 : ((jit.gpr.FlushLockX [ECX, EDX]).R inst.RA).IsImm = false := by
    rw [FlushLockX_IsImm]
    exact hImm
  refine ⟨?_, ?_, ?_⟩
  · simp only [List.cons_append, List.nil_append, sourceReadFirst, Op.sources,
      Op.modifiesGuest, Op.written, RegCache.step, Lock_R]
    split_ifs <;> simp_all
  · simp only [List.cons_append, List.nil_append, storedValue, RegCache.step, Host.step,
      write_R, Lock_R, setX_xreg_self]
    have := value_setX_ne (jit.gpr.FlushLockX [ECX, EDX]) (h.flushX jit.gpr [ECX, EDX]) EDX
      (((jit.gpr.FlushLockX [ECX, EDX]).R inst.RA).read (h.flushX jit.gpr [ECX, EDX]))
      inst.RS hxs
    unfold RegCache.value at this
    rw [this]
    exact congrArg some hVs
  · have hstay : ∀ va vs : Nat, (jit.gpr.FlushLockX [ECX, EDX]).value
        (((h.flushX jit.gpr [ECX, EDX]).setX EDX va).setX ECX vs) inst.RA
        = jit.gpr.value h inst.RA := by
      intro va vs
      rw [value_setX_ne _ _ _ _ _ (fun hc => hca hc.symm),
        value_setX_ne _ _ _ _ _ (fun hc => hxa hc.symm), hVa]
    have hk : ∀ hh : Host, hh.step ((jit.gpr.FlushLockX [ECX, EDX]).Lock [inst.RS, inst.RA])
        (Op.KillImmediate inst.RA true true) = hh :=
      fun hh => Host_step_KillImmediate_eq _ hh _ _ _ (by rw [Lock_R]; exact hIm1)
    have hkc : ((jit.gpr.FlushLockX [ECX, EDX]).Lock [inst.RS, inst.RA]).KillImmediate
        inst.RA true true = (jit.gpr.FlushLockX [ECX, EDX]).Lock [inst.RS, inst.RA] :=
      KillImmediate_eq _ _ _ _ (by rw [Lock_R]; exact hIm1)
    have hread : ∀ va vs : Nat, ((jit.gpr.FlushLockX [ECX, EDX]).R inst.RA).read
        (((h.flushX jit.gpr [ECX, EDX]).setX EDX va).setX ECX vs)
        = jit.gpr.value h inst.RA := hstay
    by_cases h0 : inst.SIMM_16 = 0
    · simp only [h0, ne_eq, not_true_eq_false, if_false, List.append_nil, List.cons_append,
        List.nil_append, finalValue, RegCache.step, Host.step, write_R]
      have := hstay (((jit.gpr.FlushLockX [ECX, EDX]).R inst.RA).read
          (h.flushX jit.gpr [ECX, EDX]))
        (((jit.gpr.FlushLockX [ECX, EDX]).R inst.RS).read
          ((h.flushX jit.gpr [ECX, EDX]).setX EDX
            (((jit.gpr.FlushLockX [ECX, EDX]).R inst.RA).read (h.flushX jit.gpr [ECX, EDX]))))
      rw [u32_of_lt _ hB]
      exact this
    · by_cases hM : jit.js.memcheck = true
      · simp only [h0, hM, ne_eq, not_false_eq_true, if_true, List.cons_append,
          List.nil_append, List.append_assoc, finalValue, RegCache.step, hkc]
        rw [hk]
        simp only [Host.step, write_R]
        show (jit.gpr.FlushLockX [ECX, EDX]).value _ inst.RA = _
        rw [value_write_self _ _ _ _ hIm1, read_Imm32, hread]
        exact u32_add_u32 _ _
      · have hM2 : jit.js.memcheck = false := by simpa using hM
        simp only [h0, hM2, ne_eq, not_false_eq_true, if_true, Bool.false_eq_true, if_false,
          List.cons_append, List.nil_append, List.append_nil, List.append_assoc, finalValue,
          RegCache.step, hkc]
        rw [hk]
        simp only [Host.step, write_R]
        show (jit.gpr.FlushLockX [ECX, EDX]).value _ inst.RA = _
        rw [value_write_self _ _ _ _ hIm1, read_Imm32, hread]
        exact u32_add_u32 _ _

/-- C14: for a legal update-form store (base field non-zero) whose opcode `stX`
handles and translates itself, on each of its four paths (FIFO, constant RAM,
generic handler, run-time address): a call that reads the operand of the source
register is emitted before any call that changes the base register; the value
handed to the memory access is the value the source register had on entry, also
when the source register is the base register; and after the emitted code has
run the base register holds (old base + sign-extended immediate) mod 2^32. The
base register is taken to hold a 32-bit value on entry. -/
theorem C14_stX_update_order (cfg : Config) (inst : UGeckoInstruction) (jit : Jit) (h : Host)
    (sz : Nat)
    (hT : cfg.bJITLoadStoreOff = false) (hS : stX_accessSize inst = some sz)
    (hU : stX_update inst = true) (hA : inst.RA ≠ 0)
    (hB : jit.gpr.value h inst.RA < 4294967296) :
    sourceReadFirst inst.RS inst.RA jit.gpr ((stX cfg inst jit).emittedSince jit) = true
    ∧ storedValue cfg.ABI_PARAM1 jit.gpr h ((stX cfg inst jit).emittedSince jit)
        = some (jit.gpr.value h inst.RS)
    ∧ finalValue inst.RA jit.gpr h ((stX cfg inst jit).emittedSince jit)
        = u32 ((jit.gpr.value h inst.RA : Int) + inst.SIMM_16) := by
  by_cases hImm : (jit.gpr.R inst.RA).IsImm = true
  · by_cases hF : stX_fifoPath cfg inst jit.gpr = true
    · exact stX_semantics_fifo cfg inst jit h sz hT hS hU hF
    · exact stX_semantics_const cfg inst jit h sz hT hS hU hA hImm (by simpa using hF)
  · exact stX_semantics_dynamic cfg inst jit h sz hT hS hU hA (by simpa using hImm) hB

/-- C14 applied to `stwu r13, 8(r13)` with `r13` holding `0x80400000` in its
home slot: the value stored is `0x80400000` and `r13` ends as `0x80400008`. -/
theorem C14_stX_update_order_witness :
    sampleConfig.bJITLoadStoreOff = false
    ∧ stX_accessSize (encodeD 37 13 13 8) = some 32
    ∧ stX_update (encodeD 37 13 13 8) = true
    ∧ (encodeD 37 13 13 8).RA ≠ 0
    ∧ sampleJit.gpr.value sampleHost (encodeD 37 13 13 8).RA < 4294967296
    ∧ sourceReadFirst 13 13 sampleJit.gpr
        ((stX sampleConfig (encodeD 37 13 13 8) sampleJit).emittedSince sampleJit) = true
    ∧ storedValue sampleConfig.ABI_PARAM1 sampleJit.gpr sampleHost
        ((stX sampleConfig (encodeD 37 13 13 8) sampleJit).emittedSince sampleJit)
        = some 0x80400000
    ∧ finalValue 13 sampleJit.gpr sampleHost
        ((stX sampleConfig (encodeD 37 13 13 8) sampleJit).emittedSince sampleJit)
        = 0x80400008 :=
  ⟨by decide, by decide, by decide, by decide, by decide,
    C14_stX_update_order sampleConfig (encodeD 37 13 13 8) sampleJit sampleHost 32
      (by decide) (by decide) (by decide) (by decide) (by decide)⟩

/-! ## C15: what the scratch register ends up holding -/

/-- C15 as stated fails for a constant offset, in exception-precise mode.
`lwz r3, 0(r4)` with `r4` in its home slot gets a single move and no add;
`lwz r3, 8(r4)` with `r4` in the host register `RBP` gets a single
load-effective-address although its second operand is the constant 8 and not a
host register. -/
theorem C15_lXXx_scratch_counterexample :
    (lXXx sampleConfig (encodeD 32 3 4 0) sampleJitMemcheck).code =
        [Op.FlushLockX [X64Reg.RDI],
         Op.MOV 32 (OpArg.R X64Reg.RDI) (OpArg.Mgpr 4),
         Op.Lock [4, 0, 3],
         Op.BindToRegister 3 true true,
         Op.SafeLoadToReg X64Reg.RBP (OpArg.R X64Reg.RDI) 32 0 0 false,
         Op.UnlockAll, Op.UnlockAllX]
    ∧ (sampleJitBound 4).gpr.R 4 = OpArg.R X64Reg.RBP
    ∧ (lXXx sampleConfig (encodeD 32 3 4 8) (sampleJitBound 4)).code =
        [Op.FlushLockX [X64Reg.RDI],
         Op.LEA 32 X64Reg.RDI (OpArg.MDisp X64Reg.RBP 8),
         Op.Lock [4, 0, 3],
         Op.BindToRegister 3 true true,
         Op.SafeLoadToReg X64Reg.R13 (OpArg.R X64Reg.RDI) 32 0 0 false,
         Op.UnlockAll, Op.UnlockAllX] := by
  decide

theorem runHost_append (xs ys : List Op) (gpr : RegCache) (h : Host)
    (hstep : ∀ op ∈ xs, ∀ g : RegCache, g.step op = g) :
    runHost gpr h (xs ++ ys) = runHost gpr (runHost gpr h xs) ys := by
  induction xs generalizing h with
  | nil => rfl
  | cons op ops ih =>
    simp only [List.cons_append, runHost, hstep op (List.mem_cons_self _ _)]
    exact ih _ (fun o ho => hstep o (List.mem_cons_of_mem _ ho))

/-- What the scratch register holds after the address arithmetic of the
scratch-register step has run. -/
theorem lXXx_scratch_value (cfg : Config) (inst : UGeckoInstruction) (gpr : RegCache)
    (h : Host) (hB : gpr.value h inst.RA < 4294967296) :
    (runHost gpr h ([Op.FlushLockX [cfg.ABI_PARAM1]] ++ lXXx_scratchOps cfg inst gpr)).xreg
        cfg.ABI_PARAM1
      = if (inst.OPCD != 31 || (gpr.R inst.RB).IsImm) = true then
          u32 ((gpr.value h inst.RA : Int)
            + (if inst.OPCD = 31 then s32 (gpr.R inst.RB).offset else inst.SIMM_16))
        else (gpr.value h inst.RA + gpr.value h inst.RB) % 4294967296 := by
  have hVa := FlushLockX_value gpr h cfg.ABI_PARAM1 inst.RA
  have hVb := FlushLockX_value gpr h cfg.ABI_PARAM1 inst.RB
  have hVa2 : ((gpr.FlushLockX [cfg.ABI_PARAM1]).R inst.RA).read
      (h.flushX gpr [cfg.ABI_PARAM1]) = gpr.value h inst.RA := hVa
  have hVb2 : ((gpr.FlushLockX [cfg.ABI_PARAM1]).R inst.RB).read
      (h.flushX gpr [cfg.ABI_PARAM1]) = gpr.value h inst.RB := hVb
  have hneB : (gpr.FlushLockX [cfg.ABI_PARAM1]).R inst.RB ≠ OpArg.R cfg.ABI_PARAM1 :=
    FlushLockX_R_ne gpr [cfg.ABI_PARAM1] cfg.ABI_PARAM1 inst.RB (by simp)
  have hVb3 : ∀ v, ((gpr.FlushLockX [cfg.ABI_PARAM1]).R inst.RB).read
      ((h.flushX gpr [cfg.ABI_PARAM1]).setX cfg.ABI_PARAM1 v) = gpr.value h inst.RB := by
    intro v
    have := value_setX_ne _ (h.flushX gpr [cfg.ABI_PARAM1]) cfg.ABI_PARAM1 v inst.RB hneB
    unfold RegCache.value at this
    rw [this]
    exact hVb2
  simp only [List.singleton_append, runHost, RegCache.step, Host.step, lXXx_scratchOps]
  by_cases h1 : (inst.OPCD != 31 || (gpr.R inst.RB).IsImm) = true
  · simp only [h1, if_true]
    by_cases h5 : (if inst.OPCD = 31 then s32 (gpr.R inst.RB).offset else inst.SIMM_16) = 0
    · simp only [h5, ne_eq, not_true_eq_false, and_false, if_false, runHost, RegCache.step,
        Host.step, write_R, setX_xreg_self, hVa2]
      exact (u32_of_lt _ hB).symm
    · by_cases h3 : ((gpr.FlushLockX [cfg.ABI_PARAM1]).R inst.RA).IsSimpleReg = true
      · have hxa : (h.flushX gpr [cfg.ABI_PARAM1]).xreg
            ((gpr.FlushLockX [cfg.ABI_PARAM1]).RX inst.RA) = gpr.value h inst.RA := by
          rw [← hVa]
          unfold RegCache.value
          rw [R_of_IsSimpleReg _ _ h3]
          rfl
        simp only [h3, h5, ne_eq, not_false_eq_true, and_self, if_true, runHost,
          RegCache.step, Host.step, setX_xreg_self, hxa]
      · simp only [h3, h5, ne_eq, not_false_eq_true, Bool.false_eq_true, false_and, if_false,
          if_true, runHost, RegCache.step, Host.step, write_R, setX_xreg_self, read_R,
          read_Imm32, hVa2]
        exact u32_add_u32 _ _
  · simp only [h1, Bool.false_eq_true, if_false]
    by_cases h3 : ((gpr.FlushLockX [cfg.ABI_PARAM1]).R inst.RA).IsSimpleReg = true
        ∧ ((gpr.FlushLockX [cfg.ABI_PARAM1]).R inst.RB).IsSimpleReg = true
    · have hxa : (h.flushX gpr [cfg.ABI_PARAM1]).xreg
          ((gpr.FlushLockX [cfg.ABI_PARAM1]).RX inst.RA) = gpr.value h inst.RA := by
        rw [← hVa]
        unfold RegCache.value
        rw [R_of_IsSimpleReg _ _ h3.1]
        rfl
      have hxb : (h.flushX gpr [cfg.ABI_PARAM1]).xreg
          ((gpr.FlushLockX [cfg.ABI_PARAM1]).RX inst.RB) = gpr.value h inst.RB := by
        rw [← hVb]
        unfold RegCache.value
        rw [R_of_IsSimpleReg _ _ h3.2]
        rfl
      simp only [h3, and_self, if_true, runHost, RegCache.step, Host.step, setX_xreg_self,
        hxa, hxb]
      unfold u32
      omega
    · simp only [h3, if_false, runHost, RegCache.step, Host.step, write_R, setX_xreg_self,
        read_R, hVa2, hVb3]

/-- C15 (amended): when a legal load whose opcode `lXXx` recognises reaches the
scratch-register step (exception-precise mode, or an X-form without update
whose index is not a constant), `lXXx` first reserves the scratch register
`ABI_PARAM1`, then emits the address arithmetic, then loads through the scratch
register with displacement 0. The arithmetic is a single
load-effective-address when the base is a plain host register and the constant
offset is non-zero, or when base and index are both plain host registers; a
single move when the constant offset is zero; and a move followed by an add in
every other case. After it has run the scratch register holds
(base + offset) mod 2^32 for a D-form or constant-index instruction and
(base + index) mod 2^32 otherwise. The base register is taken to hold a 32-bit
value. -/
theorem C15_lXXx_scratch (cfg : Config) (inst : UGeckoInstruction) (jit : Jit) (h : Host)
    (sz : Nat) (sx : Bool)
    (hT : lXXx_fallback cfg inst = false) (hI : lXXx_idle cfg inst jit.js = false)
    (hDec : lXXx_decode inst = some (sz, sx)) (hA : inst.RA ≠ 0)
    (hL : lXXx_update inst jit.gpr = true → inst.RD ≠ inst.RA)
    (hS : lXXx_inPlace inst (lXXx_update inst jit.gpr) jit = false)
    (hB : jit.gpr.value h inst.RA < 4294967296) :
    (∃ tail, (lXXx cfg inst jit).emittedSince jit =
      [Op.FlushLockX [cfg.ABI_PARAM1]] ++ lXXx_scratchOps cfg inst jit.gpr
      ++ [Op.Lock [inst.RA, inst.RB, inst.RD],
          Op.BindToRegister inst.RD jit.js.memcheck true,
          Op.SafeLoadToReg
            ((lXXx_loadCache inst jit.js.memcheck
              (jit.gpr.FlushLockX [cfg.ABI_PARAM1])).RX inst.RD)
            (OpArg.R cfg.ABI_PARAM1) sz 0
            (cfg.CallerSavedRegistersInUse
              (lXXx_loadCache inst jit.js.memcheck (jit.gpr.FlushLockX [cfg.ABI_PARAM1])))
            sx]
      ++ tail)
    ∧ (lXXx_scratchOps cfg inst jit.gpr =
        if (inst.OPCD != 31 || (jit.gpr.R inst.RB).IsImm) = true then
          if ((jit.gpr.FlushLockX [cfg.ABI_PARAM1]).R inst.RA).IsSimpleReg = true
              ∧ (if inst.OPCD = 31 then s32 (jit.gpr.R inst.RB).offset else inst.SIMM_16) ≠ 0 then
            [Op.LEA 32 cfg.ABI_PARAM1
              (OpArg.MDisp ((jit.gpr.FlushLockX [cfg.ABI_PARAM1]).RX inst.RA)
                (if inst.OPCD = 31 then s32 (jit.gpr.R inst.RB).offset else inst.SIMM_16))]
          else if (if inst.OPCD = 31 then s32 (jit.gpr.R inst.RB).offset else inst.SIMM_16) ≠ 0 then
            [Op.MOV 32 (OpArg.R cfg.ABI_PARAM1) ((jit.gpr.FlushLockX [cfg.ABI_PARAM1]).R inst.RA),
             Op.ADD 32 (OpArg.R cfg.ABI_PARAM1)
               (OpArg.Imm32 (u32 (if inst.OPCD = 31 then s32 (jit.gpr.R inst.RB).offset
                 else inst.SIMM_16)))]
          else
            [Op.MOV 32 (OpArg.R cfg.ABI_PARAM1) ((jit.gpr.FlushLockX [cfg.ABI_PARAM1]).R inst.RA)]
        else if ((jit.gpr.FlushLockX [cfg.ABI_PARAM1]).R inst.RA).IsSimpleReg = true
            ∧ ((jit.gpr.FlushLockX [cfg.ABI_PARAM1]).R inst.RB).IsSimpleReg = true then
          [Op.LEA 32 cfg.ABI_PARAM1
            (OpArg.MComplex ((jit.gpr.FlushLockX [cfg.ABI_PARAM1]).RX inst.RA)
              ((jit.gpr.FlushLockX [cfg.ABI_PARAM1]).RX inst.RB) 1 0)]
        else
          [Op.MOV 32 (OpArg.R cfg.ABI_PARAM1) ((jit.gpr.FlushLockX [cfg.ABI_PARAM1]).R inst.RA),
           Op.ADD 32 (OpArg.R cfg.ABI_PARAM1) ((jit.gpr.FlushLockX [cfg.ABI_PARAM1]).R inst.RB)])
    ∧ (runHost jit.gpr h
          ([Op.FlushLockX [cfg.ABI_PARAM1]] ++ lXXx_scratchOps cfg inst jit.gpr)).xreg
        cfg.ABI_PARAM1
      = (if (inst.OPCD != 31 || (jit.gpr.R inst.RB).IsImm) = true then
          u32 ((jit.gpr.value h inst.RA : Int)
            + (if inst.OPCD = 31 then s32 (jit.gpr.R inst.RB).offset else inst.SIMM_16))
        else (jit.gpr.value h inst.RA + jit.gpr.value h inst.RB) % 4294967296) := by
  refine ⟨?_, ?_, lXXx_scratch_value cfg inst jit.gpr h hB⟩
  · exact ⟨_, (lXXx_code_scratch cfg inst jit sz sx hT hI hDec hA hL hS).trans
      (List.append_assoc _ _ _)⟩
  · unfold lXXx_scratchOps
    split_ifs <;> simp_all

/-- C15 (amended) applied to `lwzx r3, r13, r5` without exception-precise mode,
`r13` holding `0x80400000` and `r5` holding 0, both in their home slots: a move
and an add leave `0x80400000` in the scratch register `RDI`. -/
theorem C15_lXXx_scratch_witness :
    lXXx_fallback sampleConfig (encodeX 3 13 5 23) = false
    ∧ lXXx_idle sampleConfig (encodeX 3 13 5 23) sampleJit.js = false
    ∧ lXXx_decode (encodeX 3 13 5 23) = some (32, false)
    ∧ (encodeX 3 13 5 23).RA ≠ 0
    ∧ lXXx_inPlace (encodeX 3 13 5 23) (lXXx_update (encodeX 3 13 5 23) sampleJit.gpr) sampleJit
        = false
    ∧ sampleJit.gpr.value sampleHost (encodeX 3 13 5 23).RA < 4294967296
    ∧ lXXx_scratchOps sampleConfig (encodeX 3 13 5 23) sampleJit.gpr =
        [Op.MOV 32 (OpArg.R X64Reg.RDI) (OpArg.Mgpr 13),
         Op.ADD 32 (OpArg.R X64Reg.RDI) (OpArg.Mgpr 5)]
    ∧ (runHost sampleJit.gpr sampleHost
          ([Op.FlushLockX [sampleConfig.ABI_PARAM1]]
            ++ lXXx_scratchOps sampleConfig (encodeX 3 13 5 23) sampleJit.gpr)).xreg
        sampleConfig.ABI_PARAM1 = 0x80400000 :=
  ⟨by decide, by decide, by decide, by decide, by decide, by decide, by decide,
    (C15_lXXx_scratch sampleConfig (encodeX 3 13 5 23) sampleJit sampleHost 32 false
      (by decide) (by decide) (by decide) (by decide) (fun _ => by decide) (by decide)
      (by decide)).2.2⟩

/-! ## C16: when the indexed store falls back -/

/-- With the operand test of line 405 passed, `stXx` emits one store of the
decoded width and no fallback. -/
theorem stXx_stores (cfg : Config) (inst : UGeckoInstruction) (jit : Jit)
    (hT : cfg.bJITLoadStoreOff = false) (hB : stXx_rejects inst = false) :
    storesOf ((stXx cfg inst jit).emittedSince jit) = [(stXx_accessSize inst).getD 0]
    ∧ Op.FallBackToInterpreter inst.hex ∉ (stXx cfg inst jit).emittedSince jit := by
  unfold stXx
  unfold stXx_rejects at hB
  by_cases hU : stXx_update inst = true <;>
  by_cases hM : jit.js.memcheck = true <;>
  by_cases h1 : (((jit.gpr.Lock [inst.RA, inst.RB, inst.RS]).FlushLockX [ECX, EDX]).R
      inst.RA).IsSimpleReg = true <;>
  by_cases h2 : (((jit.gpr.Lock [inst.RA, inst.RB, inst.RS]).FlushLockX [ECX, EDX]).R
      inst.RB).IsSimpleReg = true <;>
  cases hS : stXx_accessSize inst <;>
    simp [hT, hB, hU, hM, h1, h2, hS, Jit.emit, Jit.FlushLockX, Jit.Lock, Jit.BindToRegister,
      Jit.MEMCHECK_START, Jit.MEMCHECK_END, Jit.UnlockAll, Jit.UnlockAllX, Jit.emittedSince,
      storesOf]

/-- With the operand test of line 405 failed, `stXx` emits the fallback alone
and leaves the register cache as it was. -/
theorem stXx_rejected (cfg : Config) (inst : UGeckoInstruction) (jit : Jit)
    (hB : stXx_rejects inst = true) :
    (stXx cfg inst jit).emittedSince jit = [Op.FallBackToInterpreter inst.hex]
    ∧ (stXx cfg inst jit).gpr = jit.gpr := by
  unfold stXx
  unfold stXx_rejects at hB
  by_cases hT : cfg.bJITLoadStoreOff = true <;>
    simp [hT, hB, Jit.emit, Jit.emittedSince]

theorem stXx_rejects_iff (inst : UGeckoInstruction) :
    stXx_rejects inst = true ↔ (inst.RA = 0 ∨ inst.RA = inst.RS ∨ inst.RA = inst.RB) := by
  simp [stXx_rejects, or_assoc]

/-- C16: with the load/store translators enabled, `stXx` hands the instruction
to the interpreter fallback if and only if its base field is 0, or equals its
source field, or equals its index field. When it falls back it emits the
fallback for that instruction and nothing else, and the register cache (locks
and reservations included) is as before. When it does not fall back it emits
exactly one store, of width 32 for extended opcodes 151/183, 16 for 407/439 and
8 for 215/247. -/
theorem C16_stXx_fallback (cfg : Config) (inst : UGeckoInstruction) (jit : Jit)
    (hT : cfg.bJITLoadStoreOff = false) :
    (Op.FallBackToInterpreter inst.hex ∈ (stXx cfg inst jit).emittedSince jit
      ↔ (inst.RA = 0 ∨ inst.RA = inst.RS ∨ inst.RA = inst.RB))
    ∧ ((inst.RA = 0 ∨ inst.RA = inst.RS ∨ inst.RA = inst.RB) →
        (stXx cfg inst jit).emittedSince jit = [Op.FallBackToInterpreter inst.hex]
        ∧ (stXx cfg inst jit).gpr = jit.gpr)
    ∧ (¬ (inst.RA = 0 ∨ inst.RA = inst.RS ∨ inst.RA = inst.RB) →
        ∃ w, storesOf ((stXx cfg inst jit).emittedSince jit) = [w]
          ∧ (inst.SUBOP10 = 151 ∨ inst.SUBOP10 = 183 → w = 32)
          ∧ (inst.SUBOP10 = 407 ∨ inst.SUBOP10 = 439 → w = 16)
          ∧ (inst.SUBOP10 = 215 ∨ inst.SUBOP10 = 247 → w = 8)) := by
  refine ⟨?_, ?_, ?_⟩
  · constructor
    · intro hmem
      by_contra hne
      have hB : stXx_rejects inst = false := by
        rw [← Bool.not_eq_true, stXx_rejects_iff]; exact hne
      exact (stXx_stores cfg inst jit hT hB).2 hmem
    · intro hc
      rw [(stXx_rejected cfg inst jit ((stXx_rejects_iff inst).2 hc)).1]
      exact List.mem_singleton.2 rfl
  · intro hc
    exact stXx_rejected cfg inst jit ((stXx_rejects_iff inst).2 hc)
  · intro hne
    have hB : stXx_rejects inst = false := by
      rw [← Bool.not_eq_true, stXx_rejects_iff]; exact hne
    refine ⟨_, (stXx_stores cfg inst jit hT hB).1, ?_, ?_, ?_⟩ <;>
      (intro h; rcases h with h | h <;> simp [stXx_accessSize, h])

/-- C16 applied to `stwx r3, r4, r5`, `sthx r3, r3, r5` and `stbx r3, r0, r5`:
the first is translated with one 32-bit store, the other two fall back. -/
theorem C16_stXx_fallback_witness :
    sampleConfig.bJITLoadStoreOff = false
    ∧ storesOf ((stXx sampleConfig (encodeX 3 4 5 151) sampleJit).emittedSince sampleJit) = [32]
    ∧ (Op.FallBackToInterpreter (encodeX 3 3 5 407).hex
        ∈ (stXx sampleConfig (encodeX 3 3 5 407) sampleJit).emittedSince sampleJit
        ↔ ((encodeX 3 3 5 407).RA = 0 ∨ (encodeX 3 3 5 407).RA = (encodeX 3 3 5 407).RS
            ∨ (encodeX 3 3 5 407).RA = (encodeX 3 3 5 407).RB))
    ∧ (stXx sampleConfig (encodeX 3 0 5 215) sampleJit).emittedSince sampleJit
        = [Op.FallBackToInterpreter (encodeX 3 0 5 215).hex] :=
  ⟨by decide, by decide,
    (C16_stXx_fallback sampleConfig (encodeX 3 3 5 407) sampleJit (by decide)).1,
    by decide⟩

/-! ## C17: the word before `dcbst` -/

/-- C17 at the failing input: `dcbst r4, r5` at `0x80003100` preceded by
`lhzx r3, r4, r5` (word `0x7C642A2E`, primary opcode 31, extended opcode 279).
The word is not a `dcbt`, yet it has every bit of `0x7c00022c` set, so `dcbst`
emits nothing instead of falling back. A preceding `dcbt r4, r5` is skipped as
intended and a preceding `lwzx r3, r4, r5` falls back as intended. -/
theorem C17_dcbst_failing_input :
    (encodeX 3 4 5 279).hex = 0x7C642A2E
    ∧ isDcbt (encodeX 3 4 5 279).hex = false
    ∧ (dcbst (sampleDcbstConfig (encodeX 3 4 5 279).hex) (encodeX 0 4 5 54) sampleJit).code = []
    ∧ isDcbt (encodeX 0 4 5 278).hex = true
    ∧ (dcbst (sampleDcbstConfig (encodeX 0 4 5 278).hex) (encodeX 0 4 5 54) sampleJit).code = []
    ∧ isDcbt (encodeX 3 4 5 23).hex = false
    ∧ (dcbst (sampleDcbstConfig (encodeX 3 4 5 23).hex) (encodeX 0 4 5 54) sampleJit).code
        = [Op.FallBackToInterpreter (encodeX 0 4 5 54).hex] := by
  decide

/-- The intended direction of the test of line 255: every `dcbt` word has all
the bits of `0x7c00022c` set, so `dcbst` after a `dcbt` emits nothing. -/
theorem dcbst_after_dcbt (cfg : Config) (inst : UGeckoInstruction) (jit : Jit)
    (hT : cfg.bJITLoadStoreOff = false)
    (hW : isDcbt (cfg.ReadUnchecked_U32 (u32 ((jit.js.compilerPC : Int) - 4))) = true) :
    dcbst cfg inst jit = jit := by
  have hmask : ∀ w : Nat, w / 67108864 % 64 = 31 → w / 2 % 1024 = 278 →
      w &&& 0x7c00022c = 0x7c00022c := by
    intro w h1 h2
    apply Nat.eq_of_testBit_eq
    intro i
    rw [Nat.testBit_and]
    by_cases hi : i < 31
    · cases hb : Nat.testBit 0x7c00022c i
      · rw [Bool.and_false]
      · rw [Bool.and_true, Nat.testBit_to_div_mod, decide_eq_true_eq]
        interval_cases i <;> first | exact absurd hb (by decide) | (norm_num; omega)
    · have : Nat.testBit 0x7c00022c i = false :=
        Nat.testBit_lt_two_pow (lt_of_lt_of_le (by norm_num)
          (Nat.pow_le_pow_right (by norm_num) (not_lt.1 hi)))
      rw [this, Bool.and_false]
  simp only [isDcbt, UGeckoInstruction.OPCD, UGeckoInstruction.SUBOP10, Bool.and_eq_true,
    beq_iff_eq] at hW
  simp [dcbst, hT, hmask _ hW.1 hW.2]

/-! ## C18: the accesses of `lmw` and `stmw` -/

theorem R_ne_of_Vacant (gpr : RegCache) (x : X64Reg) (j : Nat) (hv : gpr.Vacant x) :
    gpr.R j ≠ OpArg.R x := by
  unfold RegCache.R
  cases hr : gpr.regs j with
  | home => simp
  | imm v => simp
  | reg y =>
    intro he
    simp only [OpArg.R.injEq] at he
    exact hv j (by rw [hr, he])

theorem FlushLockX_Vacant_self (gpr : RegCache) (x : X64Reg) :
    (gpr.FlushLockX [x]).Vacant x :=
  fun j => foldl_spillX_regs_ne [x] gpr x j (List.mem_singleton.2 rfl)

theorem FlushLockX_Vacant (gpr : RegCache) (xs : List X64Reg) (y : X64Reg)
    (hv : gpr.Vacant y) : (gpr.FlushLockX xs).Vacant y :=
  fun j => foldl_spillX_regs_ne_of_ne xs gpr y j (hv j)

theorem accessesOf_append (mem : Nat → Nat) (xs ys : List Op) (gpr : RegCache) (h : Host) :
    accessesOf mem gpr h (xs ++ ys)
      = accessesOf mem gpr h xs ++ accessesOf mem (runCache gpr xs) (runMem mem gpr h xs) ys := by
  induction xs generalizing gpr h with
  | nil => rfl
  | cons op ops ih => simp [accessesOf, runCache, runMem, ih]

theorem u32_s32_offset (b : Nat) (x s : Int) :
    u32 ((b : Int) + s32 (u32 (x + ((u32 s : Nat) : Int)))) = u32 ((b : Int) + s + x) := by
  unfold u32 s32
  split <;> omega

/-- The loop of `stmw` over the registers `l`, run from a cache in which the two
scratch registers hold no guest register: the cache is unchanged and the passes
store the registers of `l` in order. -/
theorem stmw_loop (cfg : Config) (inst : UGeckoInstruction) (mem : Nat → Nat) (l : List Nat) :
    ∀ (jit : Jit) (h : Host), jit.gpr.Vacant EAX → jit.gpr.Vacant ECX →
    ∃ ops, (l.foldl (stmw_pass cfg inst) jit).code = jit.code ++ ops
      ∧ (l.foldl (stmw_pass cfg inst) jit).gpr = jit.gpr
      ∧ accessesOf mem jit.gpr h ops
          = l.map (fun i => Access.mk true (mw_address inst jit.gpr h i) 32 (jit.gpr.value h i)) := by
  induction l with
  | nil => intro jit h _ _; exact ⟨[], by simp, rfl, rfl⟩
  | cons i l ih =>
    intro jit h hA hC
    have hg : (stmw_pass cfg inst jit i).gpr = jit.gpr := by
      unfold stmw_pass
      by_cases hRA : inst.RA = 0 <;> simp [hRA, Jit.emit]
    have hA1 : (stmw_pass cfg inst jit i).gpr.Vacant EAX := by rw [hg]; exact hA
    have hC1 : (stmw_pass cfg inst jit i).gpr.Vacant ECX := by rw [hg]; exact hC
    have hvA : ∀ (j v : Nat) (h0 : Host), jit.gpr.value (h0.setX EAX v) j = jit.gpr.value h0 j :=
      fun j v h0 => value_setX_ne jit.gpr h0 EAX v j (R_ne_of_Vacant jit.gpr EAX j hA)
    have hvC : ∀ (j v : Nat) (h0 : Host), jit.gpr.value (h0.setX ECX v) j = jit.gpr.value h0 j :=
      fun j v h0 => value_setX_ne jit.gpr h0 ECX v j (R_ne_of_Vacant jit.gpr ECX j hC)
    by_cases hRA : inst.RA = 0
    · obtain ⟨ops, hc, hg2, hacc⟩ := ih (stmw_pass cfg inst jit i)
        ((h.setX EAX 0).setX ECX (jit.gpr.value h i)) hA1 hC1
      refine ⟨[Op.XOR 32 (OpArg.R EAX) (OpArg.R EAX), Op.MOV 32 (OpArg.R ECX) (jit.gpr.R i),
        Op.SafeWriteRegToReg ECX EAX 32
          (s32 (u32 ((((i : Int) - inst.RD) * 4) + (u32 inst.SIMM_16 : Nat))))
          (cfg.CallerSavedRegistersInUse jit.gpr)] ++ ops, ?_, ?_, ?_⟩
      · rw [List.foldl_cons, hc]
        simp [stmw_pass, hRA, Jit.emit]
      · rw [List.foldl_cons, hg2, hg]
      · rw [hg] at hacc
        have hacc2 : accessesOf mem jit.gpr ((h.setX EAX 0).setX ECX (jit.gpr.value h i)) ops
            = l.map (fun i => Access.mk true (mw_address inst jit.gpr h i) 32
                (jit.gpr.value h i)) := by
          rw [hacc]
          exact List.map_congr_left (fun j _ => by simp only [mw_address, mw_base, hvA, hvC])
        have hx : (jit.gpr.R i).read (h.setX EAX 0) = jit.gpr.value h i := hvA i 0 h
        have e1 : ((h.setX EAX 0).setX ECX (jit.gpr.value h i)).xreg EAX = 0 := by
          simp [Host.setX]
        have e2 : ((h.setX EAX 0).setX ECX (jit.gpr.value h i)).xreg ECX = jit.gpr.value h i := by
          simp [Host.setX]
        have ea : u32 (((0 : Nat) : Int)
              + s32 (u32 ((((i : Int) - inst.RD) * 4) + (u32 inst.SIMM_16 : Nat))))
            = mw_address inst jit.gpr h i := by
          rw [u32_s32_offset]
          simp only [mw_address, mw_base, hRA, if_true]
          congr 1
          ring
        simp only [List.cons_append, List.nil_append, accessesOf, Op.access, RegCache.step,
          Host.stepMem, Host.step, read_R, write_R, Nat.xor_self, Option.toList, List.map_cons,
          hx, e1, e2, ea]
        exact congrArg _ hacc2
    · obtain ⟨ops, hc, hg2, hacc⟩ := ih (stmw_pass cfg inst jit i)
        ((h.setX EAX (jit.gpr.value h inst.RA)).setX ECX (jit.gpr.value h i)) hA1 hC1
      refine ⟨[Op.MOV 32 (OpArg.R EAX) (jit.gpr.R inst.RA), Op.MOV 32 (OpArg.R ECX) (jit.gpr.R i),
        Op.SafeWriteRegToReg ECX EAX 32
          (s32 (u32 ((((i : Int) - inst.RD) * 4) + (u32 inst.SIMM_16 : Nat))))
          (cfg.CallerSavedRegistersInUse jit.gpr)] ++ ops, ?_, ?_, ?_⟩
      · rw [List.foldl_cons, hc]
        simp [stmw_pass, hRA, Jit.emit]
      · rw [List.foldl_cons, hg2, hg]
      · rw [hg] at hacc
        have hacc2 : accessesOf mem jit.gpr
              ((h.setX EAX (jit.gpr.value h inst.RA)).setX ECX (jit.gpr.value h i)) ops
            = l.map (fun i => Access.mk true (mw_address inst jit.gpr h i) 32
                (jit.gpr.value h i)) := by
          rw [hacc]
          exact List.map_congr_left (fun j _ => by simp only [mw_address, mw_base, hvA, hvC])
        have hy : (jit.gpr.R inst.RA).read h = jit.gpr.value h inst.RA := rfl
        have hx : (jit.gpr.R i).read (h.setX EAX (jit.gpr.value h inst.RA))
            = jit.gpr.value h i := hvA i _ h
        have e1 : ((h.setX EAX (jit.gpr.value h inst.RA)).setX ECX (jit.gpr.value h i)).xreg EAX
            = jit.gpr.value h inst.RA := by
          simp [Host.setX]
        have e2 : ((h.setX EAX (jit.gpr.value h inst.RA)).setX ECX (jit.gpr.value h i)).xreg ECX
            = jit.gpr.value h i := by
          simp [Host.setX]
        have ea : u32 (((jit.gpr.value h inst.RA : Nat) : Int)
              + s32 (u32 ((((i : Int) - inst.RD) * 4) + (u32 inst.SIMM_16 : Nat))))
            = mw_address inst jit.gpr h i := by
          rw [u32_s32_offset]
          simp only [mw_address, mw_base, hRA, if_false]
          congr 1
          ring
        simp only [List.cons_append, List.nil_append, accessesOf, Op.access, RegCache.step,
          Host.stepMem, Host.step, read_R, write_R, Option.toList, List.map_cons,
          hy, hx, e1, e2, ea]
        exact congrArg _ hacc2

/-- The allocator hands out a register of its allocation order, if any. -/
theorem GetFreeXReg_mem_order (rc : RegCache) :
    rc.GetFreeXReg ∈ rc.order ∨ rc.GetFreeXReg = X64Reg.INVALID_REG := by
  unfold RegCache.GetFreeXReg
  split
  · rename_i x hx
    exact Or.inl (List.mem_of_find?_eq_some hx)
  · split
    · rename_i x hx
      exact Or.inl (List.mem_of_find?_eq_some hx)
    · exact Or.inr rfl

theorem BindToRegister_xlocked (rc : RegCache) (i : Nat) (l m : Bool) :
    (rc.BindToRegister i l m).xlocked = rc.xlocked := by
  unfold RegCache.BindToRegister
  cases h : rc.regs i <;> simp [RegCache.spillX]

theorem BindToRegister_order (rc : RegCache) (i : Nat) (l m : Bool) :
    (rc.BindToRegister i l m).order = rc.order := by
  unfold RegCache.BindToRegister
  cases h : rc.regs i <;> simp [RegCache.spillX]

theorem BindToRegister_locked (rc : RegCache) (i : Nat) (l m : Bool) :
    (rc.BindToRegister i l m).locked = rc.locked := by
  unfold RegCache.BindToRegister
  cases h : rc.regs i <;> simp [RegCache.spillX]

theorem BindToRegister_Vacant (rc : RegCache) (i : Nat) (l m : Bool) (x : X64Reg)
    (hv : rc.Vacant x) (hx : x ≠ rc.GetFreeXReg) : (rc.BindToRegister i l m).Vacant x := by
  intro j
  unfold RegCache.BindToRegister
  cases h : rc.regs i with
  | reg y => exact hv j
  | home =>
    simp only
    by_cases hj : j = i
    · simp [hj, Ne.symm hx]
    · simp only [hj, if_false]
      exact spillX_regs_ne_of_ne rc _ x j (hv j)
  | imm v =>
    simp only
    by_cases hj : j = i
    · simp [hj, Ne.symm hx]
    · simp only [hj, if_false]
      exact spillX_regs_ne_of_ne rc _ x j (hv j)

theorem spillX_Exclusive (rc : RegCache) (x : X64Reg) (he : rc.Exclusive) :
    (rc.spillX x).Exclusive :=
  fun i j y hi hj => he i j y (spillX_regs_reg rc x y i hi) (spillX_regs_reg rc x y j hj)

theorem FlushLockX_Exclusive (rc : RegCache) (xs : List X64Reg) (he : rc.Exclusive) :
    (rc.FlushLockX xs).Exclusive :=
  fun i j y hi hj =>
    he i j y (foldl_spillX_regs_reg xs rc y i hi) (foldl_spillX_regs_reg xs rc y j hj)

theorem BindToRegister_Exclusive (rc : RegCache) (i : Nat) (l m : Bool) (he : rc.Exclusive) :
    (rc.BindToRegister i l m).Exclusive := by
  have key : ∀ a b y,
      (if a = i then Loc.reg rc.GetFreeXReg else (rc.spillX rc.GetFreeXReg).regs a) = Loc.reg y →
      (if b = i then Loc.reg rc.GetFreeXReg else (rc.spillX rc.GetFreeXReg).regs b) = Loc.reg y →
      a = b := by
    intro a b y ha hb
    by_cases hai : a = i <;> by_cases hbi : b = i
    · rw [hai, hbi]
    · simp only [hai, if_true, hbi, if_false, Loc.reg.injEq] at ha hb
      rw [← ha] at hb
      exact absurd hb (spillX_regs_ne rc _ b)
    · simp only [hai, if_false, hbi, if_true, Loc.reg.injEq] at ha hb
      rw [← hb] at ha
      exact absurd ha (spillX_regs_ne rc _ a)
    · simp only [hai, hbi, if_false] at ha hb
      exact spillX_Exclusive rc _ he a b y ha hb
  unfold RegCache.BindToRegister
  cases h : rc.regs i with
  | reg y => exact he
  | home => exact fun a b y ha hb => key a b y ha hb
  | imm v => exact fun a b y ha hb => key a b y ha hb

theorem lmw_pass_code (cfg : Config) (inst : UGeckoInstruction) (jit : Jit) (i : Nat) :
    (lmw_pass cfg inst jit i).code = jit.code ++ lmw_passOps cfg inst jit.gpr i
    ∧ (lmw_pass cfg inst jit i).gpr = jit.gpr.BindToRegister i false true := by
  simp [lmw_pass, lmw_passOps, Jit.emit, Jit.BindToRegister]

theorem GetFreeXReg_ne_ECX (gpr : RegCache) (hXL : ECX ∈ gpr.xlocked) :
    ECX ≠ gpr.GetFreeXReg := by
  intro he
  rcases GetFreeXReg_not_xlocked gpr with hn | hn
  · exact hn (he ▸ hXL)
  · rw [hn] at he
    exact absurd he (by decide)

theorem GetFreeXReg_ne_EAX (gpr : RegCache) (hO : EAX ∉ gpr.order) :
    EAX ≠ gpr.GetFreeXReg := by
  intro he
  rcases GetFreeXReg_mem_order gpr with hn | hn
  · exact hO (he ▸ hn)
  · rw [hn] at he
    exact absurd he (by decide)

/-- One pass of the loop of `lmw`: it loads the word at `A + 4 * (i - RD)` and
leaves it in guest register `i`; every other guest register keeps its value and
the loop invariant holds again. -/
theorem lmw_pass_sem (cfg : Config) (inst : UGeckoInstruction) (mem : Nat → Nat)
    (gpr : RegCache) (h : Host) (i A : Nat) (hInv : lmw_Inv gpr h A) :
    accessesOf mem gpr h (lmw_passOps cfg inst gpr i)
        = [Access.mk false (u32 ((A : Int) + ((i : Int) - inst.RD) * 4)) 32
            (mem (u32 ((A : Int) + ((i : Int) - inst.RD) * 4)))]
    ∧ runCache gpr (lmw_passOps cfg inst gpr i) = gpr.BindToRegister i false true
    ∧ lmw_Inv (gpr.BindToRegister i false true)
        (runMem mem gpr h (lmw_passOps cfg inst gpr i)) A
    ∧ (gpr.BindToRegister i false true).value
          (runMem mem gpr h (lmw_passOps cfg inst gpr i)) i
        = mem (u32 ((A : Int) + ((i : Int) - inst.RD) * 4))
    ∧ (∀ j, j ≠ i →
        (gpr.BindToRegister i false true).value
          (runMem mem gpr h (lmw_passOps cfg inst gpr i)) j = gpr.value h j) := by
  obtain ⟨hA, hC, hXL, hO, hE, hX⟩ := hInv
  have hA2 := BindToRegister_Vacant gpr i false true EAX hA (GetFreeXReg_ne_EAX gpr hO)
  have hC2 := BindToRegister_Vacant gpr i false true ECX hC (GetFreeXReg_ne_ECX gpr hXL)
  have hE2 := BindToRegister_Exclusive gpr i false true hE
  have hR := BindToRegister_R gpr i false true
  have hregs := BindToRegister_regs gpr i false true
  have hxA : (gpr.BindToRegister i false true).RX i ≠ EAX := by
    intro he; exact hA2 i (by rw [hregs, he])
  have hxC : (gpr.BindToRegister i false true).RX i ≠ ECX := by
    intro he; exact hC2 i (by rw [hregs, he])
  have hrun : runMem mem gpr h (lmw_passOps cfg inst gpr i)
      = (((h.setX EAX (mem (u32 ((A : Int) + ((i : Int) - inst.RD) * 4)))).bind gpr i false).setX
          ((gpr.BindToRegister i false true).RX i)
          (mem (u32 ((A : Int) + ((i : Int) - inst.RD) * 4)))) := by
    simp only [lmw_passOps, runMem, RegCache.step, Host.stepMem, Host.step, read_R, hX, hR,
      write_R, bind_xreg_noload, setX_xreg_self]
  refine ⟨?_, rfl, ⟨hA2, hC2, ?_, ?_, hE2, ?_⟩, ?_, ?_⟩
  · simp [lmw_passOps, accessesOf, Op.access, read_R, hX]
  · rw [BindToRegister_xlocked]; exact hXL
  · rw [BindToRegister_order]; exact hO
  · rw [hrun]
    simp only [Host.setX, bind_xreg_noload, Ne.symm hxC, if_false]
    simpa [Ne.symm (show EAX ≠ ECX by decide)] using hX
  · rw [hrun]
    unfold RegCache.value
    rw [hR, read_R, setX_xreg_self]
  · intro j hj
    rw [hrun]
    have hne : (gpr.BindToRegister i false true).R j
        ≠ OpArg.R ((gpr.BindToRegister i false true).RX i) := by
      unfold RegCache.R
      cases hr : (gpr.BindToRegister i false true).regs j with
      | home => simp
      | imm v => simp
      | reg y =>
        intro he
        simp only [OpArg.R.injEq] at he
        exact hj (hE2 j i _ (by rw [hr, he]) hregs)
    rw [value_setX_ne _ _ _ _ _ hne, value_bind_other gpr _ i j false true hj]
    exact value_setX_ne gpr h EAX _ j (R_ne_of_Vacant gpr EAX j hA)

theorem runCache_append (xs ys : List Op) (gpr : RegCache) :
    runCache gpr (xs ++ ys) = runCache (runCache gpr xs) ys := by
  induction xs generalizing gpr with
  | nil => rfl
  | cons op ops ih => simp [runCache, ih]

theorem runMem_append (mem : Nat → Nat) (xs ys : List Op) (gpr : RegCache) (h : Host) :
    runMem mem gpr h (xs ++ ys) = runMem mem (runCache gpr xs) (runMem mem gpr h xs) ys := by
  induction xs generalizing gpr h with
  | nil => rfl
  | cons op ops ih => simp [runCache, runMem, ih]

/-- The loop of `lmw` over the distinct registers `l`: the passes load the words
at `A + 4 * (i - RD)` in the order of `l`, each register of `l` ends up holding
its word and every other register keeps its value. -/
theorem lmw_loop (cfg : Config) (inst : UGeckoInstruction) (mem : Nat → Nat) (A : Nat)
    (l : List Nat) (hnd : l.Nodup) :
    ∀ (jit : Jit) (h : Host), lmw_Inv jit.gpr h A →
    ∃ ops, (l.foldl (lmw_pass cfg inst) jit).code = jit.code ++ ops
      ∧ (l.foldl (lmw_pass cfg inst) jit).gpr = runCache jit.gpr ops
      ∧ accessesOf mem jit.gpr h ops
          = l.map (fun (i : Nat) =>
              Access.mk false (u32 ((A : Int) + ((i : Int) - inst.RD) * 4)) 32
                (mem (u32 ((A : Int) + ((i : Int) - inst.RD) * 4))))
      ∧ (∀ i ∈ l, (runCache jit.gpr ops).value (runMem mem jit.gpr h ops) i
          = mem (u32 ((A : Int) + ((i : Int) - inst.RD) * 4)))
      ∧ (∀ j, j ∉ l → (runCache jit.gpr ops).value (runMem mem jit.gpr h ops) j
          = jit.gpr.value h j) := by
  induction l with
  | nil => intro jit h _; exact ⟨[], by simp, rfl, rfl, by simp, fun _ _ => rfl⟩
  | cons i l ih =>
    intro jit h hInv
    obtain ⟨hcode, hgpr⟩ := lmw_pass_code cfg inst jit i
    obtain ⟨hacc, hrc, hInv2, hvi, hvo⟩ := lmw_pass_sem cfg inst mem jit.gpr h i A hInv
    have hnd2 : l.Nodup := (List.nodup_cons.1 hnd).2
    have hil : i ∉ l := (List.nodup_cons.1 hnd).1
    rw [← hgpr] at hInv2
    obtain ⟨ops, hc, hg, ha, hin, hout⟩ := ih hnd2 (lmw_pass cfg inst jit i) _ hInv2
    rw [hgpr] at hg ha hin hout
    refine ⟨lmw_passOps cfg inst jit.gpr i ++ ops, ?_, ?_, ?_, ?_, ?_⟩
    · rw [List.foldl_cons, hc, hcode, List.append_assoc]
    · rw [List.foldl_cons, hg, runCache_append, hrc]
    · rw [accessesOf_append, hacc, hrc, ha]
      rfl
    · intro j hj
      rw [runCache_append, runMem_append, hrc]
      rcases List.mem_cons.1 hj with hji | hjl
      · subst hji
        rw [hout j hil]
        exact hvi
      · exact hin j hjl
    · intro j hj
      rw [runCache_append, runMem_append, hrc]
      have hj1 : j ≠ i := fun he => hj (he ▸ List.mem_cons_self _ _)
      have hj2 : j ∉ l := fun he => hj (List.mem_cons_of_mem _ he)
      rw [hout j hj2]
      exact hvo j hj1

theorem foldl_spillX_order (xs : List X64Reg) (rc : RegCache) :
    (xs.foldl RegCache.spillX rc).order = rc.order := by
  induction xs generalizing rc with
  | nil => rfl
  | cons x xs ih => rw [List.foldl_cons, ih]; rfl

theorem u32_lmw_address (b : Nat) (s x : Int) :
    u32 ((((u32 s + b) % 4294967296 : Nat) : Int) + x) = u32 ((b : Int) + s + x) := by
  unfold u32
  omega

/-- The code `lmw` emits before its loop (lines 460-463), the cache it leaves
and the invariant it sets up: `ECX` holds `(base + sign_extend16(imm)) mod 2^32`. -/
theorem lmw_prologue (inst : UGeckoInstruction) (mem : Nat → Nat) (gpr : RegCache) (h : Host)
    (hA : gpr.Vacant EAX) (hO : EAX ∉ gpr.order) (hE : gpr.Exclusive) :
    ∃ pro, pro = [Op.FlushLockX [ECX], Op.MOV 32 (OpArg.R ECX) (OpArg.Imm32 (u32 inst.SIMM_16))]
        ++ (if inst.RA != 0 then [Op.ADD 32 (OpArg.R ECX) ((gpr.FlushLockX [ECX]).R inst.RA)]
            else [])
      ∧ runCache gpr pro = gpr.FlushLockX [ECX]
      ∧ accessesOf mem gpr h pro = []
      ∧ lmw_Inv (gpr.FlushLockX [ECX]) (runMem mem gpr h pro)
          ((u32 inst.SIMM_16 + mw_base inst gpr h) % 4294967296)
      ∧ (∀ j, (gpr.FlushLockX [ECX]).value (runMem mem gpr h pro) j = gpr.value h j) := by
  have hC1 := FlushLockX_Vacant_self gpr ECX
  have hA1 := FlushLockX_Vacant gpr [ECX] EAX hA
  have hE1 := FlushLockX_Exclusive gpr [ECX] hE
  have hXL : ECX ∈ (gpr.FlushLockX [ECX]).xlocked := by simp [RegCache.FlushLockX]
  have hO1 : EAX ∉ (gpr.FlushLockX [ECX]).order := by
    have : (gpr.FlushLockX [ECX]).order = gpr.order := foldl_spillX_order [ECX] gpr
    rw [this]; exact hO
  have hval : ∀ (j v : Nat) (h0 : Host),
      (gpr.FlushLockX [ECX]).value (h0.setX ECX v) j = (gpr.FlushLockX [ECX]).value h0 j :=
    fun j v h0 => value_setX_ne _ h0 ECX v j (R_ne_of_Vacant _ ECX j hC1)
  have hlt : u32 inst.SIMM_16 < 4294967296 := by unfold u32; omega
  by_cases hRA : inst.RA = 0
  · refine ⟨_, rfl, ?_, ?_, ⟨hA1, hC1, hXL, hO1, hE1, ?_⟩, ?_⟩
    · simp [hRA, runCache, RegCache.step]
    · simp [hRA, accessesOf, Op.access]
    · simp only [hRA, bne_self_eq_false, Bool.false_eq_true, if_false, List.append_nil, runMem,
        Host.stepMem, Host.step, RegCache.step, write_R, read_Imm32, setX_xreg_self, mw_base,
        if_true, Nat.add_zero]
      exact (Nat.mod_eq_of_lt hlt).symm
    · intro j
      simp only [hRA, bne_self_eq_false, Bool.false_eq_true, if_false, List.append_nil, runMem,
        Host.stepMem, Host.step, RegCache.step, write_R, read_Imm32, hval]
      exact FlushLockX_value gpr h ECX j
  · have hb : (inst.RA != 0) = true := by simpa using hRA
    have hbase : ((gpr.FlushLockX [ECX]).R inst.RA).read
        ((h.flushX gpr [ECX]).setX ECX (u32 inst.SIMM_16)) = gpr.value h inst.RA := by
      have := hval inst.RA (u32 inst.SIMM_16) (h.flushX gpr [ECX])
      unfold RegCache.value at this
      rw [this]
      exact FlushLockX_value gpr h ECX inst.RA
    refine ⟨_, rfl, ?_, ?_, ⟨hA1, hC1, hXL, hO1, hE1, ?_⟩, ?_⟩
    · simp [hb, runCache, RegCache.step]
    · simp [hb, accessesOf, Op.access]
    · simp only [hb, if_true, List.cons_append, List.nil_append, runMem, Host.stepMem, Host.step,
        RegCache.step, write_R, read_Imm32, read_R, setX_xreg_self, hbase, mw_base, hRA,
        if_false]
    · intro j
      simp only [hb, if_true, List.cons_append, List.nil_append, runMem, Host.stepMem, Host.step,
        RegCache.step, write_R, read_Imm32, hval]
      exact FlushLockX_value gpr h ECX j

/-- What the code of `lmw` does when it runs: it loads the words at the
addresses `mw_address` for the registers `RD`, ..., 31 in order, and each of
these registers ends up holding its word. -/
theorem lmw_semantics (cfg : Config) (inst : UGeckoInstruction) (mem : Nat → Nat) (jit : Jit)
    (h : Host) (hT : cfg.bJITLoadStoreOff = false)
    (hA : jit.gpr.Vacant EAX) (hO : EAX ∉ jit.gpr.order) (hE : jit.gpr.Exclusive) :
    accessesOf mem jit.gpr h ((lmw cfg inst jit).emittedSince jit)
        = (List.range' inst.RD (32 - inst.RD)).map (fun i =>
            Access.mk false (mw_address inst jit.gpr h i) 32 (mem (mw_address inst jit.gpr h i)))
    ∧ (∀ i ∈ List.range' inst.RD (32 - inst.RD),
        (runCache jit.gpr ((lmw cfg inst jit).emittedSince jit)).value
            (runMem mem jit.gpr h ((lmw cfg inst jit).emittedSince jit)) i
          = mem (mw_address inst jit.gpr h i)) := by
  obtain ⟨pro, hpro, hrc, hacc0, hInv, _⟩ := lmw_prologue inst mem jit.gpr h hA hO hE
  have haddr : ∀ i : Nat,
      u32 ((((u32 inst.SIMM_16 + mw_base inst jit.gpr h) % 4294967296 : Nat) : Int)
        + ((i : Int) - inst.RD) * 4) = mw_address inst jit.gpr h i := by
    intro i
    rw [u32_lmw_address]
    unfold mw_address
    congr 1
    ring
  have hP : lmw cfg inst jit
      = ((List.range' inst.RD (32 - inst.RD)).foldl (lmw_pass cfg inst)
          { gpr := jit.gpr.FlushLockX [ECX], js := jit.js, code := jit.code ++ pro }).UnlockAllX := by
    unfold lmw
    by_cases hRA : inst.RA = 0 <;> simp [hT, hpro, hRA, Jit.FlushLockX, Jit.emit]
  obtain ⟨ops, hc, _, ha, hin, _⟩ := lmw_loop cfg inst mem _ (List.range' inst.RD (32 - inst.RD))
    (List.nodup_range' _ _) { gpr := jit.gpr.FlushLockX [ECX], js := jit.js, code := jit.code ++ pro }
    (runMem mem jit.gpr h pro) hInv
  have hcode : (lmw cfg inst jit).emittedSince jit = pro ++ (ops ++ [Op.UnlockAllX]) :=
    emittedSince_append _ _ _ (by rw [hP]; simp [Jit.UnlockAllX, hc])
  have ha2 : accessesOf mem (jit.gpr.FlushLockX [ECX]) (runMem mem jit.gpr h pro) ops
      = (List.range' inst.RD (32 - inst.RD)).map (fun i =>
          Access.mk false (mw_address inst jit.gpr h i) 32
            (mem (mw_address inst jit.gpr h i))) :=
    ha.trans (List.map_congr_left (fun i _ => by rw [haddr]))
  rw [hcode]
  constructor
  · rw [accessesOf_append, hacc0, hrc, accessesOf_append, ha2]
    simp [accessesOf, Op.access]
  · intro i hi
    rw [runCache_append, runMem_append, hrc, runCache_append, runMem_append]
    exact (hin i hi).trans (by rw [haddr])

/-- What the code of `stmw` does when it runs: it stores the registers `RD`,
..., 31 in order, register `i` at the address `mw_address`. -/
theorem stmw_semantics (cfg : Config) (inst : UGeckoInstruction) (mem : Nat → Nat) (jit : Jit)
    (h : Host) (hT : cfg.bJITLoadStoreOff = false) (hA : jit.gpr.Vacant EAX) :
    accessesOf mem jit.gpr h ((stmw cfg inst jit).emittedSince jit)
      = (List.range' inst.RD (32 - inst.RD)).map (fun i =>
          Access.mk true (mw_address inst jit.gpr h i) 32 (jit.gpr.value h i)) := by
  have hC1 := FlushLockX_Vacant_self jit.gpr ECX
  have hA1 := FlushLockX_Vacant jit.gpr [ECX] EAX hA
  obtain ⟨ops, hc, _, ha⟩ := stmw_loop cfg inst mem (List.range' inst.RD (32 - inst.RD))
    { gpr := jit.gpr.FlushLockX [ECX], js := jit.js, code := jit.code ++ [Op.FlushLockX [ECX]] }
    (h.flushX jit.gpr [ECX]) hA1 hC1
  have hcode : (stmw cfg inst jit).emittedSince jit
      = [Op.FlushLockX [ECX]] ++ (ops ++ [Op.UnlockAllX]) :=
    emittedSince_append _ _ _ (by
      unfold stmw
      simp only [hT, Bool.false_eq_true, if_false, Jit.FlushLockX, Jit.UnlockAllX, hc]
      simp)
  have hv : ∀ j, (jit.gpr.FlushLockX [ECX]).value (h.flushX jit.gpr [ECX]) j = jit.gpr.value h j :=
    fun j => FlushLockX_value jit.gpr h ECX j
  have ha2 : accessesOf mem (jit.gpr.FlushLockX [ECX]) (h.flushX jit.gpr [ECX]) ops
      = (List.range' inst.RD (32 - inst.RD)).map (fun i =>
          Access.mk true (mw_address inst jit.gpr h i) 32 (jit.gpr.value h i)) :=
    ha.trans (List.map_congr_left (fun i _ => by simp only [mw_address, mw_base, hv]))
  rw [hcode]
  have h1 : accessesOf mem jit.gpr h ([Op.FlushLockX [ECX]] ++ (ops ++ [Op.UnlockAllX]))
      = accessesOf mem (jit.gpr.FlushLockX [ECX]) (h.flushX jit.gpr [ECX])
          (ops ++ [Op.UnlockAllX]) := by
    simp [accessesOf, Op.access, RegCache.step, Host.stepMem, Host.step]
  rw [h1, accessesOf_append, ha2]
  simp [accessesOf, Op.access]

/-- C18: with the load/store translators enabled, and from a register cache in
which the scratch register `EAX` is outside the allocator's pool and no host
register holds two guest registers, the code of `lmw` and of `stmw` with
first-register field `d` makes exactly `32 - d` accesses of width 32 when it
runs, one for each of the registers `d`, `d+1`, ..., 31 in ascending order. The
access for register `i` targets `(base + sign_extend16(imm) + 4*(i - d)) mod
2^32`, where `base` is the value of register `a`, or 0 when the field `a` is 0:
`stmw` stores the value of register `i` there, and after `lmw` register `i`
holds the word loaded from there. So the two access the same addresses in the
same order. -/
theorem C18_lmw_stmw_accesses (cfg : Config) (inst : UGeckoInstruction) (mem : Nat → Nat)
    (jit : Jit) (h : Host) (hT : cfg.bJITLoadStoreOff = false)
    (hA : jit.gpr.Vacant EAX) (hO : EAX ∉ jit.gpr.order) (hE : jit.gpr.Exclusive) :
    accessesOf mem jit.gpr h ((lmw cfg inst jit).emittedSince jit)
        = (List.range' inst.RD (32 - inst.RD)).map (fun i =>
            Access.mk false (mw_address inst jit.gpr h i) 32 (mem (mw_address inst jit.gpr h i)))
    ∧ accessesOf mem jit.gpr h ((stmw cfg inst jit).emittedSince jit)
        = (List.range' inst.RD (32 - inst.RD)).map (fun i =>
            Access.mk true (mw_address inst jit.gpr h i) 32 (jit.gpr.value h i))
    ∧ (accessesOf mem jit.gpr h ((lmw cfg inst jit).emittedSince jit)).length = 32 - inst.RD
    ∧ (accessesOf mem jit.gpr h ((stmw cfg inst jit).emittedSince jit)).length = 32 - inst.RD
    ∧ (∀ i, inst.RD ≤ i → i < 32 →
        (runCache jit.gpr ((lmw cfg inst jit).emittedSince jit)).value
            (runMem mem jit.gpr h ((lmw cfg inst jit).emittedSince jit)) i
          = mem (mw_address inst jit.gpr h i))
    ∧ (accessesOf mem jit.gpr h ((lmw cfg inst jit).emittedSince jit)).map Access.address
        = (accessesOf mem jit.gpr h ((stmw cfg inst jit).emittedSince jit)).map Access.address := by
  obtain ⟨hl, hfin⟩ := lmw_semantics cfg inst mem jit h hT hA hO hE
  have hs := stmw_semantics cfg inst mem jit h hT hA
  refine ⟨hl, hs, ?_, ?_, ?_, ?_⟩
  · rw [hl]; simp
  · rw [hs]; simp
  · intro i hd hi
    refine hfin i ?_
    rw [List.mem_range']
    exact ⟨i - inst.RD, by omega, by omega⟩
  · rw [hl, hs]
    simp [List.map_map, Function.comp_def]

/-- C18 applied to `lmw r29, 8(r13)` and `stmw r29, 8(r13)` with `r13` holding
`0x80400000`: three accesses, at `0x80400008`, `0x8040000C` and `0x80400010`. -/
theorem C18_lmw_stmw_accesses_witness :
    sampleConfig.bJITLoadStoreOff = false
    ∧ sampleJit.gpr.Vacant EAX ∧ EAX ∉ sampleJit.gpr.order ∧ sampleJit.gpr.Exclusive
    ∧ (List.range' (encodeMW false 29 13 8).RD (32 - (encodeMW false 29 13 8).RD)).map
        (mw_address (encodeMW false 29 13 8) sampleJit.gpr sampleHost)
        = [0x80400008, 0x8040000C, 0x80400010]
    ∧ accessesOf sampleMem sampleJit.gpr sampleHost
          ((lmw sampleConfig (encodeMW false 29 13 8) sampleJit).emittedSince sampleJit)
        = (List.range' (encodeMW false 29 13 8).RD (32 - (encodeMW false 29 13 8).RD)).map
            (fun i => Access.mk false (mw_address (encodeMW false 29 13 8) sampleJit.gpr sampleHost i)
              32 (sampleMem (mw_address (encodeMW false 29 13 8) sampleJit.gpr sampleHost i))) :=
  ⟨by decide, fun j => by simp [sampleJit, sampleCache], by decide,
    fun i j x hi _ => by simp [sampleJit, sampleCache] at hi, by decide,
    (C18_lmw_stmw_accesses sampleConfig (encodeMW false 29 13 8) sampleMem sampleJit sampleHost
      (by decide) (fun j => by simp [sampleJit, sampleCache]) (by decide)
      (fun i j x hi _ => by simp [sampleJit, sampleCache] at hi)).1⟩

/-! ## C19: locks and reservations are released -/

theorem Released_unlock (jit : Jit) : jit.UnlockAll.UnlockAllX.gpr.Released := ⟨rfl, rfl⟩

theorem foldl_spillX_locked (xs : List X64Reg) (rc : RegCache) :
    (xs.foldl RegCache.spillX rc).locked = rc.locked := by
  induction xs generalizing rc with
  | nil => rfl
  | cons x xs ih => rw [List.foldl_cons, ih]; rfl

theorem FlushLockX_locked (rc : RegCache) (xs : List X64Reg) :
    (rc.FlushLockX xs).locked = rc.locked := foldl_spillX_locked xs rc

theorem lXXx_finish_Released (cfg : Config) (inst : UGeckoInstruction) (sz : Nat)
    (sx update : Bool) (p : AddrPrep) :
    (lXXx_finish cfg inst sz sx update p).gpr.Released := by
  unfold lXXx_finish
  exact Released_unlock _

theorem lXXx_idleBody_Released (cfg : Config) (inst : UGeckoInstruction) (sz : Nat) (sx : Bool)
    (jit : Jit) (hR : jit.gpr.Released) : (lXXx_idleBody cfg inst sz sx jit).gpr.Released :=
  ⟨(BindToRegister_locked jit.gpr inst.RD false true).trans hR.1,
    (BindToRegister_xlocked jit.gpr inst.RD false true).trans hR.2⟩

theorem lXXx_Released (cfg : Config) (inst : UGeckoInstruction) (jit : Jit)
    (hR : jit.gpr.Released) : (lXXx cfg inst jit).gpr.Released := by
  unfold lXXx
  by_cases hT : lXXx_fallback cfg inst = true
  · simpa [hT, Jit.emit] using hR
  by_cases hN : (lXXx_decode inst).isNone = true
  · by_cases hI : lXXx_idle cfg inst (jit.emit (Op.PanicAlert "Invalid instruction")).js = true
    · simp only [hT, hN, hI, Bool.false_eq_true, if_false, if_true]
      exact lXXx_idleBody_Released _ _ _ _ _ hR
    · simp only [hT, hN, hI, Bool.false_eq_true, if_false, if_true]
      exact lXXx_finish_Released _ _ _ _ _ _
  · by_cases hI : lXXx_idle cfg inst jit.js = true
    · simp only [hT, hN, hI, Bool.false_eq_true, if_false, if_true]
      exact lXXx_idleBody_Released _ _ _ _ _ hR
    · simp only [hT, hN, hI, Bool.false_eq_true, if_false, if_true]
      exact lXXx_finish_Released _ _ _ _ _ _

theorem SetImmediate32_Released (jit : Jit) (update : Bool) (a v : Nat)
    (hR : jit.gpr.Released) : (if update then jit.SetImmediate32 a v else jit).gpr.Released := by
  cases update
  · exact hR
  · exact hR

theorem stX_const_Released (cfg : Config) (inst : UGeckoInstruction) (update : Bool) (sz : Nat)
    (jit : Jit) (hR : jit.gpr.Released) : (stX_const cfg inst update sz jit).gpr.Released := by
  unfold stX_const
  by_cases hF : ((stX_addr inst jit.gpr &&& 0xFFFFF000) == 0xCC008000
      && cfg.optimizeGatherPipe) = true
  · simp only [hF, if_true]
    refine ⟨?_, rfl⟩
    cases fifoDirectWrite sz <;> cases update <;>
      simp [Jit.emit, Jit.FlushLockX, Jit.SetImmediate32, Jit.UnlockAllX,
        RegCache.UnlockAllX, RegCache.SetImmediate32, FlushLockX_locked, hR.1]
  · simp only [hF, Bool.false_eq_true, if_false]
    by_cases hRam : cfg.IsRAMAddress (stX_addr inst jit.gpr) = true
    · simp only [hRam, if_true]
      exact SetImmediate32_Released _ _ _ _ hR
    · simp only [hRam, Bool.false_eq_true, if_false]
      cases memoryWrite sz <;> exact SetImmediate32_Released _ _ _ _ hR

theorem stX_Released (cfg : Config) (inst : UGeckoInstruction) (jit : Jit)
    (hR : jit.gpr.Released) : (stX cfg inst jit).gpr.Released := by
  unfold stX
  by_cases hT : cfg.bJITLoadStoreOff = true
  · simpa [hT, Jit.emit] using hR
  by_cases hG : (inst.RA != 0 || !stX_update inst) = true
  · simp only [hT, hG, Bool.false_eq_true, if_false, if_true]
    cases stX_accessSize inst with
    | none => exact hR
    | some sz =>
      simp only
      by_cases hC : (inst.RA == 0 || (jit.gpr.R inst.RA).IsImm) = true
      · simp only [hC, if_true]
        exact stX_const_Released cfg inst _ sz jit hR
      · simp only [hC, Bool.false_eq_true, if_false]
        unfold stX_dynamic
        exact Released_unlock _
  · simp only [hT, hG, Bool.false_eq_true, if_false]
    exact hR

theorem stXx_Released (cfg : Config) (inst : UGeckoInstruction) (jit : Jit)
    (hR : jit.gpr.Released) : (stXx cfg inst jit).gpr.Released := by
  unfold stXx
  by_cases hT : cfg.bJITLoadStoreOff = true
  · simpa [hT, Jit.emit] using hR
  by_cases hB : (inst.RA == 0 || inst.RA == inst.RS || inst.RA == inst.RB) = true
  · simp only [hT, hB, Bool.false_eq_true, if_false, if_true]
    exact hR
  · simp only [hT, hB, Bool.false_eq_true, if_false]
    exact Released_unlock _

theorem lmw_loop_locked (cfg : Config) (inst : UGeckoInstruction) (l : List Nat) :
    ∀ jit : Jit, (l.foldl (lmw_pass cfg inst) jit).gpr.locked = jit.gpr.locked := by
  induction l with
  | nil => intro jit; rfl
  | cons i l ih =>
    intro jit
    rw [List.foldl_cons, ih, (lmw_pass_code cfg inst jit i).2, BindToRegister_locked]

theorem stmw_loop_gpr (cfg : Config) (inst : UGeckoInstruction) (l : List Nat) :
    ∀ jit : Jit, (l.foldl (stmw_pass cfg inst) jit).gpr = jit.gpr := by
  induction l with
  | nil => intro jit; rfl
  | cons i l ih =>
    intro jit
    rw [List.foldl_cons, ih]
    unfold stmw_pass
    by_cases hRA : inst.RA = 0 <;> simp [hRA, Jit.emit]

theorem lmw_Released (cfg : Config) (inst : UGeckoInstruction) (jit : Jit)
    (hR : jit.gpr.Released) : (lmw cfg inst jit).gpr.Released := by
  unfold lmw
  by_cases hT : cfg.bJITLoadStoreOff = true
  · simpa [hT, Jit.emit] using hR
  simp only [hT, Bool.false_eq_true, if_false]
  refine ⟨?_, rfl⟩
  simp only [Jit.UnlockAllX, RegCache.UnlockAllX, lmw_loop_locked]
  split_ifs <;> exact (FlushLockX_locked jit.gpr [ECX]).trans hR.1

theorem stmw_Released (cfg : Config) (inst : UGeckoInstruction) (jit : Jit)
    (hR : jit.gpr.Released) : (stmw cfg inst jit).gpr.Released := by
  unfold stmw
  by_cases hT : cfg.bJITLoadStoreOff = true
  · simpa [hT, Jit.emit] using hR
  simp only [hT, Bool.false_eq_true, if_false]
  refine ⟨?_, rfl⟩
  simp only [Jit.UnlockAllX, RegCache.UnlockAllX, stmw_loop_gpr]
  exact (FlushLockX_locked jit.gpr [ECX]).trans hR.1

/-- C19: from a register cache with no guest register locked and no host
register reserved, each of `lXXx`, `stX`, `stXx`, `lmw` and `stmw` returns, on
every path, with a register cache in which again no guest register is locked
and no host register is reserved. -/
theorem C19_locks_released (cfg : Config) (inst : UGeckoInstruction) (jit : Jit)
    (hL : jit.gpr.locked = []) (hX : jit.gpr.xlocked = []) :
    ((lXXx cfg inst jit).gpr.locked = [] ∧ (lXXx cfg inst jit).gpr.xlocked = [])
    ∧ ((stX cfg inst jit).gpr.locked = [] ∧ (stX cfg inst jit).gpr.xlocked = [])
    ∧ ((stXx cfg inst jit).gpr.locked = [] ∧ (stXx cfg inst jit).gpr.xlocked = [])
    ∧ ((lmw cfg inst jit).gpr.locked = [] ∧ (lmw cfg inst jit).gpr.xlocked = [])
    ∧ ((stmw cfg inst jit).gpr.locked = [] ∧ (stmw cfg inst jit).gpr.xlocked = []) :=
  ⟨lXXx_Released cfg inst jit ⟨hL, hX⟩, stX_Released cfg inst jit ⟨hL, hX⟩,
    stXx_Released cfg inst jit ⟨hL, hX⟩, lmw_Released cfg inst jit ⟨hL, hX⟩,
    stmw_Released cfg inst jit ⟨hL, hX⟩⟩

/-- C19 applied to `lwzx r3, r4, r5`, which locks three guest registers and
reserves the scratch register on its way. -/
theorem C19_locks_released_witness :
    sampleJit.gpr.locked = [] ∧ sampleJit.gpr.xlocked = []
    ∧ Op.Lock [4, 5, 3] ∈ (lXXx sampleConfig (encodeX 3 4 5 23) sampleJit).code
    ∧ Op.FlushLockX [X64Reg.RDI] ∈ (lXXx sampleConfig (encodeX 3 4 5 23) sampleJit).code
    ∧ (lXXx sampleConfig (encodeX 3 4 5 23) sampleJit).gpr.locked = []
    ∧ (lXXx sampleConfig (encodeX 3 4 5 23) sampleJit).gpr.xlocked = [] :=
  ⟨rfl, rfl, by decide, by decide,
    (C19_locks_released sampleConfig (encodeX 3 4 5 23) sampleJit rfl rfl).1⟩

/-! ## C20: a load without update leaves its base register alone -/

theorem guestWrites_append (a : Nat) (xs ys : List Op) (g : RegCache) :
    guestWrites a g (xs ++ ys) = guestWrites a g xs ++ guestWrites a (runCache g xs) ys := by
  induction xs generalizing g with
  | nil => rfl
  | cons op ops ih => simp [guestWrites, runCache, ih]

theorem BindToRegister_regs_imm (g : RegCache) (d a v : Nat) (l m : Bool) (hne : a ≠ d)
    (h : g.regs a = Loc.imm v) : (g.BindToRegister d l m).regs a = Loc.imm v := by
  unfold RegCache.BindToRegister
  cases hd : g.regs d <;> simp [hne, RegCache.spillX, h]

/-- The tail of `lXXx` for a load without update: its code, and that it leaves
guest register `a` alone when `a` is not the destination. -/
theorem lXXx_finish_frame (cfg : Config) (inst : UGeckoInstruction) (sz : Nat) (sx : Bool)
    (p : AddrPrep) (hne : inst.RA ≠ inst.RD) (hWF : p.jit.gpr.Apart inst.RA inst.RD) :
    ∃ fin, (lXXx_finish cfg inst sz sx false p).code = p.jit.code ++ fin
      ∧ (∃ dst regs, Op.SafeLoadToReg dst p.opAddress sz p.loadOffset regs sx ∈ fin)
      ∧ guestWrites inst.RA p.jit.gpr fin = []
      ∧ (∀ op ∈ fin, op.dirties inst.RA = false)
      ∧ (∀ v, p.jit.gpr.regs inst.RA = Loc.imm v →
          (lXXx_finish cfg inst sz sx false p).gpr.regs inst.RA = Loc.imm v) := by
  have hw := BindToRegister_R_ne (p.jit.gpr.Lock [inst.RA, inst.RB, inst.RD]) inst.RD inst.RA
    p.jit.js.memcheck true hne hWF
  have hd : (inst.RD == inst.RA) = false := by simpa using Ne.symm hne
  refine ⟨[Op.Lock [inst.RA, inst.RB, inst.RD],
    Op.BindToRegister inst.RD p.jit.js.memcheck true,
    Op.SafeLoadToReg ((lXXx_loadCache inst p.jit.js.memcheck p.jit.gpr).RX inst.RD)
      p.opAddress sz p.loadOffset
      (cfg.CallerSavedRegistersInUse (lXXx_loadCache inst p.jit.js.memcheck p.jit.gpr)) sx,
    Op.UnlockAll, Op.UnlockAllX], ?_,
    ⟨(lXXx_loadCache inst p.jit.js.memcheck p.jit.gpr).RX inst.RD,
      cfg.CallerSavedRegistersInUse (lXXx_loadCache inst p.jit.js.memcheck p.jit.gpr),
      by simp⟩, ?_, ?_, ?_⟩
  · simp [lXXx_finish, lXXx_loadCache, Jit.emit, Jit.Lock, Jit.BindToRegister, Jit.UnlockAll,
      Jit.UnlockAllX]
  · have hw2 : ¬ OpArg.R ((lXXx_loadCache inst p.jit.js.memcheck p.jit.gpr).RX inst.RD)
        = (lXXx_loadCache inst p.jit.js.memcheck p.jit.gpr).R inst.RA := hw
    simp [guestWrites, Op.modifiesGuest, Op.written, RegCache.step, lXXx_loadCache] at hw2 ⊢
    exact hw2
  · intro op hop
    simp only [List.mem_cons, List.mem_singleton, List.not_mem_nil, or_false] at hop
    rcases hop with h | h | h | h | h <;> simp [h, Op.dirties, hd]
  · intro v hv
    have := BindToRegister_regs_imm (p.jit.gpr.Lock [inst.RA, inst.RB, inst.RD]) inst.RD
      inst.RA v p.jit.js.memcheck true hne hv
    simpa [lXXx_finish, Jit.emit, Jit.Lock, Jit.BindToRegister, Jit.UnlockAll, Jit.UnlockAllX,
      RegCache.UnlockAll, RegCache.UnlockAllX] using this

/-- A load without update whose address preparation `p` emitted the calls `pre`,
none of which touches guest register `a`: the whole translation leaves `a`
alone, and its load takes the address operand and displacement of `p`. -/
theorem lXXx_frame_of_prep (cfg : Config) (inst : UGeckoInstruction) (jit : Jit) (sz : Nat)
    (sx : Bool) (p : AddrPrep) (pre : List Op)
    (hl : lXXx cfg inst jit = lXXx_finish cfg inst sz sx false p)
    (hc : p.jit.code = jit.code ++ pre) (hg : runCache jit.gpr pre = p.jit.gpr)
    (hne : inst.RA ≠ inst.RD) (hWF : p.jit.gpr.Apart inst.RA inst.RD)
    (hgw : guestWrites inst.RA jit.gpr pre = [])
    (hd : ∀ op ∈ pre, op.dirties inst.RA = false)
    (himm : ∀ v, jit.gpr.regs inst.RA = Loc.imm v → p.jit.gpr.regs inst.RA = Loc.imm v) :
    guestWrites inst.RA jit.gpr ((lXXx cfg inst jit).emittedSince jit) = []
    ∧ (∀ op ∈ (lXXx cfg inst jit).emittedSince jit, op.dirties inst.RA = false)
    ∧ (∀ v, jit.gpr.regs inst.RA = Loc.imm v → (lXXx cfg inst jit).gpr.regs inst.RA = Loc.imm v)
    ∧ (∃ dst regs, Op.SafeLoadToReg dst p.opAddress sz p.loadOffset regs sx
        ∈ (lXXx cfg inst jit).emittedSince jit)
    ∧ (∀ op ∈ pre, op ∈ (lXXx cfg inst jit).emittedSince jit) := by
  obtain ⟨fin, hfc, ⟨dst, regs, hload⟩, hfgw, hfd, hfimm⟩ :=
    lXXx_finish_frame cfg inst sz sx p hne hWF
  have hcode : (lXXx cfg inst jit).emittedSince jit = pre ++ fin :=
    emittedSince_append _ _ _ (by rw [hl, hfc, hc, List.append_assoc])
  rw [hcode]
  refine ⟨?_, ?_, ?_, ⟨dst, regs, List.mem_append_right _ hload⟩,
    fun op hop => List.mem_append_left _ hop⟩
  · rw [guestWrites_append, hgw, hg, hfgw]
    rfl
  · intro op hop
    rcases List.mem_append.1 hop with h | h
    · exact hd op h
    · exact hfd op h
  · intro v hv
    rw [hl]
    exact hfimm v (himm v hv)

theorem BindToRegister_Apart_self (g : RegCache) (a d : Nat) (l m : Bool) (hne : a ≠ d)
    (hWF : g.Apart a d) : (g.BindToRegister a l m).Apart a d := by
  intro x ha hd
  have hne2 : d ≠ a := Ne.symm hne
  unfold RegCache.BindToRegister at ha hd
  cases hr : g.regs a with
  | reg y =>
    simp only [hr] at ha hd
    exact hWF x (hr.trans ha) hd
  | home =>
    simp only [hr, if_true, hne2, if_false, Loc.reg.injEq] at ha hd
    exact spillX_regs_ne g g.GetFreeXReg d (by rw [hd, ha])
  | imm v =>
    simp only [hr, if_true, hne2, if_false, Loc.reg.injEq] at ha hd
    exact spillX_regs_ne g g.GetFreeXReg d (by rw [hd, ha])

theorem foldl_spillX_regs_imm (xs : List X64Reg) (rc : RegCache) (i v : Nat)
    (h : rc.regs i = Loc.imm v) : (xs.foldl RegCache.spillX rc).regs i = Loc.imm v := by
  induction xs generalizing rc with
  | nil => exact h
  | cons x xs ih =>
    rw [List.foldl_cons]
    exact ih _ (by simp [RegCache.spillX, h])

theorem FlushLockX_regs_imm (rc : RegCache) (xs : List X64Reg) (i v : Nat)
    (h : rc.regs i = Loc.imm v) : (rc.FlushLockX xs).regs i = Loc.imm v :=
  foldl_spillX_regs_imm xs rc i v h

theorem runCache_of_step_id (ops : List Op) (g : RegCache)
    (h : ∀ op ∈ ops, ∀ g0 : RegCache, g0.step op = g0) : runCache g ops = g := by
  induction ops with
  | nil => rfl
  | cons op ops ih =>
    simp only [runCache, h op (List.mem_cons_self _ _)]
    exact ih (fun o ho => h o (List.mem_cons_of_mem _ ho))

/-- The idle-loop branch of `lXXx` leaves the base register alone and passes the
immediate as the displacement of its load. -/
theorem lXXx_idle_frame (cfg : Config) (inst : UGeckoInstruction) (jit : Jit)
    (hT : lXXx_fallback cfg inst = false) (hI : lXXx_idle cfg inst jit.js = true)
    (hWF : jit.gpr.Apart inst.RA inst.RD) :
    guestWrites inst.RA jit.gpr ((lXXx cfg inst jit).emittedSince jit) = []
    ∧ (∀ op ∈ (lXXx cfg inst jit).emittedSince jit, op.dirties inst.RA = false)
    ∧ (∀ v, jit.gpr.regs inst.RA = Loc.imm v → (lXXx cfg inst jit).gpr.regs inst.RA = Loc.imm v)
    ∧ (∃ dst regs, Op.SafeLoadToReg dst ((jit.gpr.BindToRegister inst.RD false true).R inst.RA)
          32 inst.SIMM_16 regs false ∈ (lXXx cfg inst jit).emittedSince jit) := by
  obtain ⟨hop, hd, ha⟩ := lXXx_idle_fields cfg inst jit.js hI
  have hne : inst.RA ≠ inst.RD := by omega
  have hda : (inst.RD == inst.RA) = false := by simpa using Ne.symm hne
  have hDec : lXXx_decode inst = some (32, false) := by simp [lXXx_decode, hop]
  have hl : lXXx cfg inst jit = lXXx_idleBody cfg inst 32 false jit := by
    simp [lXXx, hT, hDec, hI]
  have hw := BindToRegister_R_ne jit.gpr inst.RD inst.RA false true hne hWF
  have hcode : (lXXx cfg inst jit).emittedSince jit =
      [Op.BindToRegister inst.RD false true,
       Op.SafeLoadToReg ((jit.gpr.BindToRegister inst.RD false true).RX inst.RD)
         ((jit.gpr.BindToRegister inst.RD false true).R inst.RA) 32 inst.SIMM_16
         (cfg.CallerSavedRegistersInUse (jit.gpr.BindToRegister inst.RD false true)) false,
       Op.TEST 32 (OpArg.R ((jit.gpr.BindToRegister inst.RD false true).RX inst.RD))
         (OpArg.R ((jit.gpr.BindToRegister inst.RD false true).RX inst.RD)),
       Op.J_CC CCFlags.CC_NZ "noIdle",
       Op.ABI_PushRegistersAndAdjustStack
         (cfg.CallerSavedRegistersInUse (jit.gpr.BindToRegister inst.RD false true)) false,
       Op.ABI_CallFunctionC Fn.OnIdle (u32 ((cfg.ppcStateGpr inst.RA : Int) + inst.SIMM_16)),
       Op.ABI_PopRegistersAndAdjustStack
         (cfg.CallerSavedRegistersInUse (jit.gpr.BindToRegister inst.RD false true)) false,
       Op.WriteExceptionExit,
       Op.SetJumpTarget "noIdle"] := by
    apply emittedSince_append
    rw [hl]
    simp [lXXx_idleBody, Jit.emit, Jit.BindToRegister, BindToRegister_R]
  rw [hcode]
  refine ⟨?_, ?_, ?_, ⟨_, _, List.mem_cons_of_mem _ (List.mem_cons_self _ _)⟩⟩
  · simp [guestWrites, Op.modifiesGuest, Op.written, RegCache.step] at hw ⊢
    exact hw
  · intro op hop2
    simp only [List.mem_cons, List.mem_singleton, List.not_mem_nil, or_false] at hop2
    rcases hop2 with h | h | h | h | h | h | h | h | h <;> simp [h, Op.dirties, hda]
  · intro v hv
    rw [hl]
    exact BindToRegister_regs_imm jit.gpr inst.RD inst.RA v false true hne hv

/-- The address preparation of a load without update, case by case (lines
143-228). -/
theorem lXXx_prepare_noupdate (cfg : Config) (inst : UGeckoInstruction) (jit : Jit) :
    lXXx_prepareAddress cfg inst false jit =
      if inst.RA = 0 then
        (if inst.OPCD = 31 then ⟨jit.Lock [inst.RB], jit.gpr.R inst.RB, 0, false⟩
          else ⟨jit, OpArg.Imm32 (u32 inst.SIMM_16), 0, false⟩)
      else if lXXx_folds inst jit = true then
        ⟨jit, OpArg.Imm32 (lXXx_foldedAddress inst jit.gpr), 0, false⟩
      else if lXXx_inPlace inst false jit = true then
        ⟨jit.BindToRegister inst.RA true false,
          (jit.gpr.BindToRegister inst.RA true false).R inst.RA, lXXx_offset inst jit.gpr, false⟩
      else lXXx_addrDynamic cfg inst false jit := by
  by_cases hA : inst.RA = 0
  · by_cases h31 : inst.OPCD = 31 <;>
      simp [lXXx_prepareAddress, hA, h31, Jit.Lock, Lock_R]
  · by_cases h31 : inst.OPCD = 31 <;>
    by_cases hIa : (jit.gpr.R inst.RA).IsImm = true <;>
    by_cases hIb : (jit.gpr.R inst.RB).IsImm = true <;>
    by_cases hM : jit.js.memcheck = true <;>
      simp [lXXx_prepareAddress, lXXx_addrDynamic, lXXx_folds, lXXx_foldedAddress, lXXx_inPlace,
        lXXx_offset, hA, h31, hIa, hIb, hM, Jit.BindToRegister]

/-- The ordinary path of `lXXx` for a load without update: the base register is
left alone, and the load takes its address as a folded constant, as the bound
base plus a displacement, or from the scratch register. -/
theorem lXXx_ordinary_frame (cfg : Config) (inst : UGeckoInstruction) (jit : Jit) (sz : Nat)
    (sx : Bool) (hT : lXXx_fallback cfg inst = false) (hI : lXXx_idle cfg inst jit.js = false)
    (hDec : lXXx_decode inst = some (sz, sx)) (hU : lXXx_update inst jit.gpr = false)
    (hne : inst.RA ≠ inst.RD) (hWF : jit.gpr.Apart inst.RA inst.RD) :
    guestWrites inst.RA jit.gpr ((lXXx cfg inst jit).emittedSince jit) = []
    ∧ (∀ op ∈ (lXXx cfg inst jit).emittedSince jit, op.dirties inst.RA = false)
    ∧ (∀ v, jit.gpr.regs inst.RA = Loc.imm v → (lXXx cfg inst jit).gpr.regs inst.RA = Loc.imm v)
    ∧ (inst.RA ≠ 0 → ∃ dst opA off regs,
        Op.SafeLoadToReg dst opA sz off regs sx ∈ (lXXx cfg inst jit).emittedSince jit
        ∧ (lXXx_folds inst jit = true →
            opA = OpArg.Imm32 (lXXx_foldedAddress inst jit.gpr) ∧ off = 0)
        ∧ (lXXx_folds inst jit = false → lXXx_inPlace inst false jit = true →
            opA = (jit.gpr.BindToRegister inst.RA true false).R inst.RA
            ∧ off = lXXx_offset inst jit.gpr)
        ∧ (lXXx_folds inst jit = false → lXXx_inPlace inst false jit = false →
            opA = OpArg.R cfg.ABI_PARAM1 ∧ off = 0
            ∧ Op.FlushLockX [cfg.ABI_PARAM1] ∈ (lXXx cfg inst jit).emittedSince jit
            ∧ ∀ op ∈ lXXx_scratchOps cfg inst jit.gpr,
                op ∈ (lXXx cfg inst jit).emittedSince jit)) := by
  have hl : lXXx cfg inst jit
      = lXXx_finish cfg inst sz sx false (lXXx_prepareAddress cfg inst false jit) := by
    simp [lXXx, hT, hDec, hI, hU]
  have hp := lXXx_prepare_noupdate cfg inst jit
  by_cases hA : inst.RA = 0
  · have hA0 : inst.RA ≠ 0 → False := fun h => h hA
    by_cases h31 : inst.OPCD = 31
    · simp only [hA, h31, if_true] at hp
      rw [hp] at hl
      obtain ⟨h1, h2, h3, _, _⟩ := lXXx_frame_of_prep cfg inst jit sz sx _ [Op.Lock [inst.RB]] hl
        (by simp [Jit.Lock]) rfl hne hWF (by simp [guestWrites, Op.modifiesGuest, Op.written])
        (by simp [Op.dirties]) (fun v hv => hv)
      exact ⟨h1, h2, h3, fun h => absurd hA h⟩
    · simp only [hA, h31, if_true, if_false] at hp
      rw [hp] at hl
      obtain ⟨h1, h2, h3, _, _⟩ := lXXx_frame_of_prep cfg inst jit sz sx _ [] hl
        (by simp) rfl hne hWF rfl (by simp) (fun v hv => hv)
      exact ⟨h1, h2, h3, fun h => absurd hA h⟩
  · by_cases hF : lXXx_folds inst jit = true
    · simp only [hA, hF, if_true, if_false] at hp
      rw [hp] at hl
      obtain ⟨h1, h2, h3, ⟨dst, regs, h4⟩, _⟩ := lXXx_frame_of_prep cfg inst jit sz sx _ [] hl
        (by simp) rfl hne hWF rfl (by simp) (fun v hv => hv)
      exact ⟨h1, h2, h3, fun _ => ⟨dst, _, _, regs, h4, fun _ => ⟨rfl, rfl⟩,
        fun h => by simp [hF] at h, fun h => by simp [hF] at h⟩⟩
    · by_cases hS : lXXx_inPlace inst false jit = true
      · simp only [hA, hF, hS, if_true, if_false] at hp
        rw [hp] at hl
        have hnimm : (jit.gpr.R inst.RA).IsImm = false := by
          by_cases h31 : inst.OPCD = 31 <;>
            simp [lXXx_folds, lXXx_inPlace, h31] at hF hS <;>
            cases hIa : (jit.gpr.R inst.RA).IsImm <;> simp_all
        obtain ⟨h1, h2, h3, ⟨dst, regs, h4⟩, _⟩ := lXXx_frame_of_prep cfg inst jit sz sx _
          [Op.BindToRegister inst.RA true false] hl (by simp [Jit.BindToRegister]) rfl hne
          (BindToRegister_Apart_self jit.gpr inst.RA inst.RD true false hne hWF)
          (by simp [guestWrites, Op.modifiesGuest, Op.written])
          (by simp [Op.dirties])
          (fun v hv => absurd hv (regs_not_imm jit.gpr inst.RA hnimm v))
        exact ⟨h1, h2, h3, fun _ => ⟨dst, _, _, regs, h4, fun h => absurd h hF,
          fun _ _ => ⟨rfl, rfl⟩, fun _ h => absurd hS (by simp [h])⟩⟩
      · have hS2 : lXXx_inPlace inst false jit = false := by simpa using hS
        simp only [hA, hF, hS, if_false] at hp
        rw [hp, lXXx_addrDynamic_scratch cfg inst false jit hS2] at hl
        obtain ⟨hne0, hwr⟩ := lXXx_scratchOps_written cfg inst jit.gpr
        have hx : ¬ OpArg.R cfg.ABI_PARAM1 = (jit.gpr.FlushLockX [cfg.ABI_PARAM1]).R inst.RA :=
          fun h => FlushLockX_R_ne jit.gpr [cfg.ABI_PARAM1] cfg.ABI_PARAM1 inst.RA
            (List.mem_singleton.2 rfl) h.symm
        have hskip := (guestWrites_skip (lXXx_scratchOps cfg inst jit.gpr) []
          (jit.gpr.FlushLockX [cfg.ABI_PARAM1]) inst.RA cfg.ABI_PARAM1 hwr hx).1
        obtain ⟨h1, h2, h3, ⟨dst, regs, h4⟩, h5⟩ := lXXx_frame_of_prep cfg inst jit sz sx _
          ([Op.FlushLockX [cfg.ABI_PARAM1]] ++ lXXx_scratchOps cfg inst jit.gpr) hl rfl
          (by
            simp only [List.singleton_append, runCache, RegCache.step]
            exact runCache_of_step_id _ _ (fun op hop => (hwr op hop).2.1))
          hne (FlushLockX_Apart jit.gpr [cfg.ABI_PARAM1] inst.RA inst.RD hWF)
          (by
            simp only [List.singleton_append, guestWrites, Op.modifiesGuest, Op.written,
              RegCache.step]
            simpa using hskip)
          (by
            intro op hop
            rcases List.mem_append.1 hop with h | h
            · simp only [List.mem_singleton] at h
              simp [h, Op.dirties]
            · have hw := (hwr op h).1
              cases op <;> simp [Op.written] at hw <;> simp [Op.dirties])
          (fun v hv => FlushLockX_regs_imm jit.gpr [cfg.ABI_PARAM1] inst.RA v hv)
        exact ⟨h1, h2, h3, fun _ => ⟨dst, _, _, regs, h4, fun h => absurd h hF,
          fun _ h => absurd h hS, fun _ _ => ⟨rfl, rfl,
            h5 _ (List.mem_append_left _ (List.mem_singleton.2 rfl)),
            fun op hop => h5 op (List.mem_append_right _ hop)⟩⟩⟩

/-- C20 as stated fails when the base is bound to a constant. For
`lwz r3, 8(r4)` with `r4` bound to `0x80001000` and exception-precise mode off
(no update requested, base different from destination) the offset 8 is neither
passed as the displacement of the load, which is 0, nor added into a scratch
register, which is not reserved: it is folded into the constant address operand
`0x80001008`. -/
theorem C20_lXXx_base_untouched_counterexample :
    lXXx_update (encodeD 32 3 4 8) (sampleJitConst 4 0x80001000).gpr = false
    ∧ (encodeD 32 3 4 8).RA ≠ (encodeD 32 3 4 8).RD
    ∧ (lXXx sampleConfig (encodeD 32 3 4 8) (sampleJitConst 4 0x80001000)).code =
        [Op.Lock [4, 0, 3],
         Op.BindToRegister 3 false true,
         Op.SafeLoadToReg X64Reg.RBP (OpArg.Imm32 0x80001008) 32 0 0 false,
         Op.UnlockAll, Op.UnlockAllX] := by
  decide

/-- C20 (amended): for every load whose opcode `lXXx` recognises and translates,
for which no update is requested and whose base register differs from its
destination register (the two not sharing a host register on entry): no emitted
operation writes to the base register, the base register is never marked dirty
or rebound, and its constant binding (if any) is unchanged. When the base field
is non-zero, the offset is carried as a separate displacement passed to the load
emitter (idle-loop branch, and the step that binds the base in place), or added
into the scratch register (scratch-register step), or, when the address is
folded at translation time because the base (and for an X-form the index) is
bound to a constant with exception-precise mode off, folded into the constant
address operand of the load, whose displacement is then 0. -/
theorem C20_lXXx_base_untouched (cfg : Config) (inst : UGeckoInstruction) (jit : Jit)
    (sz : Nat) (sx : Bool)
    (hT : lXXx_fallback cfg inst = false) (hDec : lXXx_decode inst = some (sz, sx))
    (hU : lXXx_update inst jit.gpr = false)
    (hne : inst.RA ≠ inst.RD) (hWF : jit.gpr.Apart inst.RA inst.RD) :
    guestWrites inst.RA jit.gpr ((lXXx cfg inst jit).emittedSince jit) = []
    ∧ (∀ op ∈ (lXXx cfg inst jit).emittedSince jit, op.dirties inst.RA = false)
    ∧ (∀ v, jit.gpr.regs inst.RA = Loc.imm v → (lXXx cfg inst jit).gpr.regs inst.RA = Loc.imm v)
    ∧ (inst.RA ≠ 0 → ∃ dst opA off regs,
        Op.SafeLoadToReg dst opA sz off regs sx ∈ (lXXx cfg inst jit).emittedSince jit
        ∧ (lXXx_idle cfg inst jit.js = true →
            opA = (jit.gpr.BindToRegister inst.RD false true).R inst.RA ∧ off = inst.SIMM_16)
        ∧ (lXXx_idle cfg inst jit.js = false → lXXx_folds inst jit = true →
            opA = OpArg.Imm32 (lXXx_foldedAddress inst jit.gpr) ∧ off = 0)
        ∧ (lXXx_idle cfg inst jit.js = false → lXXx_folds inst jit = false →
            lXXx_inPlace inst false jit = true →
            opA = (jit.gpr.BindToRegister inst.RA true false).R inst.RA
            ∧ off = lXXx_offset inst jit.gpr)
        ∧ (lXXx_idle cfg inst jit.js = false → lXXx_folds inst jit = false →
            lXXx_inPlace inst false jit = false →
            opA = OpArg.R cfg.ABI_PARAM1 ∧ off = 0
            ∧ Op.FlushLockX [cfg.ABI_PARAM1] ∈ (lXXx cfg inst jit).emittedSince jit
            ∧ ∀ op ∈ lXXx_scratchOps cfg inst jit.gpr,
                op ∈ (lXXx cfg inst jit).emittedSince jit)) := by
  by_cases hI : lXXx_idle cfg inst jit.js = true
  · obtain ⟨h1, h2, h3, dst, regs, h4⟩ := lXXx_idle_frame cfg inst jit hT hI hWF
    have hop := (lXXx_idle_fields cfg inst jit.js hI).1
    have hd : (sz, sx) = (32, false) := by
      have : lXXx_decode inst = some (32, false) := by simp [lXXx_decode, hop]
      rw [hDec] at this
      exact Option.some.inj this
    obtain ⟨hsz, hsx⟩ := Prod.mk.inj hd
    subst hsz hsx
    exact ⟨h1, h2, h3, fun _ => ⟨dst, _, _, regs, h4, fun _ => ⟨rfl, rfl⟩,
      fun h => by simp [hI] at h, fun h => by simp [hI] at h, fun h => by simp [hI] at h⟩⟩
  · have hI2 : lXXx_idle cfg inst jit.js = false := by simpa using hI
    obtain ⟨h1, h2, h3, h4⟩ := lXXx_ordinary_frame cfg inst jit sz sx hT hI2 hDec hU hne hWF
    refine ⟨h1, h2, h3, fun hA => ?_⟩
    obtain ⟨dst, opA, off, regs, hm, c1, c2, c3⟩ := h4 hA
    exact ⟨dst, opA, off, regs, hm, fun h => absurd h hI, fun _ => c1, fun _ => c2, fun _ => c3⟩

/-- C20 (amended) applied to `lwz r3, 8(r4)` with every register in its home
slot: no emitted call writes `r4`. -/
theorem C20_lXXx_base_untouched_witness :
    lXXx_fallback sampleConfig (encodeD 32 3 4 8) = false
    ∧ lXXx_decode (encodeD 32 3 4 8) = some (32, false)
    ∧ lXXx_update (encodeD 32 3 4 8) sampleJit.gpr = false
    ∧ (encodeD 32 3 4 8).RA ≠ (encodeD 32 3 4 8).RD
    ∧ sampleJit.gpr.Apart (encodeD 32 3 4 8).RA (encodeD 32 3 4 8).RD
    ∧ guestWrites (encodeD 32 3 4 8).RA sampleJit.gpr
        ((lXXx sampleConfig (encodeD 32 3 4 8) sampleJit).emittedSince sampleJit) = [] :=
  ⟨by decide, by decide, by decide, by decide,
    fun x h => by simp [sampleJit, sampleCache] at h,
    (C20_lXXx_base_untouched sampleConfig (encodeD 32 3 4 8) sampleJit 32 false
      (by decide) (by decide) (by decide) (by decide)
      (fun x h => by simp [sampleJit, sampleCache] at h)).1⟩

/-! ## C21: MemoryCard::Read and MemoryCard::Write -/

/-- In exception-precise mode every legal update-form load emits its load
before any call that changes the base register, whether or not the update is
effective. -/
theorem lXXx_form_writeback_after_access (cfg : Config) (inst : UGeckoInstruction) (jit : Jit)
    (hT : lXXx_fallback cfg inst = false) (hM : jit.js.memcheck = true)
    (hForm : lXXx_isUpdateForm inst = true) (hA : inst.RA ≠ 0) (hD : inst.RD ≠ inst.RA) :
    baseUntouchedUntilAccess inst.RA jit.gpr ((lXXx cfg inst jit).emittedSince jit) = true := by
  have hN := lXXx_isUpdateForm_decode inst hForm
  cases hdec : lXXx_decode inst with
  | none => simp [hdec] at hN
  | some p =>
    obtain ⟨sz, sx⟩ := p
    have hI := lXXx_isUpdateForm_not_idle cfg inst jit.js hForm
    have hS : lXXx_inPlace inst (lXXx_update inst jit.gpr) jit = false := by
      simp [lXXx_inPlace, hM]
    have hc := lXXx_code_scratch cfg inst jit sz sx hT hI hdec hA (fun _ => hD) hS
    have hw := lXXx_scratchOps_written cfg inst jit.gpr
    have hx : ¬ OpArg.R cfg.ABI_PARAM1 = (jit.gpr.FlushLockX [cfg.ABI_PARAM1]).R inst.RA :=
      fun h => FlushLockX_R_ne jit.gpr [cfg.ABI_PARAM1] cfg.ABI_PARAM1 inst.RA (by simp) h.symm
    rw [hc]
    simp only [List.append_assoc, List.singleton_append, List.cons_append, List.nil_append]
    simp only [baseUntouchedUntilAccess, Op.isMemoryAccess, Op.modifiesGuest, Op.written,
      RegCache.step]
    simp only [Bool.false_eq_true, if_false]
    rw [(guestWrites_skip _ _ _ _ _ hw.2 hx).2]
    simp [baseUntouchedUntilAccess, Op.isMemoryAccess, Op.modifiesGuest, Op.written,
      RegCache.step]

/-- C2 (amended): for every legal update-form store that `stX` translates on
the constant-RAM, generic-handler or run-time-address path (every path but the
FIFO one), and for every legal update-form load that `lXXx` translates in
exception-precise mode, a memory access is emitted and no call before it
changes the base register: no instruction writes the operand holding it and it
is not rebound to a constant. -/
theorem C2_writeback_after_access (cfg : Config) (inst : UGeckoInstruction) (jit : Jit) :
    (cfg.bJITLoadStoreOff = false → stX_update inst = true → inst.RA ≠ 0 →
      (stX_accessSize inst).isSome = true → stX_fifoPath cfg inst jit.gpr = false →
      baseUntouchedUntilAccess inst.RA jit.gpr ((stX cfg inst jit).emittedSince jit) = true)
    ∧ (lXXx_fallback cfg inst = false → jit.js.memcheck = true →
      lXXx_isUpdateForm inst = true → inst.RA ≠ 0 → inst.RD ≠ inst.RA →
      baseUntouchedUntilAccess inst.RA jit.gpr ((lXXx cfg inst jit).emittedSince jit) = true) := by
  refine ⟨?_, lXXx_form_writeback_after_access cfg inst jit⟩
  intro hT hU hA hS hF
  obtain ⟨sz, hsz⟩ := Option.isSome_iff_exists.mp hS
  exact stX_writeback_after_access cfg inst jit sz hT hU hA hsz hF

/-- C2 (amended) applied to `stwu r3, 4(r4)` with `r4` in its home slot, to
`lwzu r3, 8(r4)` in exception-precise mode, and to `lwzu r3, 0(r4)` in
exception-precise mode, whose update is not effective. -/
theorem C2_writeback_after_access_witness :
    (sampleConfig.bJITLoadStoreOff = false ∧ stX_update (encodeD 37 3 4 4) = true
      ∧ (encodeD 37 3 4 4).RA ≠ 0 ∧ (stX_accessSize (encodeD 37 3 4 4)).isSome = true
      ∧ stX_fifoPath sampleConfig (encodeD 37 3 4 4) sampleJit.gpr = false
      ∧ baseUntouchedUntilAccess (encodeD 37 3 4 4).RA sampleJit.gpr
          ((stX sampleConfig (encodeD 37 3 4 4) sampleJit).emittedSince sampleJit) = true)
    ∧ (lXXx_fallback sampleConfig (encodeD 33 3 4 8) = false
      ∧ sampleJitMemcheck.js.memcheck = true
      ∧ lXXx_isUpdateForm (encodeD 33 3 4 8) = true
      ∧ (encodeD 33 3 4 8).RA ≠ 0 ∧ (encodeD 33 3 4 8).RD ≠ (encodeD 33 3 4 8).RA
      ∧ baseUntouchedUntilAccess (encodeD 33 3 4 8).RA sampleJitMemcheck.gpr
          ((lXXx sampleConfig (encodeD 33 3 4 8) sampleJitMemcheck).emittedSince
            sampleJitMemcheck) = true)
    ∧ (lXXx_isUpdateForm (encodeD 33 3 4 0) = true
      ∧ lXXx_update (encodeD 33 3 4 0) sampleJitMemcheck.gpr = false
      ∧ baseUntouchedUntilAccess (encodeD 33 3 4 0).RA sampleJitMemcheck.gpr
          ((lXXx sampleConfig (encodeD 33 3 4 0) sampleJitMemcheck).emittedSince
            sampleJitMemcheck) = true) :=
  ⟨⟨by decide, by decide, by decide, by decide, by decide,
      (C2_writeback_after_access sampleConfig (encodeD 37 3 4 4) sampleJit).1
        (by decide) (by decide) (by decide) (by decide) (by decide)⟩,
    ⟨by decide, by decide, by decide, by decide, by decide,
      (C2_writeback_after_access sampleConfig (encodeD 33 3 4 8) sampleJitMemcheck).2
        (by decide) (by decide) (by decide) (by decide) (by decide)⟩,
    ⟨by decide, by decide,
      (C2_writeback_after_access sampleConfig (encodeD 33 3 4 0) sampleJitMemcheck).2
        (by decide) (by decide) (by decide) (by decide) (by decide)⟩⟩

end Dolphin
